import Mathlib

/-!
# transformimgs: image-optimisation decision engine

A shallow embedding of `img/processor/imagemagick.go` and
`img/processor/internal/util.go`, followed by theorems about target-size
geometry, output-format negotiation, the quality heuristic, the three
operations `Resize`, `FitToSize` and `Optimise`, image loading and the
illustration classifier.

Conventions of the embedding:

* Go `int` is 64 bits wide.  Sizes and products of sizes wrap (`wrap64`); the
  encoding quality is a percentage and is kept as a plain integer.
* Go `float32` is IEEE 754 binary32 with round-to-nearest-even (`F32`).
* Go `error` values are their messages; `(T, error)` is `Except String T`.
* External commands (`exec.Command(...).Run()`), `fmt.Sscanf` and the
  ImageMagick wand are fields of `Env`; every external call is appended to a
  log that is threaded through the operations.
* Logging through `img.Log` has no effect on any result and is left out.
-/

namespace Transformimgs

/-! ## Go integers -/

/-- Two's-complement wrap of an integer into the range of a 64-bit Go `int`. -/
def wrap64 (x : Int) : Int := (x + 2 ^ 63) % 2 ^ 64 - 2 ^ 63

/-- Wrap of a natural number into the range of a 64-bit Go `uint`. -/
def wrapU64 (x : Nat) : Nat := x % 2 ^ 64

/-- Largest value of a 64-bit Go `int`. -/
def MaxInt64 : Int := 2 ^ 63 - 1

/-! ## Go float32 -/

/-- An IEEE 754 binary32 value: `fin neg m e` is `(-1)^neg * m * 2^e` with
`m < 2^24` and `-149 ≤ e ≤ 104`. -/
inductive F32 where
  | fin (neg : Bool) (m : Nat) (e : Int)
  | inf (neg : Bool)
  | nan
  deriving DecidableEq, Repr

/-- Floor of the binary logarithm by repeated halving; `fuel` bounds the
number of halvings. -/
def ilog2 : Nat → Nat → Nat
  | 0, _ => 0
  | fuel + 1, n => if 2 ≤ n then ilog2 fuel (n / 2) + 1 else 0

namespace F32

/-- Round the non-negative rational `n / d` (`d ≠ 0`) to binary32, to nearest
with ties to even, and attach the sign `neg`. -/
def round (neg : Bool) (n d : Nat) : F32 :=
  if n = 0 then F32.fin neg 0 (-149) else
  let k : Int := (ilog2 n n : Int) - (ilog2 d d : Int)
  let p : Int := if d * 2 ^ k.toNat ≤ n * 2 ^ (-k).toNat then k else k - 1
  let e : Int := max (p - 23) (-149)
  let N := n * 2 ^ (-e).toNat
  let D := d * 2 ^ e.toNat
  let q := N / D
  let r := N % D
  let m := if 2 * r < D then q else if D < 2 * r then q + 1
    else if q % 2 = 0 then q else q + 1
  if m = 2 ^ 24 then (if 104 < e + 1 then F32.inf neg else F32.fin neg (2 ^ 23) (e + 1))
  else if 104 < e then F32.inf neg else F32.fin neg m e

/-- Conversion `float32(i)` of a Go `int`. -/
def ofInt (i : Int) : F32 := round (decide (i < 0)) i.natAbs 1

/-- Conversion `float32(n)` of a Go `uint`. -/
def ofNat (n : Nat) : F32 := round false n 1

/-- Sign flip. -/
def negate : F32 → F32
  | fin s m e => fin (!s) m e
  | inf s => inf (!s)
  | nan => nan

/-- Quotient `a / b` of two float32 values. -/
def div : F32 → F32 → F32
  | nan, _ => nan
  | _, nan => nan
  | inf _, inf _ => nan
  | inf s, fin t _ _ => inf (xor s t)
  | fin s _ _, inf t => fin (xor s t) 0 (-149)
  | fin s m e, fin t m2 e2 =>
    if m2 = 0 then (if m = 0 then nan else inf (xor s t))
    else round (xor s t) (m * 2 ^ (e - e2).toNat) (m2 * 2 ^ (e2 - e).toNat)

/-- Product `a * b` of two float32 values. -/
def mul : F32 → F32 → F32
  | nan, _ => nan
  | _, nan => nan
  | inf s, inf t => inf (xor s t)
  | inf s, fin t m _ => if m = 0 then nan else inf (xor s t)
  | fin s m _, inf t => if m = 0 then nan else inf (xor s t)
  | fin s m e, fin t m2 e2 =>
    round (xor s t) (m * m2 * 2 ^ (e + e2).toNat) (2 ^ (-(e + e2)).toNat)

/-- Sum `a + b` of two float32 values. -/
def add : F32 → F32 → F32
  | nan, _ => nan
  | _, nan => nan
  | inf s, inf t => if s = t then inf s else nan
  | inf s, fin _ _ _ => inf s
  | fin _ _ _, inf t => inf t
  | fin s m e, fin t m2 e2 =>
    let e0 : Int := min e e2
    let a : Int := (if s then -1 else 1) * ((m * 2 ^ (e - e0).toNat : Nat) : Int)
    let b : Int := (if t then -1 else 1) * ((m2 * 2 ^ (e2 - e0).toNat : Nat) : Int)
    let v : Int := a + b
    if v = 0 then fin (s && t) 0 (-149)
    else round (decide (v < 0)) (v.natAbs * 2 ^ e0.toNat) (2 ^ (-e0).toNat)

/-- Difference `a - b` of two float32 values. -/
def sub (a b : F32) : F32 := add a (negate b)

/-- Comparison `a < b`; false when either side is NaN. -/
def lt : F32 → F32 → Bool
  | nan, _ => false
  | _, nan => false
  | inf s, inf t => s && !t
  | inf s, fin _ _ _ => s
  | fin _ _ _, inf t => !t
  | fin s m e, fin t m2 e2 =>
    let e0 : Int := min e e2
    let a : Int := (if s then -1 else 1) * ((m * 2 ^ (e - e0).toNat : Nat) : Int)
    let b : Int := (if t then -1 else 1) * ((m2 * 2 ^ (e2 - e0).toNat : Nat) : Int)
    decide (a < b)

/-- Comparison `a ≤ b`; false when either side is NaN. -/
def le : F32 → F32 → Bool
  | nan, _ => false
  | _, nan => false
  | inf s, inf t => s || !t
  | inf s, fin _ _ _ => s
  | fin _ _ _, inf t => !t
  | fin s m e, fin t m2 e2 =>
    let e0 : Int := min e e2
    let a : Int := (if s then -1 else 1) * ((m * 2 ^ (e - e0).toNat : Nat) : Int)
    let b : Int := (if t then -1 else 1) * ((m2 * 2 ^ (e2 - e0).toNat : Nat) : Int)
    decide (a ≤ b)

/-- Truncation toward zero of a finite value, as an integer. -/
def trunc : Bool → Nat → Int → Int
  | s, m, e =>
    let mag : Nat := if 0 ≤ e then m * 2 ^ e.toNat else m / 2 ^ (-e).toNat
    if s then -(mag : Int) else (mag : Int)

/-- Conversion `int(x)`.  The Go specification leaves the result
implementation-dependent when the truncated value does not fit the type;
`impl` is what the platform returns in that case. -/
def toInt (impl : F32 → Int) : F32 → Int
  | fin s m e =>
    let v := trunc s m e
    if -2 ^ 63 ≤ v ∧ v < 2 ^ 63 then v else impl (fin s m e)
  | x => impl x

/-- Conversion `uint(x)`, with `impl` as for `toInt`. -/
def toUint (impl : F32 → Nat) : F32 → Nat
  | fin s m e =>
    let v := trunc s m e
    if 0 ≤ v ∧ v < 2 ^ 64 then v.toNat else impl (fin s m e)
  | x => impl x

end F32

/-- The constant `float32(1.0)`. -/
def F32.one : F32 := F32.ofNat 1

/-- The constant `0.1` converted to float32. -/
def F32.tenth : F32 := F32.round false 1 10

/-- The constant `0.5` converted to float32. -/
def F32.half : F32 := F32.round false 1 2

/-- The constant `0.02` converted to float32. -/
def F32.twoPercent : F32 := F32.round false 2 100

/-! ## Package img: data model -/

/-- Raw bytes (`[]byte`); only their number and identity matter here. -/
abbrev Bytes := List Nat

/-- Modelled from the spec: `img.Image` (the package `img` is not part of the
source tree): an identifier for logging, the encoded bytes and a MIME type. -/
structure Image where
  Id : String
  Data : Bytes
  MimeType : String
  deriving DecidableEq, Repr

/-- Modelled from the spec: `img.Info`, the metadata derived from an image:
format token, encoding quality, opacity flag, pixel width and height, byte
size and the illustration flag. -/
structure Info where
  Format : String
  Quality : Int
  Opaque : Bool
  Width : Int
  Height : Int
  Size : Int
  Illustration : Bool
  deriving DecidableEq, Repr

/-- Modelled from the spec: `img.Quality`, the requested quality tier. -/
inductive Quality where
  | DEFAULT
  | LOW
  | LOWER
  deriving DecidableEq, Repr

/-- Modelled from the spec: `img.ResizeConfig`, the size specification of a
resize or fit request. -/
structure ResizeConfig where
  Size : String
  deriving DecidableEq, Repr

/-- Modelled from the spec: `img.TransformationConfig`.  `Config` is the
operation-specific payload; `none` stands for a payload that is not a
`*img.ResizeConfig`, for which the type assertion in `Resize` and `FitToSize`
fails. -/
structure TransformationConfig where
  Src : Image
  SupportedFormats : List String
  Quality : Quality
  Config : Option ResizeConfig

/-- An `Info` with every field at its Go zero value. -/
def Info.zero : Info :=
  { Format := "", Quality := 0, Opaque := false, Width := 0, Height := 0, Size := 0,
    Illustration := false }

/-! ## Package internal: target-size geometry (util.go) -/

/-- The call `sizeRegexp.FindStringSubmatch(s)` for
`sizeRegexp = (\d*)x?(\d*)`.  Every part of the pattern may match the empty
string, so the leftmost match starts at offset 0; each part is greedy.  The
result holds the whole match, then the two digit groups. -/
def sizeRegexp_FindStringSubmatch (s : String) : List String :=
  let cs := s.toList
  let g1 := cs.takeWhile Char.isDigit
  let r1 := cs.dropWhile Char.isDigit
  let x : List Char := match r1 with
    | 'x' :: _ => ['x']
    | _ => []
  let r2 := match r1 with
    | 'x' :: t => t
    | _ => r1
  let g2 := r2.takeWhile Char.isDigit
  [String.mk (g1 ++ x ++ g2), String.mk g1, String.mk g2]

/-- The number that a list of decimal digits denotes. -/
def digitsValue (ds : List Char) : Nat :=
  ds.foldl (fun a c => 10 * a + (c.toNat - 48)) 0

/-- Whether the text handed to `Atoi` starts with a minus sign. -/
def atoiSign : List Char → Bool
  | '-' :: _ => true
  | _ => false

/-- The text handed to `Atoi` without its leading sign, if it has one. -/
def atoiBody : List Char → List Char
  | '-' :: t => t
  | '+' :: t => t
  | cs => cs

/-- The call `strconv.Atoi(s)`: the parsed value and the error, if any.  A
syntax error yields 0; a value outside the range of `int` is clamped. -/
def Atoi (s : String) : Int × Option String :=
  let cs := s.toList
  let sign := atoiSign cs
  let ds := atoiBody cs
  if ds = [] ∨ ds.all Char.isDigit = false then (0, some "invalid syntax")
  else
    let n : Nat := digitsValue ds
    let v : Int := if sign then -(n : Int) else (n : Int)
    if MaxInt64 < v then (MaxInt64, some "value out of range")
    else if v < -2 ^ 63 then (-2 ^ 63, some "value out of range")
    else (v, none)

/-- The function `CalculateTargetSize` of util.go.  The Go function mutates
`target` and returns an error; here the updated target is returned together
with the error (which is always nil).  `impl` is the platform's result of an
out-of-range `int(float32)` conversion. -/
def CalculateTargetSize (impl : F32 → Int) (source target : Info) (targetSize : String) :
    Info × Option String :=
  let parsedSize := sizeRegexp_FindStringSubmatch targetSize
  let target : Info :=
    if 0 < (parsedSize.getD 1 "").length then
      { target with Width := (Atoi (parsedSize.getD 1 "")).1 }
    else target
  let target : Info :=
    if 0 < (parsedSize.getD 2 "").length ∧ target.Width = 0 then
      { target with Height := (Atoi (parsedSize.getD 2 "")).1 }
    else target
  let aspectRatio := F32.div (F32.ofInt source.Width) (F32.ofInt source.Height)
  let target : Info :=
    if 0 < target.Width then
      { target with Height := F32.toInt impl (F32.div (F32.ofInt target.Width) aspectRatio) }
    else if 0 < target.Height then
      { target with Width := F32.toInt impl (F32.mul (F32.ofInt target.Height) aspectRatio) }
    else target
  (target, none)

/-- Whether a size specification names both a width and a height: both digit
groups of `sizeRegexp` are non-empty. -/
def namesWidthAndHeight (targetSize : String) : Bool :=
  let parsedSize := sizeRegexp_FindStringSubmatch targetSize
  decide (0 < (parsedSize.getD 1 "").length) && decide (0 < (parsedSize.getD 2 "").length)

/-- Modelled from the spec: `internal.CalculateTargetSizeForFit`, which
`FitToSize` calls and which is not part of the source tree.  The size
specification must name both width and height (the shape `WxH`), and then the
target is exactly `(W, H)`; if either is missing the result is the error
"size param should be in format WxH". -/
def CalculateTargetSizeForFit (target : Info) (targetSize : String) : Info × Option String :=
  let parsedSize := sizeRegexp_FindStringSubmatch targetSize
  if namesWidthAndHeight targetSize then
    ({ target with Width := (Atoi (parsedSize.getD 1 "")).1,
                   Height := (Atoi (parsedSize.getD 2 "")).1 }, none)
  else (target, some "size param should be in format WxH")

/-- Modelled from the spec: `internal.CalculateTargetSizeForResize`, which
`Resize` calls (imagemagick.go line 134) and which is not part of the source
tree.  The size is optional width digits, an optional "x" and optional height
digits.  The width is parsed first and the height only if the width is absent.
A width that is present (non-zero) gives the height `width / aspectRatio`,
whatever height was written; a height alone gives the width
`height * aspectRatio`; the aspect ratio is the real-valued (float32) quotient
of the source width and the source height, and the integer cast comes last.
If neither dimension parses to a positive integer the target is left as it is
and the result is an error. -/
def CalculateTargetSizeForResize (impl : F32 → Int) (source target : Info)
    (targetSize : String) : Info × Option String :=
  let parsedSize := sizeRegexp_FindStringSubmatch targetSize
  let width : Int :=
    if 0 < (parsedSize.getD 1 "").length then (Atoi (parsedSize.getD 1 "")).1 else 0
  let height : Int :=
    if width = 0 ∧ 0 < (parsedSize.getD 2 "").length then (Atoi (parsedSize.getD 2 "")).1
    else 0
  let aspectRatio := F32.div (F32.ofInt source.Width) (F32.ofInt source.Height)
  if 0 < width then
    ({ target with Width := width,
                   Height := F32.toInt impl (F32.div (F32.ofInt width) aspectRatio) }, none)
  else if 0 < height then
    ({ target with Width := F32.toInt impl (F32.mul (F32.ofInt height) aspectRatio),
                   Height := height }, none)
  else (target, some "could not calculate target size")

/-! ## Package processor: the ImageMagick processor (imagemagick.go) -/

/-- The receiver `ImageMagick`: the paths of the two binaries, the static
additional arguments and the optional callback `GetAdditionalArgs`
(`none` is a nil function value). -/
structure ImageMagick where
  convertCmd : String
  identifyCmd : String
  AdditionalArgs : List String
  GetAdditionalArgs : Option (String → Bytes → Info → Info → List String)

/-- The wand of the imagick binding as far as `isIllustration` reads it: the
pixel width and height of the image it holds and the pixel count of every
colour of its histogram. -/
structure MagickWand where
  width : Nat
  height : Nat
  histogram : List Nat
  deriving DecidableEq, Repr

/-- An external call made by the processor. -/
inductive Call where
  | exec (cmd : String) (args : List String)
  | readImageBlob
  | scaleImage (cols rows : Nat)
  | getImageHistogram
  deriving DecidableEq, Repr

/-- The external collaborators.  `run cmd args stdin` is
`exec.Command(cmd)` with `args` appended, run with `stdin`: the bytes written
to stdout, or the error of `Run`.  `sscanf` is `fmt.Sscanf` with the format
`%s %d %t %d %d` on the output of identify.  `readImageBlob` and `scaleImage`
are the wand operations.  `intOfF32` and `uintOfF32` give the platform's
result of an out-of-range conversion of a float32. -/
structure Env where
  run : String → List String → Bytes → Except String Bytes
  sscanf : Bytes → Except String (String × Int × Bool × Int × Int)
  readImageBlob : Bytes → Except String MagickWand
  scaleImage : MagickWand → Nat → Nat → Except String MagickWand
  intOfF32 : F32 → Int
  uintOfF32 : F32 → Nat

/-- The variable `convertOpts`. -/
def convertOpts : List String :=
  [ "-dither", "None",
    "-define", "jpeg:fancy-upsampling=off",
    "-define", "png:compression-filter=5",
    "-define", "png:compression-level=9",
    "-define", "png:compression-strategy=0",
    "-define", "png:exclude-chunk=bKGD,cHRM,EXIF,gAMA,iCCP,iTXt,sRGB,tEXt,zCCP,zTXt,date",
    "-define", "heic:speed=6",
    "-interlace", "None",
    "-colorspace", "sRGB",
    "-sampling-factor", "4:2:0",
    "+profile", "!icc,*" ]

/-- The variable `cutToFitOpts`. -/
def cutToFitOpts : List String := ["-gravity", "center"]

/-- The constant `MaxWebpWidth`. -/
def MaxWebpWidth : Int := 16383

/-- The constant `MaxWebpHeight`. -/
def MaxWebpHeight : Int := 16383

/-- The constant `MaxAVIFTargetSize`. -/
def MaxAVIFTargetSize : Int := 2000 * 2000

/-- The method `execImagemagick`: run the convert binary on `input` with
`args`; the call is appended to the log. -/
def execImagemagick (env : Env) (p : ImageMagick) (input : Bytes) (args : List String)
    (log : List Call) : Except String Bytes × List Call :=
  (env.run p.convertCmd args input, log ++ [Call.exec p.convertCmd args])

/-- State of the loop of `isIllustration` over the sorted colour counts. -/
structure LoopState where
  colorIdx : Int
  pixelsCount : Int
  fiftyPercent : Int
  hasBackground : Bool
  deriving DecidableEq, Repr

/-- The loop `for colorIdx, count = range colorsCounts` of `isIllustration`;
`i` is the index of the head of the remaining slice. -/
def histogramLoop (impl : F32 → Int) (totalPixelsCount : F32) (tenPercent : Int) :
    List Int → Int → LoopState → LoopState
  | [], _, st => st
  | count :: rest, i, st =>
    let st := { st with colorIdx := i }
    if i = 0 ∧ tenPercent ≤ count then
      histogramLoop impl totalPixelsCount tenPercent rest (i + 1)
        { st with
          hasBackground := true,
          fiftyPercent :=
            F32.toInt impl (F32.mul (F32.sub totalPixelsCount (F32.ofInt count)) F32.half) }
    else if st.fiftyPercent < st.pixelsCount then st
    else
      histogramLoop impl totalPixelsCount tenPercent rest (i + 1)
        { st with pixelsCount := wrap64 (st.pixelsCount + count) }

/-- The method `isIllustration`. -/
def isIllustration (env : Env) (src : Image) (info : Info) (log : List Call) :
    Except String Bool × List Call :=
  if src.Data.length < 20 * 1024 then (.ok true, log)
  else if 1024 * 1024 < src.Data.length then (.ok false, log)
  else if F32.lt F32.one
      (F32.div (F32.ofInt src.Data.length) (F32.ofInt (wrap64 (info.Width * info.Height))))
  then (.ok false, log)
  else
    let log := log ++ [Call.readImageBlob]
    match env.readImageBlob src.Data with
    | .error err => (.error err, log)
    | .ok mw =>
      let scaled : Except String MagickWand × List Call :=
        if 500 * 500 < wrap64 (info.Width * info.Height) then
          let aspectRatio := F32.div (F32.ofInt info.Width) (F32.ofInt info.Height)
          let rows := F32.toUint env.uintOfF32 (F32.div (F32.ofNat 500) aspectRatio)
          (env.scaleImage mw 500 rows, log ++ [Call.scaleImage 500 rows])
        else (.ok mw, log)
      match scaled with
      | (.error err, log) => (.error err, log)
      | (.ok mw, log) =>
        let log := log ++ [Call.getImageHistogram]
        let colors := mw.histogram
        let colorsCnt := colors.length
        if 30000 < colorsCnt then (.ok false, log)
        else
          let colorsCounts : List Int :=
            (colors.map (fun c => wrap64 (c : Int))).insertionSort (fun a b => b ≤ a)
          let imageWidth := mw.width
          let imageHeight := mw.height
          let totalPixelsCount := F32.ofNat (wrapU64 (imageHeight * imageWidth))
          let tenPercent := F32.toInt env.intOfF32 (F32.mul totalPixelsCount F32.tenth)
          let fiftyPercent := F32.toInt env.intOfF32 (F32.mul totalPixelsCount F32.half)
          let st := histogramLoop env.intOfF32 totalPixelsCount tenPercent colorsCounts 0
            { colorIdx := 0, pixelsCount := 0, fiftyPercent := fiftyPercent,
              hasBackground := false }
          let colorsCntIn50Pct := wrap64 (st.colorIdx + 1)
          let colorsCntIn50Pct :=
            if st.hasBackground then wrap64 (colorsCntIn50Pct - 1) else colorsCntIn50Pct
          (.ok (decide (colorsCntIn50Pct < 10) ||
              F32.le (F32.div (F32.ofInt colorsCntIn50Pct) (F32.ofNat colorsCnt)) F32.twoPercent),
            log)

/-- The method `LoadImageInfo`: run identify, parse its output and, for a PNG
source, set the quality to 100 and classify the image. -/
def LoadImageInfo (env : Env) (p : ImageMagick) (src : Image) (log : List Call) :
    Except String Info × List Call :=
  let args := ["-format", "%m %Q %[opaque] %w %h", "-"]
  let log := log ++ [Call.exec p.identifyCmd args]
  match env.run p.identifyCmd args src.Data with
  | .error err => (.error err, log)
  | .ok out =>
    match env.sscanf out with
    | .error err => (.error err, log)
    | .ok (format, quality, isOpaque, width, height) =>
      let imageInfo : Info :=
        { Format := format, Quality := quality, Opaque := isOpaque, Width := width,
          Height := height, Size := src.Data.length, Illustration := false }
      if imageInfo.Format = "PNG" then
        let imageInfo := { imageInfo with Quality := 100 }
        match isIllustration env src imageInfo log with
        | (.error err, log) => (.error err, log)
        | (.ok b, log) => (.ok { imageInfo with Illustration := b }, log)
      else (.ok imageInfo, log)

/-- One iteration of the loop of `getOutputFormat` over the supported formats:
the flags `(webP, avif)` after looking at `f`. -/
def getOutputFormatStep (src target : Info) (acc : Bool × Bool) (f : String) : Bool × Bool :=
  let webP :=
    if f = "image/webp" ∧ src.Height < MaxWebpHeight ∧ src.Width < MaxWebpWidth then true
    else acc.1
  let targetSize := wrap64 (target.Width * target.Height)
  let avif :=
    if f = "image/avif" ∧ src.Format ≠ "GIF" ∧ src.Illustration = false ∧
        targetSize < MaxAVIFTargetSize ∧ targetSize ≠ 0 then true
    else acc.2
  (webP, avif)

/-- The function `getOutputFormat`: the output argument of convert and the
MIME type. -/
def getOutputFormat (src target : Info) (supportedFormats : List String) : String × String :=
  let flags := supportedFormats.foldl (getOutputFormatStep src target) (false, false)
  if flags.2 then ("avif:-", "image/avif")
  else if flags.1 then ("webp:-", "image/webp")
  else ("-", "")

/-- The function `getConvertFormatOptions`. -/
def getConvertFormatOptions (source : Info) : List String :=
  let opts : List String := []
  let opts := if source.Illustration then opts ++ ["-define", "webp:lossless=true"] else opts
  let opts := if source.Format ≠ "GIF" then opts ++ ["-define", "webp:method=6"] else opts
  opts

/-- The call `strconv.Itoa`. -/
def Itoa (i : Int) : String := toString i

/-- The quality that `getQualityOptions` settles on before the tier is
applied; 0 stands for "no quality". -/
def baseQuality (source : Info) (config : TransformationConfig) (outputMimeType : String) :
    Int :=
  if outputMimeType = "image/avif" then
    if 85 < source.Quality then 70
    else if 75 < source.Quality then 60
    else 50
  else if source.Quality = 100 then 82
  else if config.Quality ≠ Quality.DEFAULT then source.Quality
  else 0

/-- The function `getQualityOptions`.  The subtractions `quality -= 10` and
`quality -= 20` are those of a Go `int` and wrap. -/
def getQualityOptions (source : Info) (config : TransformationConfig)
    (outputMimeType : String) : List String :=
  let quality := baseQuality source config outputMimeType
  if quality = 0 then []
  else
    let quality :=
      if quality ≠ 100 then
        match config.Quality with
        | Quality.LOW => wrap64 (quality - 10)
        | Quality.LOWER => wrap64 (quality - 20)
        | Quality.DEFAULT => quality
      else quality
    ["-quality", Itoa quality]

/-- The argument list that `Optimise` builds for convert. -/
def OptimiseArgs (p : ImageMagick) (config : TransformationConfig) (source target : Info)
    (mimeType outputFormatArg : String) : List String :=
  let args : List String := []
  let args := args ++ ["-"]
  let args := args ++ getQualityOptions source config mimeType
  let args := args ++ p.AdditionalArgs
  let args := match p.GetAdditionalArgs with
    | some g => args ++ g "optimise" config.Src.Data source target
    | none => args
  let args := args ++ convertOpts
  let args := args ++ getConvertFormatOptions source
  args ++ [outputFormatArg]

/-- The target that `Optimise` negotiates the format for: the opacity and
the dimensions of the source. -/
def OptimiseTarget (source : Info) : Info :=
  { Info.zero with Opaque := source.Opaque, Width := source.Width, Height := source.Height }

/-- The method `Optimise`. -/
def Optimise (env : Env) (p : ImageMagick) (config : TransformationConfig) (log : List Call) :
    Except String Image × List Call :=
  let srcData := config.Src.Data
  match LoadImageInfo env p config.Src log with
  | (.error err, log) => (.error err, log)
  | (.ok source, log) =>
    let target : Info := OptimiseTarget source
    let fmt := getOutputFormat source target config.SupportedFormats
    let outputFormatArg := fmt.1
    let mimeType := fmt.2
    let args := OptimiseArgs p config source target mimeType outputFormatArg
    match execImagemagick env p srcData args log with
    | (.error err, log) => (.error err, log)
    | (.ok result, log) =>
      if srcData.length < result.length then
        (.ok { Id := "", Data := srcData, MimeType := "" }, log)
      else
        (.ok { Id := "", Data := result, MimeType := mimeType }, log)

/-- The argument list that `FitToSize` builds for convert. -/
def FitToSizeArgs (p : ImageMagick) (config : TransformationConfig) (source target : Info)
    (targetSize mimeType outputFormatArg : String) : List String :=
  let args : List String := []
  let args := args ++ ["-"]
  let args := args ++ ["-resize", targetSize ++ "^"]
  let args := args ++ getQualityOptions source config mimeType
  let args := args ++ p.AdditionalArgs
  let args := match p.GetAdditionalArgs with
    | some g => args ++ g "fit" config.Src.Data source target
    | none => args
  let args := args ++ convertOpts
  let args := args ++ cutToFitOpts
  let args := args ++ ["-extent", targetSize]
  let args := args ++ getConvertFormatOptions source
  args ++ [outputFormatArg]

/-- The method `FitToSize`.  `calcFit` stands for
`internal.CalculateTargetSizeForFit`, which is not part of the source tree
(`CalculateTargetSizeForFit` above models it from the specification).  Its
error is only logged: the method goes on with the target as the call left
it. -/
def FitToSize (env : Env) (p : ImageMagick) (calcFit : Info → String → Info × Option String)
    (config : TransformationConfig) (log : List Call) : Except String Image × List Call :=
  let srcData := config.Src.Data
  match LoadImageInfo env p config.Src log with
  | (.error err, log) => (.error err, log)
  | (.ok source, log) =>
    match config.Config with
    | none => (.error "could not get resizeConfig", log)
    | some resizeConfig =>
      let targetSize := resizeConfig.Size
      let target : Info := { Info.zero with Opaque := source.Opaque }
      let target := (calcFit target targetSize).1
      let fmt := getOutputFormat source target config.SupportedFormats
      let outputFormatArg := fmt.1
      let mimeType := fmt.2
      let args := FitToSizeArgs p config source target targetSize mimeType outputFormatArg
      match execImagemagick env p srcData args log with
      | (.error err, log) => (.error err, log)
      | (.ok outputImageData, log) =>
        (.ok { Id := "", Data := outputImageData, MimeType := mimeType }, log)

/-- The argument list that `Resize` builds for convert. -/
def ResizeArgs (p : ImageMagick) (config : TransformationConfig) (source target : Info)
    (targetSize mimeType outputFormatArg : String) : List String :=
  let args : List String := []
  let args := args ++ ["-"]
  let args := args ++ ["-resize", targetSize]
  let args := args ++ getQualityOptions source config mimeType
  let args := args ++ p.AdditionalArgs
  let args := match p.GetAdditionalArgs with
    | some g => args ++ g "resize" config.Src.Data source target
    | none => args
  let args := args ++ convertOpts
  let args := args ++ getConvertFormatOptions source
  args ++ [outputFormatArg]

/-- The method `Resize`.  `calcResize` stands for
`internal.CalculateTargetSizeForResize`, which is not part of the source tree
(`CalculateTargetSizeForResize` above models it from the specification;
util.go holds `CalculateTargetSize`, with the same parameters).  Its error is
only logged. -/
def Resize (env : Env) (p : ImageMagick)
    (calcResize : Info → Info → String → Info × Option String)
    (config : TransformationConfig) (log : List Call) : Except String Image × List Call :=
  let srcData := config.Src.Data
  match LoadImageInfo env p config.Src log with
  | (.error err, log) => (.error err, log)
  | (.ok source, log) =>
    match config.Config with
    | none => (.error "could not get resizeConfig", log)
    | some resizeConfig =>
      let targetSize := resizeConfig.Size
      let target : Info := { Info.zero with Opaque := source.Opaque }
      let target := (calcResize source target targetSize).1
      let fmt := getOutputFormat source target config.SupportedFormats
      let outputFormatArg := fmt.1
      let mimeType := fmt.2
      let args := ResizeArgs p config source target targetSize mimeType outputFormatArg
      match execImagemagick env p srcData args log with
      | (.error err, log) => (.error err, log)
      | (.ok outputImageData, log) =>
        (.ok { Id := "", Data := outputImageData, MimeType := mimeType }, log)

/-! ## Vocabulary of the claims -/

/-- The penalty that a quality tier subtracts: 0 for DEFAULT, 10 for LOW, 20
for LOWER. -/
def tierPenalty : Quality → Int
  | Quality.DEFAULT => 0
  | Quality.LOW => 10
  | Quality.LOWER => 20

/-- The AVIF band of a source quality as the specification words it: 70 above
85, 60 in (75, 85], 50 otherwise. -/
def avifBand (q : Int) : Int :=
  if 85 < q then 70 else if 75 < q ∧ q ≤ 85 then 60 else 50

/-- A float32 value that is not negative: a finite value or an infinity with
the sign bit clear, or NaN. -/
def F32.NonNeg : F32 → Prop
  | F32.fin s _ _ => s = false
  | F32.inf s => s = false
  | F32.nan => True

/-- The aspect ratio `float32(source.Width) / float32(source.Height)` that
`CalculateTargetSize` computes. -/
def sourceAspect (source : Info) : F32 :=
  F32.div (F32.ofInt source.Width) (F32.ofInt source.Height)

/-- The arguments of the identify call of `LoadImageInfo`. -/
def identifyArgs : List String := ["-format", "%m %Q %[opaque] %w %h", "-"]

/-- The caller-supplied extension arguments of the operation `op`: the static
`AdditionalArgs`, then what `GetAdditionalArgs` returns, if it is set. -/
def extensionArgs (p : ImageMagick) (op : String) (image : Bytes) (source target : Info) :
    List String :=
  p.AdditionalArgs ++
    (match p.GetAdditionalArgs with
      | some g => g op image source target
      | none => [])

/-- The number of rows that `isIllustration` asks `ScaleImage` for:
`uint(500 / aspectRatio)`. -/
def scaleRows (env : Env) (info : Info) : Nat :=
  F32.toUint env.uintOfF32
    (F32.div (F32.ofNat 500) (F32.div (F32.ofInt info.Width) (F32.ofInt info.Height)))

/-- The value `colorsCntIn50Pct` that `isIllustration` computes from the wand
once the histogram is taken. -/
def histogramCount (impl : F32 → Int) (mw : MagickWand) : Int :=
  let colorsCounts : List Int :=
    (mw.histogram.map (fun c => wrap64 (c : Int))).insertionSort (fun a b => b ≤ a)
  let totalPixelsCount := F32.ofNat (wrapU64 (mw.height * mw.width))
  let tenPercent := F32.toInt impl (F32.mul totalPixelsCount F32.tenth)
  let fiftyPercent := F32.toInt impl (F32.mul totalPixelsCount F32.half)
  let st := histogramLoop impl totalPixelsCount tenPercent colorsCounts 0
    { colorIdx := 0, pixelsCount := 0, fiftyPercent := fiftyPercent, hasBackground := false }
  let colorsCntIn50Pct := wrap64 (st.colorIdx + 1)
  if st.hasBackground then wrap64 (colorsCntIn50Pct - 1) else colorsCntIn50Pct

/-- The verdict of `isIllustration` on a wand once the histogram is taken:
false above 30000 colours, and otherwise whether `colorsCntIn50Pct` is below
10 or at most 2% of the number of colours. -/
def histogramVerdict (impl : F32 → Int) (mw : MagickWand) : Bool :=
  if 30000 < mw.histogram.length then false
  else
    decide (histogramCount impl mw < 10) ||
      F32.le
        (F32.div (F32.ofInt (histogramCount impl mw)) (F32.ofNat mw.histogram.length))
        F32.twoPercent

/-- The least number of colours of `counts`, taken in order on top of the
accumulated count `acc`, whose accumulated pixel count exceeds half of `mass`;
all of them when half of `mass` is never exceeded. -/
def coloursToCross (mass : Int) : Int → List Int → Nat
  | _, [] => 0
  | acc, c :: rest =>
    if mass < 2 * (acc + c) then 1 else 1 + coloursToCross mass (acc + c) rest

/-- The number `k` of colours needed to reach 50% coverage, as the
specification words it: the colours are taken in descending pixel count; when
the most frequent one covers at least 10% of all pixels it is skipped and the
50% threshold is taken over the remaining pixels. -/
def coloursNeeded (mw : MagickWand) : Nat :=
  let pixels : Int := (mw.width : Int) * (mw.height : Int)
  match (mw.histogram.map Int.ofNat).insertionSort (fun a b => b ≤ a) with
  | [] => 0
  | top :: rest =>
    if pixels ≤ 10 * top then coloursToCross (pixels - top) 0 rest
    else coloursToCross pixels 0 (top :: rest)

/-- The verdict that the specification words: `k < 10`, or `k` at most 2% of
the number of distinct colours. -/
def specifiedVerdict (mw : MagickWand) : Bool :=
  decide (coloursNeeded mw < 10) || decide (50 * coloursNeeded mw ≤ mw.histogram.length)

/-! ## Concrete collaborators used to instantiate the theorems -/

/-- A processor with the usual binary names and no additional arguments. -/
def demoProcessor : ImageMagick :=
  { convertCmd := "convert", identifyCmd := "identify", AdditionalArgs := [],
    GetAdditionalArgs := none }

/-- An environment in which identify reports a 300x200 JPEG of quality 90 and
convert answers with the bytes `out`. -/
def demoEnv (out : Bytes) : Env :=
  { run := fun cmd _ _ => if cmd = "identify" then .ok [] else .ok out,
    sscanf := fun _ => .ok ("JPEG", 90, true, 300, 200),
    readImageBlob := fun _ => .error "no wand",
    scaleImage := fun _ _ _ => .error "no wand",
    intOfF32 := fun _ => 0,
    uintOfF32 := fun _ => 0 }

/-- The JPEG source that `demoEnv` reports for a three-byte image. -/
def demoSource : Info :=
  { Format := "JPEG", Quality := 90, Opaque := true, Width := 300, Height := 200, Size := 3,
    Illustration := false }

/-- A request on a three-byte image from a client that accepts WebP. -/
def demoConfig (size : String) : TransformationConfig :=
  { Src := { Id := "img", Data := [1, 2, 3], MimeType := "" },
    SupportedFormats := ["image/webp"], Quality := Quality.DEFAULT,
    Config := some { Size := size } }

/-- The request `demoConfig` at the quality tier `tier`. -/
def demoConfigAt (tier : Quality) : TransformationConfig :=
  { demoConfig "" with Quality := tier }

/-- A processor whose callback `GetAdditionalArgs` writes the operation and the
target size it is handed into a comment directive. -/
def commentProcessor : ImageMagick :=
  { convertCmd := "convert", identifyCmd := "identify", AdditionalArgs := [],
    GetAdditionalArgs := some (fun op _ _ target =>
      ["-set", "comment", op ++ " " ++ Itoa target.Width ++ "x" ++ Itoa target.Height]) }

/-- The request `demoConfig ""` without a resize configuration, as `Optimise`
receives it. -/
def optimiseConfig : TransformationConfig :=
  { demoConfig "" with Config := none }

/-- A JPEG source of 300x100 pixels. -/
def wideSource : Info :=
  { demoSource with Width := 300, Height := 100 }

/-- The source `demoSource` with the encoding quality `q`. -/
def demoSourceAt (q : Int) : Info :=
  { demoSource with Quality := q }

/-- An environment in which identify reports a 50x50 PNG (with the quality 92
that ImageMagick prints for a PNG) and convert answers with the bytes `out`. -/
def pngEnv (out : Bytes) : Env :=
  { run := fun cmd _ _ => if cmd = "identify" then .ok [] else .ok out,
    sscanf := fun _ => .ok ("PNG", 92, true, 50, 50),
    readImageBlob := fun _ => .error "no wand",
    scaleImage := fun _ _ _ => .error "no wand",
    intOfF32 := fun _ => 0,
    uintOfF32 := fun _ => 0 }

/-- The PNG source that `LoadImageInfo` returns in `pngEnv` for a three-byte
image: quality 100, classified as an illustration. -/
def pngSource : Info :=
  { Format := "PNG", Quality := 100, Opaque := true, Width := 50, Height := 50, Size := 3,
    Illustration := true }

/-- A processor whose static additional arguments are "-strip". -/
def stripProcessor : ImageMagick :=
  { convertCmd := "convert", identifyCmd := "identify", AdditionalArgs := ["-strip"],
    GetAdditionalArgs := none }

/-- A PNG image of 1 MiB + 1 bytes. -/
def bigPng : Image := Image.mk "" (List.replicate (1024 * 1024 + 1) 0) "image/png"

/-- A PNG image of 20 KiB. -/
def midPng : Image := Image.mk "" (List.replicate (20 * 1024) 0) "image/png"

/-- The `Info` of a PNG of the given dimensions. -/
def pngInfo (w h : Int) : Info :=
  { Format := "PNG", Quality := 100, Opaque := true, Width := w, Height := h, Size := 0,
    Illustration := false }

/-- Collaborators whose wand reads every blob as the given wand and scales
every wand to the given wand. -/
def wandEnv (mw : MagickWand) : Env :=
  { run := fun _ _ _ => .ok [],
    sscanf := fun _ => .error "unused",
    readImageBlob := fun _ => .ok mw,
    scaleImage := fun _ _ _ => .ok mw,
    intOfF32 := fun _ => 0,
    uintOfF32 := fun _ => 0 }

/-- A 200x200 wand with two colours, the first covering 95% of the pixels. -/
def twoColourWand : MagickWand := { width := 200, height := 200, histogram := [38000, 2000] }

/-- A 200x200 wand with 17 colours: sixteen cover 2400 pixels each and one
covers 1600. -/
def seventeenColourWand : MagickWand :=
  { width := 200, height := 200,
    histogram := [1600, 2400, 2400, 2400, 2400, 2400, 2400, 2400, 2400, 2400, 2400, 2400,
      2400, 2400, 2400, 2400, 2400] }

/-! ## The float32 model on known values -/

/-- The constants of `isIllustration` have their binary32 values: 0.1 is
13421773 * 2^-27, 0.5 is 2^-1, 0.02 is 10737418 * 2^-29 and 1.0 is 2^23 * 2^-23. -/
theorem F32.constants :
    F32.tenth = F32.fin false 13421773 (-27) ∧
    F32.half = F32.fin false 8388608 (-24) ∧
    F32.twoPercent = F32.fin false 10737418 (-29) ∧
    F32.one = F32.fin false 8388608 (-23) := by
  refine ⟨by decide, by decide, by decide, by decide⟩

/-- Integers round to nearest with ties to even: 2^24 + 1 becomes 2^24,
2^24 + 3 becomes 2^24 + 4, and the largest `int` becomes 2^63. -/
theorem F32.ofInt_examples :
    F32.ofInt 16777217 = F32.fin false 8388608 1 ∧
    F32.ofInt 16777219 = F32.fin false 8388610 1 ∧
    F32.ofInt (-3) = F32.fin true 12582912 (-22) ∧
    F32.ofInt MaxInt64 = F32.fin false 8388608 40 := by
  refine ⟨by decide, by decide, by decide, by decide⟩

/-- Quotients and products on a 300x200 source: 300/200 is 1.5, 100/1.5 is
8738133 * 2^-17 (66.66666...), and 100 * 1.5 is 150. -/
theorem F32.div_mul_examples :
    F32.div (F32.ofInt 300) (F32.ofInt 200) = F32.fin false 12582912 (-23) ∧
    F32.div (F32.ofInt 100) (F32.fin false 12582912 (-23)) = F32.fin false 8738133 (-17) ∧
    F32.mul (F32.ofInt 100) (F32.fin false 12582912 (-23)) = F32.fin false 9830400 (-16) ∧
    F32.div (F32.ofInt 1) (F32.ofInt 0) = F32.inf false ∧
    F32.div (F32.ofInt 0) (F32.ofInt 0) = F32.nan := by
  refine ⟨by decide, by decide, by decide, by decide, by decide⟩

/-! ## Optimise -/

/-- C1: when identify succeeds with `source` and the convert run succeeds with
`result`, `Optimise` returns the source bytes with an empty MIME type if
`result` is strictly longer than the source bytes, and otherwise `result` with
the negotiated MIME type; whatever the collaborators do, data returned by
`Optimise` is never longer than the source bytes. -/
theorem Optimise_never_grows (env : Env) (p : ImageMagick) (config : TransformationConfig)
    (log log1 : List Call) (source : Info) (result : Bytes)
    (hload : LoadImageInfo env p config.Src log = (.ok source, log1))
    (hrun : env.run p.convertCmd
      (OptimiseArgs p config source (OptimiseTarget source)
        (getOutputFormat source (OptimiseTarget source) config.SupportedFormats).2
        (getOutputFormat source (OptimiseTarget source) config.SupportedFormats).1)
      config.Src.Data = .ok result) :
    (config.Src.Data.length < result.length →
      (Optimise env p config log).1 = .ok (Image.mk "" config.Src.Data "")) ∧
    (result.length ≤ config.Src.Data.length →
      (Optimise env p config log).1 = .ok (Image.mk "" result
        (getOutputFormat source (OptimiseTarget source) config.SupportedFormats).2)) ∧
    (∀ (env2 : Env) (p2 : ImageMagick) (log2 : List Call) (out : Image),
      (Optimise env2 p2 config log2).1 = .ok out → out.Data.length ≤ config.Src.Data.length) := by
  refine ⟨?_, ?_, ?_⟩
  · intro hlen
    simp [Optimise, hload, execImagemagick, hrun, hlen]
  · intro hlen
    simp [Optimise, hload, execImagemagick, hrun, Nat.not_lt.mpr hlen]
  · intro env2 p2 log2 out hout
    unfold Optimise at hout
    split at hout
    · simp at hout
    · simp only [execImagemagick] at hout
      split at hout
      · simp at hout
      · rename_i r lg heq
        split at hout
        · simp at hout
          rw [← hout]
        · rename_i hnot
          simp at hout
          rw [← hout]
          simpa using hnot

/-- C1, instantiated: convert answers with four bytes for a three-byte source,
and the source comes back unchanged with an empty MIME type. -/
theorem Optimise_never_grows_witness :
    (Optimise (demoEnv [9, 9, 9, 9]) demoProcessor (demoConfig "") []).1 =
      .ok (Image.mk "" [1, 2, 3] "") :=
  (Optimise_never_grows (demoEnv [9, 9, 9, 9]) demoProcessor (demoConfig "") []
    [Call.exec "identify" ["-format", "%m %Q %[opaque] %w %h", "-"]] demoSource [9, 9, 9, 9]
    (by rfl) (by rfl)).1 (by decide)

/-! ## Format negotiation -/

/-- A value inside the range of `int` is left alone by `wrap64`. -/
theorem wrap64_of_inRange (x : Int) (hlo : -2 ^ 63 ≤ x) (hhi : x < 2 ^ 63) : wrap64 x = x := by
  unfold wrap64
  omega

/-- The flag `webP` after the loop of `getOutputFormat`. -/
theorem getOutputFormat_webP_flag (src target : Info) (l : List String) (acc : Bool × Bool) :
    (l.foldl (getOutputFormatStep src target) acc).1 = true ↔
      acc.1 = true ∨
        ("image/webp" ∈ l ∧ src.Height < MaxWebpHeight ∧ src.Width < MaxWebpWidth) := by
  induction l generalizing acc with
  | nil => simp
  | cons f rest ih =>
    rw [List.foldl_cons, ih]
    by_cases hf : f = "image/webp"
    · by_cases hc : src.Height < MaxWebpHeight ∧ src.Width < MaxWebpWidth
      · simp [getOutputFormatStep, hf, hc]
      · simp [getOutputFormatStep, hf, hc]
    · have hf2 : ¬ "image/webp" = f := fun h => hf h.symm
      simp [getOutputFormatStep, hf, hf2]

/-- The flag `avif` after the loop of `getOutputFormat`. -/
theorem getOutputFormat_avif_flag (src target : Info) (l : List String) (acc : Bool × Bool) :
    (l.foldl (getOutputFormatStep src target) acc).2 = true ↔
      acc.2 = true ∨
        ("image/avif" ∈ l ∧ src.Format ≠ "GIF" ∧ src.Illustration = false ∧
          wrap64 (target.Width * target.Height) < MaxAVIFTargetSize ∧
          wrap64 (target.Width * target.Height) ≠ 0) := by
  induction l generalizing acc with
  | nil => simp
  | cons f rest ih =>
    rw [List.foldl_cons, ih]
    by_cases hf : f = "image/avif"
    · by_cases hc : src.Format ≠ "GIF" ∧ src.Illustration = false ∧
          wrap64 (target.Width * target.Height) < MaxAVIFTargetSize ∧
          wrap64 (target.Width * target.Height) ≠ 0
      · simp [getOutputFormatStep, hf, hc]
      · simp only [getOutputFormatStep, hf, true_and, if_neg hc, List.mem_cons, true_or]
        tauto
    · have hf2 : ¬ "image/avif" = f := fun h => hf h.symm
      simp [getOutputFormatStep, hf, hf2]

/-- AVIF is chosen exactly when the client supports it, the source is neither
a GIF nor an illustration, and the target size as the loop computes it (the
64-bit product of the target's width and height) is nonzero and below
`MaxAVIFTargetSize`. -/
theorem getOutputFormat_avif_iff (src target : Info) (l : List String) :
    getOutputFormat src target l = ("avif:-", "image/avif") ↔
      ("image/avif" ∈ l ∧ src.Format ≠ "GIF" ∧ src.Illustration = false ∧
        wrap64 (target.Width * target.Height) < MaxAVIFTargetSize ∧
        wrap64 (target.Width * target.Height) ≠ 0) := by
  have h := getOutputFormat_avif_flag src target l (false, false)
  simp only [Bool.false_eq_true, false_or] at h
  rw [← h]
  unfold getOutputFormat
  generalize l.foldl (getOutputFormatStep src target) (false, false) = flags
  rcases flags with ⟨w, a⟩
  cases a <;> cases w <;> simp

/-- C2 (divergence): the area that `getOutputFormat` compares with
`MaxAVIFTargetSize` is the wrapping product of two Go `int`s.  For the target
3 x 6148914691236517206 the area is 2^64 + 2 and the product computed is 2.
For a 300x100 source and the size "6442450944" the geometry of util.go gives
the target 6442450944 x 2147483648, whose area 3 * 2^62 is computed as -2^62.
Both areas are far above 4,000,000, yet AVIF is chosen, while the 3000x3000
target is refused. -/
theorem getOutputFormat_avif_area_overflow :
    getOutputFormat demoSource
        { Info.zero with Width := 3, Height := 6148914691236517206 } ["image/avif"] =
      ("avif:-", "image/avif") ∧
    ¬ ((3 : Int) * 6148914691236517206 < 4000000) ∧
    wrap64 (3 * 6148914691236517206) = 2 ∧
    (CalculateTargetSize (fun _ => 0) wideSource Info.zero "6442450944").1 =
      { Info.zero with Width := 6442450944, Height := 2147483648 } ∧
    getOutputFormat wideSource
        { Info.zero with Width := 6442450944, Height := 2147483648 } ["image/avif"] =
      ("avif:-", "image/avif") ∧
    ¬ ((6442450944 : Int) * 2147483648 < 4000000) ∧
    wrap64 (6442450944 * 2147483648) = -4611686018427387904 ∧
    getOutputFormat wideSource { Info.zero with Width := 3000, Height := 3000 }
        ["image/avif"] = ("-", "") := by
  refine ⟨by decide, by decide, by decide, by decide, by decide, by decide, by decide,
    by decide⟩

/-- The rule of the area guard wherever the product does not wrap: when the
product of the target's width and height fits a 64-bit `int`, AVIF is chosen
if and only if the client list contains "image/avif", the source format is not
"GIF", the source is not an illustration, and the target area is nonzero and
below 4,000,000; then AVIF is never chosen for a GIF source, for an
illustration or for a target area of 4,000,000 or more, and it wins over WebP
whenever it is eligible. -/
theorem getOutputFormat_avif_iff_area (src target : Info) (l : List String)
    (hlo : -2 ^ 63 ≤ target.Width * target.Height)
    (hhi : target.Width * target.Height < 2 ^ 63) :
    (getOutputFormat src target l = ("avif:-", "image/avif") ↔
      ("image/avif" ∈ l ∧ src.Format ≠ "GIF" ∧ src.Illustration = false ∧
        target.Width * target.Height ≠ 0 ∧ target.Width * target.Height < 4000000)) ∧
    (src.Format = "GIF" → getOutputFormat src target l ≠ ("avif:-", "image/avif")) ∧
    (src.Illustration = true → getOutputFormat src target l ≠ ("avif:-", "image/avif")) ∧
    (4000000 ≤ target.Width * target.Height →
      getOutputFormat src target l ≠ ("avif:-", "image/avif")) ∧
    ("image/avif" ∈ l ∧ src.Format ≠ "GIF" ∧ src.Illustration = false ∧
        target.Width * target.Height ≠ 0 ∧ target.Width * target.Height < 4000000 →
      "image/webp" ∈ l ∧ src.Width < 16383 ∧ src.Height < 16383 →
      getOutputFormat src target l = ("avif:-", "image/avif")) := by
  have hw := wrap64_of_inRange _ hlo hhi
  have hiff : getOutputFormat src target l = ("avif:-", "image/avif") ↔
      ("image/avif" ∈ l ∧ src.Format ≠ "GIF" ∧ src.Illustration = false ∧
        target.Width * target.Height ≠ 0 ∧ target.Width * target.Height < 4000000) := by
    rw [getOutputFormat_avif_iff, hw]
    simp only [MaxAVIFTargetSize]
    constructor
    · rintro ⟨h1, h2, h3, h4, h5⟩
      exact ⟨h1, h2, h3, h5, by omega⟩
    · rintro ⟨h1, h2, h3, h4, h5⟩
      exact ⟨h1, h2, h3, by omega, h4⟩
  refine ⟨hiff, ?_, ?_, ?_, ?_⟩
  · intro hg h
    exact (hiff.mp h).2.1 hg
  · intro hi h
    have := (hiff.mp h).2.2.1
    rw [hi] at this
    exact Bool.noConfusion this
  · intro ha h
    have := (hiff.mp h).2.2.2.2
    omega
  · intro havif _
    exact hiff.mpr havif

/-- The rule of the area guard on a 300x200 JPEG target with a client that
accepts both formats: AVIF. -/
theorem getOutputFormat_avif_iff_area_witness :
    getOutputFormat demoSource demoSource ["image/webp", "image/avif"] =
      ("avif:-", "image/avif") :=
  (getOutputFormat_avif_iff_area demoSource demoSource ["image/webp", "image/avif"]
    (by decide) (by decide)).1.mpr (by decide)

/-- C3: on every input on which AVIF is not chosen, the result is
("webp:-", "image/webp") if and only if the client list contains "image/webp"
and the source width and height are each below 16383, and in every remaining
case it is ("-", ""); so WebP is never chosen when the source width or height
is 16383 or more. -/
theorem getOutputFormat_webp_iff (src target : Info) (l : List String)
    (hnot : getOutputFormat src target l ≠ ("avif:-", "image/avif")) :
    (getOutputFormat src target l = ("webp:-", "image/webp") ↔
      ("image/webp" ∈ l ∧ src.Width < 16383 ∧ src.Height < 16383)) ∧
    (¬ ("image/webp" ∈ l ∧ src.Width < 16383 ∧ src.Height < 16383) →
      getOutputFormat src target l = ("-", "")) ∧
    (16383 ≤ src.Width ∨ 16383 ≤ src.Height →
      getOutputFormat src target l ≠ ("webp:-", "image/webp")) := by
  have h := getOutputFormat_webP_flag src target l (false, false)
  simp only [Bool.false_eq_true, false_or, MaxWebpHeight, MaxWebpWidth] at h
  have hiff : getOutputFormat src target l = ("webp:-", "image/webp") ↔
      ("image/webp" ∈ l ∧ src.Width < 16383 ∧ src.Height < 16383) := by
    have h2 : ("image/webp" ∈ l ∧ src.Width < 16383 ∧ src.Height < 16383) ↔
        (l.foldl (getOutputFormatStep src target) (false, false)).1 = true := by
      rw [h]
      tauto
    have ha : (l.foldl (getOutputFormatStep src target) (false, false)).2 = false := by
      cases hfl : (l.foldl (getOutputFormatStep src target) (false, false)).2
      · rfl
      · exact absurd (by simp [getOutputFormat, hfl]) hnot
    rw [h2]
    unfold getOutputFormat
    revert ha
    generalize l.foldl (getOutputFormatStep src target) (false, false) = flags
    rcases flags with ⟨w, a⟩
    intro ha
    simp only at ha
    subst ha
    cases w <;> simp
  have hcases : getOutputFormat src target l = ("avif:-", "image/avif") ∨
      getOutputFormat src target l = ("webp:-", "image/webp") ∨
      getOutputFormat src target l = ("-", "") := by
    unfold getOutputFormat
    generalize l.foldl (getOutputFormatStep src target) (false, false) = flags
    rcases flags with ⟨w, a⟩
    cases a <;> cases w <;> simp
  refine ⟨hiff, ?_, ?_⟩
  · intro hc
    rcases hcases with h1 | h1 | h1
    · exact absurd h1 hnot
    · exact absurd (hiff.mp h1) hc
    · exact h1
  · intro hbig hw
    have := hiff.mp hw
    omega

/-- C3, instantiated: a client that accepts only WebP gets WebP for a 300x200
JPEG. -/
theorem getOutputFormat_webp_iff_witness :
    getOutputFormat demoSource demoSource ["image/webp"] = ("webp:-", "image/webp") :=
  (getOutputFormat_webp_iff demoSource demoSource ["image/webp"] (by decide)).1.mpr
    (by decide)

/-! ## Quality heuristic -/

/-- The result of `getQualityOptions` in terms of `baseQuality`, when the
penalty of a tier can be subtracted from the base quality without leaving the
range of `int`: nothing when the base quality is 0, the base quality itself
when it is 100, and otherwise the base quality minus the penalty of the
tier. -/
theorem getQualityOptions_eq (source : Info) (config : TransformationConfig) (mime : String)
    (hlo : -9223372036854775788 ≤ baseQuality source config mime)
    (hhi : baseQuality source config mime < 9223372036854775808) :
    getQualityOptions source config mime =
      if baseQuality source config mime = 0 then []
      else if baseQuality source config mime = 100 then ["-quality", Itoa 100]
      else ["-quality", Itoa (baseQuality source config mime - tierPenalty config.Quality)] := by
  have h10 : wrap64 (baseQuality source config mime - 10) =
      baseQuality source config mime - 10 :=
    wrap64_of_inRange _ (by omega) (by omega)
  have h20 : wrap64 (baseQuality source config mime - 20) =
      baseQuality source config mime - 20 :=
    wrap64_of_inRange _ (by omega) (by omega)
  unfold getQualityOptions
  by_cases h0 : baseQuality source config mime = 0
  · simp [h0]
  · by_cases h100 : baseQuality source config mime = 100
    · simp [h100]
    · cases hq : config.Quality <;> simp [h0, h100, tierPenalty, h10, h20]

/-- The base quality is the source quality or one of 0, 50, 60, 70 and 82. -/
theorem baseQuality_cases (source : Info) (config : TransformationConfig) (mime : String) :
    baseQuality source config mime = source.Quality ∨
      (0 ≤ baseQuality source config mime ∧ baseQuality source config mime ≤ 82) := by
  unfold baseQuality
  split_ifs
  · right; omega
  · right; omega
  · right; omega
  · right; omega
  · left; rfl
  · right; omega

/-- At the lowest value of `int` the subtraction of `getQualityOptions` wraps:
tier LOW turns the source quality -2^63 into 2^63 - 10. -/
theorem getQualityOptions_wraps :
    getQualityOptions (demoSourceAt (-9223372036854775808)) (demoConfigAt Quality.LOW)
      "image/webp" = ["-quality", "9223372036854775798"] := by
  decide

/-- C4, as stated, fails: with a non-AVIF output, tier LOW turns source quality
10 into the directive "-quality 0", and tier LOWER turns source quality 5 into
"-quality -15". -/
theorem getQualityOptions_range_counterexample :
    getQualityOptions (demoSourceAt 10) (demoConfigAt Quality.LOW) "image/webp" =
      ["-quality", "0"] ∧
    getQualityOptions (demoSourceAt 5) (demoConfigAt Quality.LOWER) "image/webp" =
      ["-quality", "-15"] := by
  constructor
  · decide
  · decide

/-- C4, amended: for a source quality in 0..100, `getQualityOptions` emits
either nothing or "-quality" with a value `v` in [-19, 100]; `v` is at least 1
whenever the output is AVIF or the source quality exceeds the penalty of the
tier, and otherwise `v` is the source quality minus the penalty. -/
theorem getQualityOptions_range (source : Info) (config : TransformationConfig)
    (mime : String) (hlo : 0 ≤ source.Quality) (hhi : source.Quality ≤ 100) :
    getQualityOptions source config mime = [] ∨
    ∃ v : Int, getQualityOptions source config mime = ["-quality", Itoa v] ∧
      -19 ≤ v ∧ v ≤ 100 ∧
      (mime = "image/avif" ∨ tierPenalty config.Quality < source.Quality → 1 ≤ v) ∧
      (v < 1 → v = source.Quality - tierPenalty config.Quality) := by
  have hbase := baseQuality_cases source config mime
  rw [getQualityOptions_eq source config mime (by omega) (by omega)]
  by_cases h0 : baseQuality source config mime = 0
  · left
    simp [h0]
  · right
    by_cases h100 : baseQuality source config mime = 100
    · exact ⟨100, by simp [h100], by omega, by omega, by omega, by omega⟩
    · refine ⟨baseQuality source config mime - tierPenalty config.Quality,
        by simp [h0, h100], ?_⟩
      unfold baseQuality at h0 h100 ⊢
      cases hq : config.Quality <;> simp only [hq, tierPenalty] at h0 h100 ⊢ <;>
        split_ifs at h0 h100 ⊢ <;> simp_all <;> omega

/-- C4, amended, instantiated: source quality 90 under tier LOWER gives 70. -/
theorem getQualityOptions_range_witness :
    getQualityOptions (demoSourceAt 90) (demoConfigAt Quality.LOWER) "image/webp" = [] ∨
    ∃ v : Int, getQualityOptions (demoSourceAt 90) (demoConfigAt Quality.LOWER) "image/webp" =
        ["-quality", Itoa v] ∧
      -19 ≤ v ∧ v ≤ 100 ∧
      (("image/webp" : String) = "image/avif" ∨
        tierPenalty (demoConfigAt Quality.LOWER).Quality < (demoSourceAt 90).Quality → 1 ≤ v) ∧
      (v < 1 → v = (demoSourceAt 90).Quality - tierPenalty (demoConfigAt Quality.LOWER).Quality) :=
  getQualityOptions_range (demoSourceAt 90) (demoConfigAt Quality.LOWER) "image/webp"
    (by decide) (by decide)

/-- C5: for the output MIME type "image/avif" a quality directive is always
emitted; its value is the band of the source quality (70 above 85, 60 in
(75, 85], 50 otherwise) under DEFAULT, the band minus 10 under LOW and the band
minus 20 under LOWER; source qualities 90, 80 and 70 give 70, 60 and 50. -/
theorem getQualityOptions_avif (source : Info) (config : TransformationConfig) :
    getQualityOptions source config "image/avif" =
      ["-quality", Itoa (avifBand source.Quality - tierPenalty config.Quality)] ∧
    (config.Quality = Quality.DEFAULT →
      getQualityOptions source config "image/avif" =
        ["-quality", Itoa (avifBand source.Quality)]) ∧
    (config.Quality = Quality.LOW →
      getQualityOptions source config "image/avif" =
        ["-quality", Itoa (avifBand source.Quality - 10)]) ∧
    (config.Quality = Quality.LOWER →
      getQualityOptions source config "image/avif" =
        ["-quality", Itoa (avifBand source.Quality - 20)]) ∧
    getQualityOptions (demoSourceAt 90) (demoConfigAt Quality.DEFAULT) "image/avif" =
      ["-quality", "70"] ∧
    getQualityOptions (demoSourceAt 80) (demoConfigAt Quality.DEFAULT) "image/avif" =
      ["-quality", "60"] ∧
    getQualityOptions (demoSourceAt 70) (demoConfigAt Quality.DEFAULT) "image/avif" =
      ["-quality", "50"] := by
  have hmain : getQualityOptions source config "image/avif" =
      ["-quality", Itoa (avifBand source.Quality - tierPenalty config.Quality)] := by
    have hb : baseQuality source config "image/avif" = avifBand source.Quality := by
      unfold baseQuality avifBand
      simp only [if_true]
      split_ifs <;> first | rfl | omega
    have hband : 50 ≤ avifBand source.Quality ∧ avifBand source.Quality ≤ 70 := by
      unfold avifBand
      split_ifs <;> omega
    have h0 : avifBand source.Quality ≠ 0 := by omega
    have h100 : avifBand source.Quality ≠ 100 := by omega
    rw [getQualityOptions_eq source config "image/avif" (by rw [hb]; omega) (by rw [hb]; omega),
      hb]
    simp [h0, h100]
  refine ⟨hmain, ?_, ?_, ?_, by decide, by decide, by decide⟩
  · intro ht
    rw [hmain, ht]
    simp [tierPenalty]
  · intro ht
    rw [hmain, ht]
    simp [tierPenalty]
  · intro ht
    rw [hmain, ht]
    simp [tierPenalty]

/-- C6: for an output MIME type other than "image/avif": a source quality of
100 gives 82 under DEFAULT, 72 under LOW and 62 under LOWER; a source quality
other than 100 under DEFAULT gives no directive; a source quality `q` that is
neither 100 nor 0 gives `q - 10` under LOW and `q - 20` under LOWER.  In the
last two cases `q` is a value of the Go type `int` from which the penalty can
be subtracted within the type, as every quality 0..100 of the data model is;
for every `q` the emitted value is the wrapped difference. -/
theorem getQualityOptions_not_avif (source : Info) (config : TransformationConfig)
    (mime : String) (hmime : mime ≠ "image/avif") :
    (source.Quality = 100 → config.Quality = Quality.DEFAULT →
      getQualityOptions source config mime = ["-quality", Itoa 82]) ∧
    (source.Quality = 100 → config.Quality = Quality.LOW →
      getQualityOptions source config mime = ["-quality", Itoa 72]) ∧
    (source.Quality = 100 → config.Quality = Quality.LOWER →
      getQualityOptions source config mime = ["-quality", Itoa 62]) ∧
    (source.Quality ≠ 100 → config.Quality = Quality.DEFAULT →
      getQualityOptions source config mime = []) ∧
    (source.Quality ≠ 100 → source.Quality ≠ 0 → config.Quality = Quality.LOW →
      -2 ^ 63 ≤ source.Quality - 10 → source.Quality < 2 ^ 63 →
      getQualityOptions source config mime = ["-quality", Itoa (source.Quality - 10)]) ∧
    (source.Quality ≠ 100 → source.Quality ≠ 0 → config.Quality = Quality.LOWER →
      -2 ^ 63 ≤ source.Quality - 20 → source.Quality < 2 ^ 63 →
      getQualityOptions source config mime = ["-quality", Itoa (source.Quality - 20)]) ∧
    (source.Quality ≠ 100 → source.Quality ≠ 0 → config.Quality = Quality.LOW →
      getQualityOptions source config mime =
        ["-quality", Itoa (wrap64 (source.Quality - 10))]) ∧
    (source.Quality ≠ 100 → source.Quality ≠ 0 → config.Quality = Quality.LOWER →
      getQualityOptions source config mime =
        ["-quality", Itoa (wrap64 (source.Quality - 20))]) := by
  have h72 : wrap64 72 = 72 := by decide
  have h62 : wrap64 62 = 62 := by decide
  refine ⟨?_, ?_, ?_, ?_, ?_, ?_, ?_, ?_⟩
  · intro hq ht
    simp [getQualityOptions, baseQuality, hmime, hq, ht]
  · intro hq ht
    simp [getQualityOptions, baseQuality, hmime, hq, ht, h72]
  · intro hq ht
    simp [getQualityOptions, baseQuality, hmime, hq, ht, h62]
  · intro hq ht
    simp [getQualityOptions, baseQuality, hmime, hq, ht]
  · intro hq h0 ht hlo hhi
    have hw := wrap64_of_inRange (source.Quality - 10) hlo (by omega)
    simp [getQualityOptions, baseQuality, hmime, hq, h0, ht, hw]
  · intro hq h0 ht hlo hhi
    have hw := wrap64_of_inRange (source.Quality - 20) hlo (by omega)
    simp [getQualityOptions, baseQuality, hmime, hq, h0, ht, hw]
  · intro hq h0 ht
    simp [getQualityOptions, baseQuality, hmime, hq, h0, ht]
  · intro hq h0 ht
    simp [getQualityOptions, baseQuality, hmime, hq, h0, ht]

/-- C6, instantiated: a JPEG of quality 90 under tier LOW and WebP output gets
"-quality 80". -/
theorem getQualityOptions_not_avif_witness :
    getQualityOptions (demoSourceAt 90) (demoConfigAt Quality.LOW) "image/webp" =
      ["-quality", "80"] :=
  (getQualityOptions_not_avif (demoSourceAt 90) (demoConfigAt Quality.LOW) "image/webp"
    (by decide)).2.2.2.2.1 (by decide) (by decide) rfl (by decide) (by decide)

/-! ## FitToSize -/

/-- C7, as stated, fails: the size "300" names no height and
`CalculateTargetSizeForFit` reports an error for it, yet `FitToSize` runs
convert (with "-resize 300^" and "-extent 300") and returns its output. -/
theorem FitToSize_bad_size_counterexample :
    namesWidthAndHeight "300" = false ∧
    (CalculateTargetSizeForFit Info.zero "300").2 = some "size param should be in format WxH" ∧
    FitToSize (demoEnv [7]) demoProcessor CalculateTargetSizeForFit (demoConfig "300") [] =
      (.ok (Image.mk "" [7] "image/webp"),
        [Call.exec "identify" ["-format", "%m %Q %[opaque] %w %h", "-"],
         Call.exec "convert"
          (["-", "-resize", "300^"] ++ convertOpts ++
            ["-gravity", "center", "-extent", "300", "-define", "webp:method=6", "webp:-"])]) := by
  refine ⟨by decide, by decide, ?_⟩
  rfl

/-- C7, amended: when identify succeeds and the request carries a resize
configuration whose size does not name both a width and a height,
`CalculateTargetSizeForFit` reports "size param should be in format WxH",
but `FitToSize` does not fail on it: whatever the geometry helper `calcFit`
returns, `FitToSize` makes exactly one convert call, with the raw size in
"-resize" and "-extent", and returns what convert returns (its error, or its
output with the negotiated MIME type). -/
theorem FitToSize_proceeds (env : Env) (p : ImageMagick)
    (calcFit : Info → String → Info × Option String) (config : TransformationConfig)
    (log log1 : List Call) (source : Info) (resizeConfig : ResizeConfig)
    (hload : LoadImageInfo env p config.Src log = (.ok source, log1))
    (hcfg : config.Config = some resizeConfig)
    (hsize : namesWidthAndHeight resizeConfig.Size = false) :
    (∀ t : Info, CalculateTargetSizeForFit t resizeConfig.Size =
      (t, some "size param should be in format WxH")) ∧
    (FitToSize env p calcFit config log).2 = log1 ++ [Call.exec p.convertCmd
      (FitToSizeArgs p config source
        (calcFit { Info.zero with Opaque := source.Opaque } resizeConfig.Size).1
        resizeConfig.Size
        (getOutputFormat source
          (calcFit { Info.zero with Opaque := source.Opaque } resizeConfig.Size).1
          config.SupportedFormats).2
        (getOutputFormat source
          (calcFit { Info.zero with Opaque := source.Opaque } resizeConfig.Size).1
          config.SupportedFormats).1)] ∧
    (FitToSize env p calcFit config log).1 =
      (env.run p.convertCmd
        (FitToSizeArgs p config source
          (calcFit { Info.zero with Opaque := source.Opaque } resizeConfig.Size).1
          resizeConfig.Size
          (getOutputFormat source
            (calcFit { Info.zero with Opaque := source.Opaque } resizeConfig.Size).1
            config.SupportedFormats).2
          (getOutputFormat source
            (calcFit { Info.zero with Opaque := source.Opaque } resizeConfig.Size).1
            config.SupportedFormats).1)
        config.Src.Data).map
        (fun d => Image.mk "" d
          (getOutputFormat source
            (calcFit { Info.zero with Opaque := source.Opaque } resizeConfig.Size).1
            config.SupportedFormats).2) := by
  refine ⟨?_, ?_, ?_⟩
  · intro t
    simp [CalculateTargetSizeForFit, hsize]
  · simp only [FitToSize, hload, hcfg, execImagemagick]
    split <;> rename_i heq <;> simp only [Prod.mk.injEq] at heq <;> rw [← heq.2]
  · simp only [FitToSize, hload, hcfg, execImagemagick]
    split <;> rename_i heq <;> simp only [Prod.mk.injEq] at heq <;> rw [heq.1] <;> rfl

/-- C7, amended, instantiated on the size "300". -/
theorem FitToSize_proceeds_witness :
    (FitToSize (demoEnv [7]) demoProcessor CalculateTargetSizeForFit (demoConfig "300") []).1 =
      .ok (Image.mk "" [7] "image/webp") :=
  (FitToSize_proceeds (demoEnv [7]) demoProcessor CalculateTargetSizeForFit (demoConfig "300")
    [] [Call.exec "identify" ["-format", "%m %Q %[opaque] %w %h", "-"]] demoSource
    (ResizeConfig.mk "300") (by rfl) (by rfl) (by decide)).2.2

/-! ## Target-size geometry -/

/-- On a run of digits followed by nothing or by a non-digit, `takeWhile`
returns the digits and `dropWhile` the rest. -/
theorem takeWhile_dropWhile_digits (ds rest : List Char)
    (hall : ∀ c ∈ ds, c.isDigit = true)
    (hstop : ∀ c r, rest = c :: r → c.isDigit = false) :
    (ds ++ rest).takeWhile Char.isDigit = ds ∧ (ds ++ rest).dropWhile Char.isDigit = rest := by
  induction ds with
  | nil =>
    cases rest with
    | nil => simp
    | cons c r => simp [List.takeWhile, List.dropWhile, hstop c r rfl]
  | cons d ds ih =>
    have hd := hall d (List.mem_cons_self _ _)
    have h := ih (fun c hc => hall c (List.mem_cons_of_mem _ hc))
    simp [List.takeWhile, List.dropWhile, hd, h.1, h.2]

/-- The submatches of a specification made of digits only. -/
theorem sizeRegexp_digits (ds : List Char) (hall : ∀ c ∈ ds, c.isDigit = true) :
    sizeRegexp_FindStringSubmatch (String.mk ds) = [String.mk ds, String.mk ds, ""] := by
  have h := takeWhile_dropWhile_digits ds [] hall (fun c r hr => by cases hr)
  simp only [List.append_nil] at h
  simp [sizeRegexp_FindStringSubmatch, h.1, h.2]

/-- The submatches of a specification made of digits, an "x" and digits. -/
theorem sizeRegexp_digits_x_digits (ds ds2 : List Char)
    (hall : ∀ c ∈ ds, c.isDigit = true) (hall2 : ∀ c ∈ ds2, c.isDigit = true) :
    sizeRegexp_FindStringSubmatch (String.mk (ds ++ 'x' :: ds2)) =
      [String.mk (ds ++ 'x' :: ds2), String.mk ds, String.mk ds2] := by
  have h := takeWhile_dropWhile_digits ds ('x' :: ds2) hall
    (fun c r hr => by
      cases hr
      decide)
  have h2 := takeWhile_dropWhile_digits ds2 [] hall2 (fun c r hr => by cases hr)
  simp only [List.append_nil] at h2
  simp [sizeRegexp_FindStringSubmatch, h.1, h.2, h2.1]

/-- The call `Atoi` on a non-empty run of digits: the number the digits denote,
clamped to the largest `int`. -/
theorem Atoi_digits (ds : List Char) (hne : ds ≠ []) (hall : ∀ c ∈ ds, c.isDigit = true) :
    (Atoi (String.mk ds)).1 = min (digitsValue ds : Int) MaxInt64 := by
  have hall2 : ds.all Char.isDigit = true := by
    rw [List.all_eq_true]
    exact hall
  cases ds with
  | nil => exact absurd rfl hne
  | cons c t =>
    have hc := hall c (List.mem_cons_self _ _)
    have hminus : c ≠ '-' := by
      intro h
      rw [h] at hc
      exact absurd hc (by decide)
    have hplus : c ≠ '+' := by
      intro h
      rw [h] at hc
      exact absurd hc (by decide)
    have hsign : atoiSign (c :: t) = false := by
      unfold atoiSign
      split
      · rename_i heq
        simp only [List.cons.injEq] at heq
        exact absurd heq.1 hminus
      · rfl
    have hds : atoiBody (c :: t) = c :: t := by
      unfold atoiBody
      split
      · rename_i heq
        simp only [List.cons.injEq] at heq
        exact absurd heq.1 hminus
      · rename_i heq
        simp only [List.cons.injEq] at heq
        exact absurd heq.1 hplus
      · rfl
    have hnat : (0 : Int) ≤ (digitsValue (c :: t) : Int) := Int.ofNat_nonneg _
    simp only [Atoi, String.toList, hsign, hds, hall2]
    by_cases hbig : MaxInt64 < (digitsValue (c :: t) : Int)
    · simp [hbig, min_eq_right (le_of_lt hbig)]
    · have hlow : ¬ ((digitsValue (c :: t) : Int) < -9223372036854775808) := by omega
      simp [hbig, hlow, min_eq_left (not_lt.mp hbig)]

/-- When the first digit group of the specification is non-empty and parses to
a positive width, `CalculateTargetSize` sets that width and derives the height
as `int(float32(width) / aspectRatio)`, whatever the second group holds. -/
theorem CalculateTargetSize_of_width (impl : F32 → Int) (source target : Info)
    (s whole g1 g2 : String) (hparse : sizeRegexp_FindStringSubmatch s = [whole, g1, g2])
    (hne : 0 < g1.length) (hpos : 0 < (Atoi g1).1) :
    CalculateTargetSize impl source target s =
      ({ target with
          Width := (Atoi g1).1,
          Height := F32.toInt impl (F32.div (F32.ofInt (Atoi g1).1) (sourceAspect source)) },
        none) := by
  have hnz : ¬ (Atoi g1).1 = 0 := by omega
  simp [CalculateTargetSize, hparse, hne, hpos, hnz, sourceAspect]

/-- When the first digit group is empty, the target starts with width 0 and
the second group parses to a positive height, `CalculateTargetSize` sets that
height and derives the width as `int(float32(height) * aspectRatio)`. -/
theorem CalculateTargetSize_of_height (impl : F32 → Int) (source target : Info)
    (s whole g2 : String) (hparse : sizeRegexp_FindStringSubmatch s = [whole, "", g2])
    (htarget : target.Width = 0) (hne : 0 < g2.length) (hpos : 0 < (Atoi g2).1) :
    CalculateTargetSize impl source target s =
      ({ target with
          Height := (Atoi g2).1,
          Width := F32.toInt impl (F32.mul (F32.ofInt (Atoi g2).1) (sourceAspect source)) },
        none) := by
  simp [CalculateTargetSize, hparse, hne, hpos, htarget, sourceAspect]

/-- Rounding keeps the sign it is given. -/
theorem F32.round_nonNeg (n d : Nat) : F32.NonNeg (F32.round false n d) := by
  unfold F32.round
  dsimp only
  split_ifs <;> exact rfl

/-- The conversion of a non-negative `int` is not negative. -/
theorem F32.ofInt_nonNeg (i : Int) (h : 0 ≤ i) : F32.NonNeg (F32.ofInt i) := by
  unfold F32.ofInt
  have hd : decide (i < 0) = false := by
    simp only [decide_eq_false_iff_not, not_lt]
    exact h
  rw [hd]
  exact F32.round_nonNeg _ _

/-- The quotient of two values that are not negative is not negative. -/
theorem F32.div_nonNeg (a b : F32) (ha : F32.NonNeg a) (hb : F32.NonNeg b) :
    F32.NonNeg (F32.div a b) := by
  cases a with
  | nan => cases b <;> exact trivial
  | inf s =>
    cases b with
    | nan => exact trivial
    | inf t => exact trivial
    | fin t m e =>
      simp only [F32.NonNeg] at ha hb
      subst ha
      subst hb
      exact rfl
  | fin s m e =>
    cases b with
    | nan => exact trivial
    | inf t =>
      simp only [F32.NonNeg] at ha hb
      subst ha
      subst hb
      exact rfl
    | fin t m2 e2 =>
      simp only [F32.NonNeg] at ha hb
      subst ha
      subst hb
      simp only [F32.div, Bool.xor_false]
      split_ifs
      · exact trivial
      · exact rfl
      · exact F32.round_nonNeg _ _

/-- The product of two values that are not negative is not negative. -/
theorem F32.mul_nonNeg (a b : F32) (ha : F32.NonNeg a) (hb : F32.NonNeg b) :
    F32.NonNeg (F32.mul a b) := by
  cases a with
  | nan => cases b <;> exact trivial
  | inf s =>
    cases b with
    | nan => exact trivial
    | inf t =>
      simp only [F32.NonNeg] at ha hb
      subst ha
      subst hb
      exact rfl
    | fin t m e =>
      simp only [F32.NonNeg] at ha hb
      subst ha
      subst hb
      simp only [F32.mul, Bool.xor_false]
      split_ifs
      · exact trivial
      · exact rfl
  | fin s m e =>
    cases b with
    | nan => exact trivial
    | inf t =>
      simp only [F32.NonNeg] at ha hb
      subst ha
      subst hb
      simp only [F32.mul, Bool.xor_false]
      split_ifs
      · exact trivial
      · exact rfl
    | fin t m2 e2 =>
      simp only [F32.NonNeg] at ha hb
      subst ha
      subst hb
      simp only [F32.mul, Bool.xor_false]
      exact F32.round_nonNeg _ _

/-- The conversion `int(x)` of a value that is not negative is at least 0,
unless the value does not fit and the platform decides. -/
theorem F32.toInt_nonNeg (impl : F32 → Int) (x : F32) (hx : F32.NonNeg x) :
    0 ≤ F32.toInt impl x ∨ F32.toInt impl x = impl x := by
  cases x with
  | nan => exact Or.inr rfl
  | inf s => exact Or.inr rfl
  | fin s m e =>
    simp only [F32.NonNeg] at hx
    subst hx
    simp only [F32.toInt]
    split_ifs with h
    · left
      unfold F32.trunc
      simp only [Bool.false_eq_true, if_false]
      exact Int.ofNat_nonneg _
    · right
      rfl

/-- C8, as stated, fails: for the width-only size "100" on a 300x200 source
the code yields height 66, while `round(100 / (300 / 200))` is 67; the
conversion `int(...)` truncates. -/
theorem CalculateTargetSize_round_counterexample :
    (CalculateTargetSize (fun _ => 0) demoSource Info.zero "100").1.Width = 100 ∧
    (CalculateTargetSize (fun _ => 0) demoSource Info.zero "100").1.Height = 66 ∧
    round ((100 : ℚ) / ((300 : ℚ) / 200)) = 67 := by
  refine ⟨by decide, by decide, ?_⟩
  rw [round_eq, Int.floor_eq_iff]
  norm_num

/-- C8, amended: for a width-only size made of the digits of `W` with
`0 < W ≤ MaxInt64`, `CalculateTargetSize` sets the target width to `W` and the
target height to `int(float32(W) / (float32(sourceWidth) / float32(sourceHeight)))`,
the single-precision quotient truncated toward zero; for a height-only size
"x" followed by the digits of `H`, on a target whose width is still 0, it sets
the height to `H` and the width to
`int(float32(H) * (float32(sourceWidth) / float32(sourceHeight)))`. -/
theorem CalculateTargetSize_single_dimension (impl : F32 → Int) (source target : Info)
    (ds : List Char) (hne : ds ≠ []) (hall : ∀ c ∈ ds, c.isDigit = true)
    (hpos : 0 < digitsValue ds) (hmax : (digitsValue ds : Int) ≤ MaxInt64) :
    CalculateTargetSize impl source target (String.mk ds) =
      ({ target with
          Width := (digitsValue ds : Int),
          Height := F32.toInt impl
            (F32.div (F32.ofInt (digitsValue ds : Int))
              (F32.div (F32.ofInt source.Width) (F32.ofInt source.Height))) }, none) ∧
    (target.Width = 0 →
      CalculateTargetSize impl source target (String.mk ('x' :: ds)) =
        ({ target with
            Height := (digitsValue ds : Int),
            Width := F32.toInt impl
              (F32.mul (F32.ofInt (digitsValue ds : Int))
                (F32.div (F32.ofInt source.Width) (F32.ofInt source.Height))) }, none)) := by
  have hlen : 0 < (String.mk ds).length := by
    cases ds with
    | nil => exact absurd rfl hne
    | cons c t => simp [String.length]
  have hval : (Atoi (String.mk ds)).1 = (digitsValue ds : Int) := by
    rw [Atoi_digits ds hne hall]
    exact min_eq_left hmax
  have hvpos : 0 < (Atoi (String.mk ds)).1 := by
    rw [hval]
    exact_mod_cast hpos
  constructor
  · have h := CalculateTargetSize_of_width impl source target (String.mk ds) (String.mk ds)
      (String.mk ds) "" (sizeRegexp_digits ds hall) hlen hvpos
    rw [h, hval]
    rfl
  · intro htarget
    have hparse := sizeRegexp_digits_x_digits [] ds (fun c hc => by cases hc) hall
    simp only [List.nil_append] at hparse
    have h := CalculateTargetSize_of_height impl source target (String.mk ('x' :: ds))
      (String.mk ('x' :: ds)) (String.mk ds) hparse htarget hlen hvpos
    rw [h, hval]
    rfl

/-- C8, amended, instantiated: "100" on a 300x200 source gives 100x66 and
"x100" gives 150x100. -/
theorem CalculateTargetSize_single_dimension_witness :
    CalculateTargetSize (fun _ => 0) demoSource Info.zero "100" =
      ({ Info.zero with Width := 100, Height := 66 }, none) ∧
    CalculateTargetSize (fun _ => 0) demoSource Info.zero "x100" =
      ({ Info.zero with Width := 150, Height := 100 }, none) := by
  have h := CalculateTargetSize_single_dimension (fun _ => 0) demoSource Info.zero
    ['1', '0', '0'] (by decide) (by decide) (by decide) (by decide)
  exact ⟨h.1.trans (by decide), (h.2 rfl).trans (by decide)⟩

/-! ## Rounding against the binary32 grid -/

/-- With enough fuel `ilog2` is the floor of the binary logarithm. -/
theorem ilog2_spec : ∀ (fuel n : Nat), 1 ≤ n → n ≤ fuel →
    2 ^ ilog2 fuel n ≤ n ∧ n < 2 ^ (ilog2 fuel n + 1)
  | 0, n, h1, h2 => by omega
  | fuel + 1, n, h1, h2 => by
    unfold ilog2
    split_ifs with h
    · have ih := ilog2_spec fuel (n / 2) (by omega) (by omega)
      have e1 : 2 ^ (ilog2 fuel (n / 2) + 1) = 2 * 2 ^ ilog2 fuel (n / 2) := by ring
      have e2 : 2 ^ (ilog2 fuel (n / 2) + 1 + 1) = 2 * 2 ^ (ilog2 fuel (n / 2) + 1) := by ring
      constructor
      · rw [e1]
        omega
      · rw [e2]
        omega
    · simp
      omega

/-- A power of two with an integer exponent as a quotient of two natural
powers. -/
theorem two_zpow_split (e : Int) :
    (2 : ℚ) ^ e = (2 : ℚ) ^ e.toNat / (2 : ℚ) ^ (-e).toNat := by
  rcases le_total 0 e with h | h
  · have h1 : (-e).toNat = 0 := by omega
    have h2 : (e.toNat : Int) = e := Int.toNat_of_nonneg h
    rw [h1, pow_zero, div_one, ← zpow_natCast, h2]
  · have h1 : e.toNat = 0 := by omega
    have h2 : ((-e).toNat : Int) = -e := Int.toNat_of_nonneg (by omega)
    rw [h1, pow_zero, one_div, ← zpow_natCast, h2, zpow_neg, inv_inv]


/-- The exponent that `round` computes for `n / d` is not above its binary
logarithm. -/
theorem round_p_le (n d : Nat) (hn : 0 < n) (hd : 0 < d) :
    (2 : ℚ) ^ (if d * 2 ^ ((ilog2 n n : Int) - (ilog2 d d : Int)).toNat ≤
        n * 2 ^ (-((ilog2 n n : Int) - (ilog2 d d : Int))).toNat
      then ((ilog2 n n : Int) - (ilog2 d d : Int))
      else ((ilog2 n n : Int) - (ilog2 d d : Int)) - 1) ≤ (n : ℚ) / d := by
  have hdq : (0 : ℚ) < d := by exact_mod_cast hd
  have hnq : (0 : ℚ) < n := by exact_mod_cast hn
  obtain ⟨ha, _⟩ := ilog2_spec n n hn le_rfl
  obtain ⟨_, hb⟩ := ilog2_spec d d hd le_rfl
  generalize ilog2 n n = a at *
  generalize ilog2 d d = b at *
  split_ifs with hT
  · rw [two_zpow_split, div_le_div_iff₀ (by positivity) hdq]
    have : ((d * 2 ^ ((a : Int) - b).toNat : Nat) : ℚ) ≤ ((n * 2 ^ (-((a : Int) - b)).toNat : Nat) : ℚ) := by
      exact_mod_cast hT
    push_cast at this
    linarith
  · have e1 : ((a : Int) - b - 1) = (a : Int) - ((b + 1 : Nat) : Int) := by push_cast; ring
    rw [e1, zpow_sub₀ (by norm_num), zpow_natCast, zpow_natCast]
    have h1 : ((2 : ℚ) ^ a) ≤ n := by exact_mod_cast ha
    have h2 : (d : ℚ) ≤ (2 : ℚ) ^ (b + 1) := by exact_mod_cast le_of_lt hb
    exact div_le_div₀ (le_of_lt hnq) h1 hdq h2


/-- The mantissa and exponent that `round` settles on. -/
theorem round_decomp (s : Bool) (n d : Nat) (hn : 0 < n) (hd : 0 < d) :
    ∃ (e : Int) (q mR : Nat),
      -149 ≤ e ∧ (mR = q ∨ mR = q + 1) ∧
      ((q : ℚ) * (2 : ℚ) ^ e ≤ (n : ℚ) / d) ∧
      ((n : ℚ) / d < ((q : ℚ) + 1) * (2 : ℚ) ^ e) ∧
      ((q : ℚ) * (2 : ℚ) ^ e = (n : ℚ) / d → mR = q) ∧
      (-149 < e → 2 ^ 23 ≤ q) ∧
      F32.round s n d =
        (if mR = 2 ^ 24 then
          (if 104 < e + 1 then F32.inf s else F32.fin s (2 ^ 23) (e + 1))
        else if 104 < e then F32.inf s else F32.fin s mR e) := by
  have hdq : (0 : ℚ) < d := by exact_mod_cast hd
  have hnq : (0 : ℚ) < n := by exact_mod_cast hn
  have hp := round_p_le n d hn hd
  have hn0 : ¬ n = 0 := by omega
  unfold F32.round
  simp only [hn0, if_false]
  generalize (if d * 2 ^ ((ilog2 n n : Int) - (ilog2 d d : Int)).toNat ≤
        n * 2 ^ (-((ilog2 n n : Int) - (ilog2 d d : Int))).toNat
      then ((ilog2 n n : Int) - (ilog2 d d : Int))
      else ((ilog2 n n : Int) - (ilog2 d d : Int)) - 1) = p at hp ⊢
  generalize he : max (p - 23) (-149) = e
  have hD : 0 < d * 2 ^ e.toNat := Nat.mul_pos hd (Nat.pow_pos (by norm_num))
  generalize hN : n * 2 ^ (-e).toNat = N
  generalize hDD : d * 2 ^ e.toNat = D at hD ⊢
  have hx : (N : ℚ) / D = (n : ℚ) / d / (2 : ℚ) ^ e := by
    rw [← hN, ← hDD, two_zpow_split e]
    push_cast
    field_simp
  have hDq : (0 : ℚ) < D := by exact_mod_cast hD
  have h2e : (0 : ℚ) < (2 : ℚ) ^ e := by positivity
  have hdm := Nat.div_add_mod N D
  have hmod := Nat.mod_lt N hD
  have hq1 : ((N / D : Nat) : ℚ) ≤ (N : ℚ) / D := by
    rw [le_div_iff₀ hDq]
    have : (N / D) * D ≤ N := Nat.div_mul_le_self N D
    exact_mod_cast this
  have hq2 : (N : ℚ) / D < ((N / D : Nat) : ℚ) + 1 := by
    rw [div_lt_iff₀ hDq]
    have : N < (N / D + 1) * D := by
      have := Nat.lt_succ_self (N % D)
      nlinarith [hdm, hmod]
    exact_mod_cast this
  refine ⟨e, N / D, _, ?_, ?_, ?_, ?_, ?_, ?_, rfl⟩
  · rw [← he]
    exact le_max_right _ _
  · split_ifs <;> simp
  · rw [hx] at hq1
    exact (le_div_iff₀ h2e).mp hq1
  · rw [hx] at hq2
    exact (div_lt_iff₀ h2e).mp hq2
  · intro heq
    have h1 : ((N / D : Nat) : ℚ) = (N : ℚ) / D := by
      rw [hx, eq_div_iff (ne_of_gt h2e)]
      exact heq
    have h2 : ((N / D : Nat) : ℚ) * D = N := by
      rw [h1]
      field_simp
    have h3 : (N / D) * D = N := by exact_mod_cast h2
    have h4 : N % D = 0 := by
      have := hdm
      rw [mul_comm] at h3
      omega
    simp [h4, hD]
  · intro hlt
    have hep : e = p - 23 := by
      rw [← he] at hlt ⊢
      rcases max_cases (p - 23) (-149) with ⟨h1, _⟩ | ⟨h1, _⟩
      · exact h1
      · rw [h1] at hlt
        exact absurd hlt (lt_irrefl _)
    have h1 : (2 : ℚ) ^ 23 ≤ (N : ℚ) / D := by
      rw [hx, le_div_iff₀ h2e, hep]
      have : (2 : ℚ) ^ 23 * (2 : ℚ) ^ (p - 23) = (2 : ℚ) ^ p := by
        rw [← zpow_natCast, ← zpow_add₀ (by norm_num)]
        congr 1
        push_cast
        ring
      rw [this]
      exact hp
    have h2 : (2 : ℚ) ^ 23 * D ≤ N := (le_div_iff₀ hDq).mp h1
    have h3 : 2 ^ 23 * D ≤ N := by exact_mod_cast h2
    exact (Nat.le_div_iff_mul_le hD).mpr h3


/-- A grid value `mf * 2^ef` with `e ≤ ef` is a natural multiple of `2^e`. -/
theorem grid_multiple (mf : Nat) (ef e : Int) (h : e ≤ ef) :
    (mf : ℚ) * (2 : ℚ) ^ ef = ((mf * 2 ^ (ef - e).toNat : Nat) : ℚ) * (2 : ℚ) ^ e := by
  have h1 : ef = ((ef - e).toNat : Int) + e := by
    rw [Int.toNat_of_nonneg (by omega)]
    ring
  have h2 : (2 : ℚ) ^ ef = (2 : ℚ) ^ (ef - e).toNat * (2 : ℚ) ^ e := by
    conv_lhs => rw [h1]
    rw [zpow_add₀ (by norm_num), zpow_natCast]
  rw [h2]
  push_cast
  ring

/-- A grid value with a smaller exponent lies below `2^23 * 2^e`. -/
theorem grid_small (mf : Nat) (ef e : Int) (hmf : mf < 2 ^ 24) (h : ef < e) :
    (mf : ℚ) * (2 : ℚ) ^ ef < (2 : ℚ) ^ 23 * (2 : ℚ) ^ e := by
  have h1 : (2 : ℚ) ^ ef ≤ (2 : ℚ) ^ (e - 1) := zpow_le_zpow_right₀ (by norm_num) (by omega)
  have h2 : (2 : ℚ) ^ e = 2 * (2 : ℚ) ^ (e - 1) := by
    rw [zpow_sub₀ (by norm_num)]
    field_simp
  have h3 : (mf : ℚ) < (2 : ℚ) ^ 24 := by exact_mod_cast hmf
  have h4 : (0 : ℚ) < (2 : ℚ) ^ (e - 1) := by positivity
  have h5 : (0 : ℚ) < (2 : ℚ) ^ ef := by positivity
  have h6 : (0 : ℚ) ≤ (mf : ℚ) := Nat.cast_nonneg _
  rw [h2]
  calc (mf : ℚ) * (2 : ℚ) ^ ef ≤ (mf : ℚ) * (2 : ℚ) ^ (e - 1) :=
        mul_le_mul_of_nonneg_left h1 h6
    _ < (2 : ℚ) ^ 24 * (2 : ℚ) ^ (e - 1) := mul_lt_mul_of_pos_right h3 h4
    _ = (2 : ℚ) ^ 23 * (2 * (2 : ℚ) ^ (e - 1)) := by ring

/-- Rounding is monotone against the grid from below: a grid value that is at
most `n / d` is at most the rounded value. -/
theorem F32.round_ge (s : Bool) (n d mf : Nat) (ef : Int) (hn : 0 < n) (hd : 0 < d)
    (hmf : mf < 2 ^ 24) (hef : -149 ≤ ef) (hf : (mf : ℚ) * (2 : ℚ) ^ ef ≤ (n : ℚ) / d) :
    F32.round s n d = F32.inf s ∨
    ∃ m e, F32.round s n d = F32.fin s m e ∧
      (mf : ℚ) * (2 : ℚ) ^ ef ≤ (m : ℚ) * (2 : ℚ) ^ e := by
  obtain ⟨e, q, mR, he, hmR, hq1, hq2, _, hq23, hround⟩ := round_decomp s n d hn hd
  have h2e : (0 : ℚ) < (2 : ℚ) ^ e := by positivity
  have hfq : (mf : ℚ) * (2 : ℚ) ^ ef ≤ (q : ℚ) * (2 : ℚ) ^ e := by
    rcases le_or_lt e ef with hc | hc
    · rw [grid_multiple mf ef e hc] at hf ⊢
      have h1 : ((mf * 2 ^ (ef - e).toNat : Nat) : ℚ) * (2 : ℚ) ^ e < ((q : ℚ) + 1) * (2 : ℚ) ^ e :=
        lt_of_le_of_lt hf hq2
      have h2 : ((mf * 2 ^ (ef - e).toNat : Nat) : ℚ) < (q : ℚ) + 1 :=
        lt_of_mul_lt_mul_right h1 (le_of_lt h2e)
      have h3 : mf * 2 ^ (ef - e).toNat < q + 1 := by exact_mod_cast h2
      have h4 : ((mf * 2 ^ (ef - e).toNat : Nat) : ℚ) ≤ (q : ℚ) := by
        exact_mod_cast Nat.lt_succ_iff.mp h3
      exact mul_le_mul_of_nonneg_right h4 (le_of_lt h2e)
    · have h1 := grid_small mf ef e hmf hc
      have h2 : (2 : ℚ) ^ 23 ≤ (q : ℚ) := by exact_mod_cast hq23 (by omega)
      exact le_of_lt (lt_of_lt_of_le h1 (mul_le_mul_of_nonneg_right h2 (le_of_lt h2e)))
  have hfm : (mf : ℚ) * (2 : ℚ) ^ ef ≤ (mR : ℚ) * (2 : ℚ) ^ e := by
    have : (q : ℚ) ≤ (mR : ℚ) := by
      rcases hmR with h | h
      · simp [h]
      · simp [h]
    exact le_trans hfq (mul_le_mul_of_nonneg_right this (le_of_lt h2e))
  rw [hround]
  split_ifs with h1 h2 h3
  · left; rfl
  · right
    refine ⟨2 ^ 23, e + 1, rfl, ?_⟩
    have : ((2 ^ 23 : Nat) : ℚ) * (2 : ℚ) ^ (e + 1) = (mR : ℚ) * (2 : ℚ) ^ e := by
      rw [h1, zpow_add₀ (by norm_num)]
      push_cast
      ring
    rw [this]
    exact hfm
  · left; rfl
  · right
    exact ⟨mR, e, rfl, hfm⟩

/-- Rounding is monotone against the grid from above: a finite grid value that
is at least `n / d` is at least the rounded value, which is finite. -/
theorem F32.round_le (s : Bool) (n d mf : Nat) (ef : Int) (hn : 0 < n) (hd : 0 < d)
    (hmf : mf < 2 ^ 24) (hef : -149 ≤ ef) (hef2 : ef ≤ 104)
    (hf : (n : ℚ) / d ≤ (mf : ℚ) * (2 : ℚ) ^ ef) :
    ∃ m e, F32.round s n d = F32.fin s m e ∧
      (m : ℚ) * (2 : ℚ) ^ e ≤ (mf : ℚ) * (2 : ℚ) ^ ef := by
  obtain ⟨e, q, mR, he, hmR, hq1, hq2, hexact, hq23, hround⟩ := round_decomp s n d hn hd
  have h2e : (0 : ℚ) < (2 : ℚ) ^ e := by positivity
  have hqm : (q : ℚ) ≤ (mR : ℚ) := by
    rcases hmR with h | h
    · simp [h]
    · simp [h]
  have hmf' : (mR : ℚ) * (2 : ℚ) ^ e ≤ (mf : ℚ) * (2 : ℚ) ^ ef := by
    rcases eq_or_lt_of_le hq1 with heq | hlt
    · rw [hexact heq, heq]
      exact hf
    · have hlt2 : (q : ℚ) * (2 : ℚ) ^ e < (mf : ℚ) * (2 : ℚ) ^ ef := lt_of_lt_of_le hlt hf
      rcases le_or_lt e ef with hc | hc
      · rw [grid_multiple mf ef e hc] at hlt2 ⊢
        have h2 : (q : ℚ) < ((mf * 2 ^ (ef - e).toNat : Nat) : ℚ) :=
          lt_of_mul_lt_mul_right hlt2 (le_of_lt h2e)
        have h3 : q < mf * 2 ^ (ef - e).toNat := by exact_mod_cast h2
        have h4 : (mR : ℚ) ≤ ((mf * 2 ^ (ef - e).toNat : Nat) : ℚ) := by
          have : mR ≤ mf * 2 ^ (ef - e).toNat := by
            rcases hmR with h | h <;> omega
          exact_mod_cast this
        exact mul_le_mul_of_nonneg_right h4 (le_of_lt h2e)
      · exfalso
        have h1 := grid_small mf ef e hmf hc
        have h2 : (2 : ℚ) ^ 23 ≤ (q : ℚ) := by exact_mod_cast hq23 (by omega)
        have h3 := mul_le_mul_of_nonneg_right h2 (le_of_lt h2e)
        linarith
  have hbound : (mR : ℚ) * (2 : ℚ) ^ e < (2 : ℚ) ^ 24 * (2 : ℚ) ^ (104 : Int) := by
    have h1 : (mf : ℚ) < (2 : ℚ) ^ 24 := by exact_mod_cast hmf
    have h2 : (2 : ℚ) ^ ef ≤ (2 : ℚ) ^ (104 : Int) := zpow_le_zpow_right₀ (by norm_num) hef2
    have h3 : (0 : ℚ) < (2 : ℚ) ^ ef := by positivity
    calc (mR : ℚ) * (2 : ℚ) ^ e ≤ (mf : ℚ) * (2 : ℚ) ^ ef := hmf'
      _ < (2 : ℚ) ^ 24 * (2 : ℚ) ^ ef := mul_lt_mul_of_pos_right h1 h3
      _ ≤ (2 : ℚ) ^ 24 * (2 : ℚ) ^ (104 : Int) := mul_le_mul_of_nonneg_left h2 (by positivity)
  have hnot1 : mR = 2 ^ 24 → ¬ (104 < e + 1) := by
    intro h1 h2
    have h3 : (2 : ℚ) ^ (104 : Int) ≤ (2 : ℚ) ^ e := zpow_le_zpow_right₀ (by norm_num) (by omega)
    have h4 : (mR : ℚ) = (2 : ℚ) ^ 24 := by rw [h1]; norm_num
    rw [h4] at hbound
    have := mul_le_mul_of_nonneg_left h3 (show (0 : ℚ) ≤ (2 : ℚ) ^ 24 by positivity)
    linarith
  have hnot2 : ¬ (104 < e) := by
    intro h2
    have h23 : (2 : ℚ) ^ 23 ≤ (q : ℚ) := by exact_mod_cast hq23 (by omega)
    have h3 : (2 : ℚ) ^ (105 : Int) ≤ (2 : ℚ) ^ e := zpow_le_zpow_right₀ (by norm_num) (by omega)
    have h4 : (2 : ℚ) ^ 23 * (2 : ℚ) ^ (105 : Int) ≤ (mR : ℚ) * (2 : ℚ) ^ e :=
      mul_le_mul (le_trans h23 hqm) h3 (by positivity) (Nat.cast_nonneg _)
    have h5 : (2 : ℚ) ^ 23 * (2 : ℚ) ^ (105 : Int) = (2 : ℚ) ^ 24 * (2 : ℚ) ^ (104 : Int) := by
      norm_num
    linarith
  rw [hround]
  split_ifs with h1 h2
  · exact absurd h2 (hnot1 h1)
  · refine ⟨2 ^ 23, e + 1, rfl, ?_⟩
    have : ((2 ^ 23 : Nat) : ℚ) * (2 : ℚ) ^ (e + 1) = (mR : ℚ) * (2 : ℚ) ^ e := by
      rw [h1, zpow_add₀ (by norm_num)]
      push_cast
      ring
    rw [this]
    exact hmf'
  · exact ⟨mR, e, rfl, hmf'⟩


/-- Rounding a quotient that lies between two grid values gives a finite value
between them. -/
theorem F32.round_between (s : Bool) (n d mlo mhi : Nat) (elo ehi : Int)
    (hn : 0 < n) (hd : 0 < d)
    (hmlo : mlo < 2 ^ 24) (helo : -149 ≤ elo)
    (hmhi : mhi < 2 ^ 24) (hehi : -149 ≤ ehi) (hehi2 : ehi ≤ 104)
    (hlo : (mlo : ℚ) * (2 : ℚ) ^ elo ≤ (n : ℚ) / d)
    (hhi : (n : ℚ) / d ≤ (mhi : ℚ) * (2 : ℚ) ^ ehi) :
    ∃ m e, F32.round s n d = F32.fin s m e ∧
      (mlo : ℚ) * (2 : ℚ) ^ elo ≤ (m : ℚ) * (2 : ℚ) ^ e ∧
      (m : ℚ) * (2 : ℚ) ^ e ≤ (mhi : ℚ) * (2 : ℚ) ^ ehi := by
  obtain ⟨m, e, hr, hle⟩ := F32.round_le s n d mhi ehi hn hd hmhi hehi hehi2 hhi
  rcases F32.round_ge s n d mlo elo hn hd hmlo helo hlo with hinf | ⟨m2, e2, hr2, hge⟩
  · rw [hr] at hinf
    exact F32.noConfusion hinf
  · rw [hr] at hr2
    injection hr2 with _ hm he
    subst hm
    subst he
    exact ⟨m, e, hr, hge, hle⟩

/-- A finite value that is positive has a positive mantissa. -/
theorem mantissa_pos (m : Nat) (e : Int) (h : (0 : ℚ) < (m : ℚ) * (2 : ℚ) ^ e) : 0 < m := by
  rcases Nat.eq_zero_or_pos m with h0 | h0
  · rw [h0] at h
    simp at h
  · exact h0

/-- The conversion of a positive `int` that is at most `2^k`: a finite value
between 1 and `2^k`, and the integer itself when it is below `2^24`. -/
theorem F32.ofInt_pos (i : Int) (k : Nat) (hi : 0 < i) (hk : k ≤ 104)
    (hik : i ≤ 2 ^ k) :
    ∃ m e, F32.ofInt i = F32.fin false m e ∧
      (1 : ℚ) ≤ (m : ℚ) * (2 : ℚ) ^ e ∧ (m : ℚ) * (2 : ℚ) ^ e ≤ (2 : ℚ) ^ k ∧
      (i < 2 ^ 24 → (m : ℚ) * (2 : ℚ) ^ e = (i : ℚ)) := by
  have hd : decide (i < 0) = false := by
    simp only [decide_eq_false_iff_not, not_lt]
    exact le_of_lt hi
  have hnat : (i.natAbs : Int) = i := Int.natAbs_of_nonneg (le_of_lt hi)
  have hnpos : 0 < i.natAbs := by omega
  have hq : ((i.natAbs : Nat) : ℚ) = (i : ℚ) := by
    have h : (((i.natAbs : Nat) : Int) : ℚ) = (i : ℚ) := congrArg (fun z : Int => (z : ℚ)) hnat
    rw [← h]
    exact (Int.cast_natCast _).symm
  have h1 : ((1 : Nat) : ℚ) * (2 : ℚ) ^ (0 : Int) ≤ ((i.natAbs : Nat) : ℚ) / ((1 : Nat) : ℚ) := by
    rw [hq]
    have : (1 : ℚ) ≤ (i : ℚ) := by exact_mod_cast hi
    simpa using this
  have h2 : ((i.natAbs : Nat) : ℚ) / ((1 : Nat) : ℚ) ≤ ((1 : Nat) : ℚ) * (2 : ℚ) ^ (k : Int) := by
    rw [hq]
    have : (i : ℚ) ≤ (2 : ℚ) ^ k := by exact_mod_cast hik
    simpa using this
  obtain ⟨m, e, hr, hlo, hhi⟩ := F32.round_between false i.natAbs 1 1 1 0 k hnpos
    (by norm_num) (by norm_num) (by norm_num) (by norm_num) (by omega) (by omega) h1 h2
  refine ⟨m, e, ?_, ?_, ?_, ?_⟩
  · unfold F32.ofInt
    rw [hd]
    exact hr
  · simpa using hlo
  · simpa using hhi
  · intro hsmall
    have hsm : i.natAbs < 2 ^ 24 := by omega
    have h3 : ((i.natAbs : Nat) : ℚ) * (2 : ℚ) ^ (0 : Int) ≤
        ((i.natAbs : Nat) : ℚ) / ((1 : Nat) : ℚ) := by simp
    have h4 : ((i.natAbs : Nat) : ℚ) / ((1 : Nat) : ℚ) ≤
        ((i.natAbs : Nat) : ℚ) * (2 : ℚ) ^ (0 : Int) := by simp
    obtain ⟨m2, e2, hr2, hlo2, hhi2⟩ := F32.round_between false i.natAbs 1 i.natAbs i.natAbs 0 0
      hnpos (by norm_num) hsm (by norm_num) hsm (by norm_num) (by norm_num) h3 h4
    rw [hr] at hr2
    injection hr2 with _ hm he
    subst hm
    subst he
    have : (m : ℚ) * (2 : ℚ) ^ e = ((i.natAbs : Nat) : ℚ) * (2 : ℚ) ^ (0 : Int) :=
      le_antisymm hhi2 hlo2
    rw [this, hq]
    simp

/-- The quotient that `div` hands to `round` is the quotient of the values. -/
theorem div_ratio (m1 m2 : Nat) (e1 e2 : Int) (h2 : 0 < m2) :
    ((m1 * 2 ^ (e1 - e2).toNat : Nat) : ℚ) / ((m2 * 2 ^ (e2 - e1).toNat : Nat) : ℚ) =
      ((m1 : ℚ) * (2 : ℚ) ^ e1) / ((m2 : ℚ) * (2 : ℚ) ^ e2) := by
  have hm2 : (m2 : ℚ) ≠ 0 := by
    have : (0 : ℚ) < (m2 : ℚ) := by exact_mod_cast h2
    exact ne_of_gt this
  have hs := two_zpow_split (e1 - e2)
  have hneg : -(e1 - e2) = e2 - e1 := by ring
  rw [hneg] at hs
  have hz : (2 : ℚ) ^ e1 = (2 : ℚ) ^ (e1 - e2) * (2 : ℚ) ^ e2 := by
    rw [← zpow_add₀ (by norm_num)]
    congr 1
    ring
  have hp1 : (0 : ℚ) < (2 : ℚ) ^ (e2 - e1).toNat := by positivity
  have hp2 : (0 : ℚ) < (2 : ℚ) ^ e2 := by positivity
  rw [hz, hs]
  push_cast
  field_simp
  ring

/-- The quotient that `mul` hands to `round` is the product of the values. -/
theorem mul_ratio (m1 m2 : Nat) (e1 e2 : Int) :
    ((m1 * m2 * 2 ^ (e1 + e2).toNat : Nat) : ℚ) / ((2 ^ (-(e1 + e2)).toNat : Nat) : ℚ) =
      ((m1 : ℚ) * (2 : ℚ) ^ e1) * ((m2 : ℚ) * (2 : ℚ) ^ e2) := by
  have hs := two_zpow_split (e1 + e2)
  have hz : (2 : ℚ) ^ e1 * (2 : ℚ) ^ e2 = (2 : ℚ) ^ (e1 + e2) := by
    rw [← zpow_add₀ (by norm_num)]
  have hp1 : (0 : ℚ) < (2 : ℚ) ^ (-(e1 + e2)).toNat := by positivity
  have : ((m1 : ℚ) * (2 : ℚ) ^ e1) * ((m2 : ℚ) * (2 : ℚ) ^ e2) =
      (m1 : ℚ) * (m2 : ℚ) * ((2 : ℚ) ^ e1 * (2 : ℚ) ^ e2) := by ring
  rw [this, hz, hs]
  push_cast
  field_simp


/-- The quotient of two positive finite values, when it lies between two grid
values, is a finite value between them. -/
theorem F32.div_between (m1 m2 mlo mhi : Nat) (e1 e2 elo ehi : Int)
    (h1 : 0 < m1) (h2 : 0 < m2)
    (hmlo : mlo < 2 ^ 24) (helo : -149 ≤ elo)
    (hmhi : mhi < 2 ^ 24) (hehi : -149 ≤ ehi) (hehi2 : ehi ≤ 104)
    (hlo : (mlo : ℚ) * (2 : ℚ) ^ elo ≤ ((m1 : ℚ) * (2 : ℚ) ^ e1) / ((m2 : ℚ) * (2 : ℚ) ^ e2))
    (hhi : ((m1 : ℚ) * (2 : ℚ) ^ e1) / ((m2 : ℚ) * (2 : ℚ) ^ e2) ≤ (mhi : ℚ) * (2 : ℚ) ^ ehi) :
    ∃ m e, F32.div (F32.fin false m1 e1) (F32.fin false m2 e2) = F32.fin false m e ∧
      (mlo : ℚ) * (2 : ℚ) ^ elo ≤ (m : ℚ) * (2 : ℚ) ^ e ∧
      (m : ℚ) * (2 : ℚ) ^ e ≤ (mhi : ℚ) * (2 : ℚ) ^ ehi := by
  have hm2 : ¬ m2 = 0 := by omega
  have hn : 0 < m1 * 2 ^ (e1 - e2).toNat := Nat.mul_pos h1 (Nat.pow_pos (by norm_num))
  have hd : 0 < m2 * 2 ^ (e2 - e1).toNat := Nat.mul_pos h2 (Nat.pow_pos (by norm_num))
  rw [← div_ratio m1 m2 e1 e2 h2] at hlo hhi
  obtain ⟨m, e, hr, hge, hle⟩ := F32.round_between false _ _ mlo mhi elo ehi hn hd
    hmlo helo hmhi hehi hehi2 hlo hhi
  refine ⟨m, e, ?_, hge, hle⟩
  simp only [F32.div, hm2, if_false, Bool.xor_false]
  exact hr

/-- The product of two positive finite values, when it lies between two grid
values, is a finite value between them. -/
theorem F32.mul_between (m1 m2 mlo mhi : Nat) (e1 e2 elo ehi : Int)
    (h1 : 0 < m1) (h2 : 0 < m2)
    (hmlo : mlo < 2 ^ 24) (helo : -149 ≤ elo)
    (hmhi : mhi < 2 ^ 24) (hehi : -149 ≤ ehi) (hehi2 : ehi ≤ 104)
    (hlo : (mlo : ℚ) * (2 : ℚ) ^ elo ≤ ((m1 : ℚ) * (2 : ℚ) ^ e1) * ((m2 : ℚ) * (2 : ℚ) ^ e2))
    (hhi : ((m1 : ℚ) * (2 : ℚ) ^ e1) * ((m2 : ℚ) * (2 : ℚ) ^ e2) ≤ (mhi : ℚ) * (2 : ℚ) ^ ehi) :
    ∃ m e, F32.mul (F32.fin false m1 e1) (F32.fin false m2 e2) = F32.fin false m e ∧
      (mlo : ℚ) * (2 : ℚ) ^ elo ≤ (m : ℚ) * (2 : ℚ) ^ e ∧
      (m : ℚ) * (2 : ℚ) ^ e ≤ (mhi : ℚ) * (2 : ℚ) ^ ehi := by
  have hn : 0 < m1 * m2 * 2 ^ (e1 + e2).toNat :=
    Nat.mul_pos (Nat.mul_pos h1 h2) (Nat.pow_pos (by norm_num))
  have hd : 0 < 2 ^ (-(e1 + e2)).toNat := Nat.pow_pos (by norm_num)
  rw [← mul_ratio m1 m2 e1 e2] at hlo hhi
  obtain ⟨m, e, hr, hge, hle⟩ := F32.round_between false _ _ mlo mhi elo ehi hn hd
    hmlo helo hmhi hehi hehi2 hlo hhi
  refine ⟨m, e, ?_, hge, hle⟩
  simp only [F32.mul, Bool.xor_false]
  exact hr

/-- Truncation is the integer part of the value. -/
theorem F32.trunc_bounds (m : Nat) (e : Int) :
    ((F32.trunc false m e : Int) : ℚ) ≤ (m : ℚ) * (2 : ℚ) ^ e ∧
    (m : ℚ) * (2 : ℚ) ^ e < ((F32.trunc false m e : Int) : ℚ) + 1 := by
  unfold F32.trunc
  simp only [Bool.false_eq_true, if_false]
  rw [two_zpow_split e]
  split_ifs with h
  · have h1 : (-e).toNat = 0 := by omega
    rw [h1]
    push_cast
    simp
  · have h1 : e.toNat = 0 := by omega
    rw [h1, pow_zero, one_div, ← div_eq_mul_inv]
    have hD : 0 < 2 ^ (-e).toNat := Nat.pow_pos (by norm_num)
    have hDq : (0 : ℚ) < (2 : ℚ) ^ (-e).toNat := by positivity
    have hdm := Nat.div_add_mod m (2 ^ (-e).toNat)
    have hmod := Nat.mod_lt m hD
    have hq1 : m / 2 ^ (-e).toNat * 2 ^ (-e).toNat ≤ m := Nat.div_mul_le_self _ _
    have hq2 : m < (m / 2 ^ (-e).toNat + 1) * 2 ^ (-e).toNat := by
      nlinarith [hdm, hmod]
    constructor
    · rw [le_div_iff₀ hDq]
      exact_mod_cast hq1
    · rw [div_lt_iff₀ hDq]
      exact_mod_cast hq2

/-- The conversion `int(x)` of a finite value that lies between two integers
of the `int` range is the integer part of the value and lies between them. -/
theorem F32.toInt_between (impl : F32 → Int) (m : Nat) (e : Int) (lo hi : Int)
    (hlo : -2 ^ 63 ≤ lo) (hhi : hi < 2 ^ 63)
    (h1 : (lo : ℚ) ≤ (m : ℚ) * (2 : ℚ) ^ e) (h2 : (m : ℚ) * (2 : ℚ) ^ e ≤ (hi : ℚ)) :
    lo ≤ F32.toInt impl (F32.fin false m e) ∧ F32.toInt impl (F32.fin false m e) ≤ hi := by
  obtain ⟨hb1, hb2⟩ := F32.trunc_bounds m e
  have ha : lo ≤ F32.trunc false m e := by
    have : (lo : ℚ) < ((F32.trunc false m e : Int) : ℚ) + 1 := lt_of_le_of_lt h1 hb2
    have h3 : lo < F32.trunc false m e + 1 := by exact_mod_cast this
    omega
  have hb : F32.trunc false m e ≤ hi := by
    have : ((F32.trunc false m e : Int) : ℚ) ≤ (hi : ℚ) := le_trans hb1 h2
    exact_mod_cast this
  have hrange : -2 ^ 63 ≤ F32.trunc false m e ∧ F32.trunc false m e < 2 ^ 63 :=
    ⟨le_trans hlo ha, lt_of_le_of_lt hb hhi⟩
  simp only [F32.toInt, hrange, and_self, if_true]
  exact ⟨ha, hb⟩


/-- The aspect ratio of a source whose sides are positive and below `2^31`: a
finite value between `2^-31` and `2^31`, with a positive mantissa. -/
theorem aspect_between (sw sh : Int) (hsw : 0 < sw) (hsh : 0 < sh)
    (bsw : sw ≤ 2 ^ 31) (bsh : sh ≤ 2 ^ 31) :
    ∃ m e, F32.div (F32.ofInt sw) (F32.ofInt sh) = F32.fin false m e ∧ 0 < m ∧
      (2 : ℚ) ^ (-31 : Int) ≤ (m : ℚ) * (2 : ℚ) ^ e ∧
      (m : ℚ) * (2 : ℚ) ^ e ≤ (2 : ℚ) ^ (31 : Int) ∧
      (sw < 2 ^ 24 → sh < 2 ^ 24 → ∀ W : Int, 0 < W → W < 2 ^ 24 → sw ≤ W * sh →
        (m : ℚ) * (2 : ℚ) ^ e ≤ (W : ℚ)) ∧
      (sw < 2 ^ 24 → sh < 2 ^ 24 → ∀ W : Int, 0 < W → W < 2 ^ 24 → W * sh ≤ sw →
        (W : ℚ) ≤ (m : ℚ) * (2 : ℚ) ^ e) := by
  obtain ⟨m1, e1, hf1, hlo1, hhi1, hx1⟩ := F32.ofInt_pos sw 31 hsw (by norm_num) bsw
  obtain ⟨m2, e2, hf2, hlo2, hhi2, hx2⟩ := F32.ofInt_pos sh 31 hsh (by norm_num) bsh
  have hm1 : 0 < m1 := mantissa_pos m1 e1 (lt_of_lt_of_le one_pos hlo1)
  have hm2 : 0 < m2 := mantissa_pos m2 e2 (lt_of_lt_of_le one_pos hlo2)
  have hv2 : (0 : ℚ) < (m2 : ℚ) * (2 : ℚ) ^ e2 := lt_of_lt_of_le one_pos hlo2
  have hlo : ((1 : Nat) : ℚ) * (2 : ℚ) ^ (-31 : Int) ≤
      ((m1 : ℚ) * (2 : ℚ) ^ e1) / ((m2 : ℚ) * (2 : ℚ) ^ e2) := by
    rw [le_div_iff₀ hv2]
    have : (2 : ℚ) ^ (-31 : Int) * (2 : ℚ) ^ (31 : Nat) = 1 := by norm_num
    calc ((1 : Nat) : ℚ) * (2 : ℚ) ^ (-31 : Int) * ((m2 : ℚ) * (2 : ℚ) ^ e2)
        ≤ ((1 : Nat) : ℚ) * (2 : ℚ) ^ (-31 : Int) * (2 : ℚ) ^ (31 : Nat) :=
          mul_le_mul_of_nonneg_left hhi2 (by positivity)
      _ = 1 := by norm_num
      _ ≤ (m1 : ℚ) * (2 : ℚ) ^ e1 := hlo1
  have hhi : ((m1 : ℚ) * (2 : ℚ) ^ e1) / ((m2 : ℚ) * (2 : ℚ) ^ e2) ≤
      ((1 : Nat) : ℚ) * (2 : ℚ) ^ (31 : Int) := by
    rw [div_le_iff₀ hv2]
    calc (m1 : ℚ) * (2 : ℚ) ^ e1 ≤ (2 : ℚ) ^ (31 : Nat) := hhi1
      _ = ((1 : Nat) : ℚ) * (2 : ℚ) ^ (31 : Int) * 1 := by norm_num
      _ ≤ ((1 : Nat) : ℚ) * (2 : ℚ) ^ (31 : Int) * ((m2 : ℚ) * (2 : ℚ) ^ e2) :=
          mul_le_mul_of_nonneg_left hlo2 (by positivity)
  obtain ⟨m, e, hdiv, hge, hle⟩ := F32.div_between m1 m2 1 1 e1 e2 (-31) 31 hm1 hm2
    (by norm_num) (by norm_num) (by norm_num) (by norm_num) (by norm_num) hlo hhi
  have hpos : (0 : ℚ) < (m : ℚ) * (2 : ℚ) ^ e :=
    lt_of_lt_of_le (by positivity) hge
  refine ⟨m, e, ?_, mantissa_pos m e hpos, by simpa using hge, by simpa using hle, ?_, ?_⟩
  · rw [hf1, hf2]
    exact hdiv
  · intro s1 s2 W hW bW hle2
    have hWn : W.natAbs < 2 ^ 24 := by omega
    have hWq : ((W.natAbs : Nat) : ℚ) = (W : ℚ) := by
      have h : (((W.natAbs : Nat) : Int) : ℚ) = (W : ℚ) :=
        congrArg (fun z : Int => (z : ℚ)) (Int.natAbs_of_nonneg (le_of_lt hW))
      rw [← h]
      exact (Int.cast_natCast _).symm
    have hhi' : ((m1 : ℚ) * (2 : ℚ) ^ e1) / ((m2 : ℚ) * (2 : ℚ) ^ e2) ≤
        ((W.natAbs : Nat) : ℚ) * (2 : ℚ) ^ (0 : Int) := by
      rw [hx1 s1, hx2 s2, hWq, zpow_zero, mul_one, div_le_iff₀ (by exact_mod_cast hsh)]
      exact_mod_cast hle2
    obtain ⟨m', e', hdiv', _, hle'⟩ := F32.div_between m1 m2 1 W.natAbs e1 e2 (-31) 0 hm1 hm2
      (by norm_num) (by norm_num) hWn (by norm_num) (by norm_num) hlo hhi'
    rw [hdiv] at hdiv'
    injection hdiv' with _ hm he
    subst hm
    subst he
    rw [hWq, zpow_zero, mul_one] at hle'
    exact hle'
  · intro s1 s2 W hW bW hle2
    have hWn : W.natAbs < 2 ^ 24 := by omega
    have hWq : ((W.natAbs : Nat) : ℚ) = (W : ℚ) := by
      have h : (((W.natAbs : Nat) : Int) : ℚ) = (W : ℚ) :=
        congrArg (fun z : Int => (z : ℚ)) (Int.natAbs_of_nonneg (le_of_lt hW))
      rw [← h]
      exact (Int.cast_natCast _).symm
    have hlo' : ((W.natAbs : Nat) : ℚ) * (2 : ℚ) ^ (0 : Int) ≤
        ((m1 : ℚ) * (2 : ℚ) ^ e1) / ((m2 : ℚ) * (2 : ℚ) ^ e2) := by
      rw [hx1 s1, hx2 s2, hWq, zpow_zero, mul_one, le_div_iff₀ (by exact_mod_cast hsh)]
      exact_mod_cast hle2
    obtain ⟨m', e', hdiv', hge', _⟩ := F32.div_between m1 m2 W.natAbs 1 e1 e2 0 31 hm1 hm2
      hWn (by norm_num) (by norm_num) (by norm_num) (by norm_num) hlo' hhi
    rw [hdiv] at hdiv'
    injection hdiv' with _ hm he
    subst hm
    subst he
    rw [hWq, zpow_zero, mul_one] at hge'
    exact hge'


/-- The height that `CalculateTargetSize` derives from a width: for a width
and source sides that are positive and at most `2^31` it lies between 0 and
`2^62`, and it is at least 1 when all three are below `2^24` and the exact
quotient `W * sh / sw` is at least 1. -/
theorem derived_height_bounds (impl : F32 → Int) (W sw sh : Int)
    (hW : 0 < W) (hsw : 0 < sw) (hsh : 0 < sh)
    (bW : W ≤ 2 ^ 31) (bsw : sw ≤ 2 ^ 31) (bsh : sh ≤ 2 ^ 31) :
    0 ≤ F32.toInt impl (F32.div (F32.ofInt W) (F32.div (F32.ofInt sw) (F32.ofInt sh))) ∧
    F32.toInt impl (F32.div (F32.ofInt W) (F32.div (F32.ofInt sw) (F32.ofInt sh))) ≤ 2 ^ 62 ∧
    (W < 2 ^ 24 → sw < 2 ^ 24 → sh < 2 ^ 24 → sw ≤ W * sh →
      1 ≤ F32.toInt impl (F32.div (F32.ofInt W) (F32.div (F32.ofInt sw) (F32.ofInt sh)))) := by
  obtain ⟨ma, ea, hfa, hma, hloa, hhia, hxa, _⟩ := aspect_between sw sh hsw hsh bsw bsh
  obtain ⟨mW, eW, hfW, hloW, hhiW, hxW⟩ := F32.ofInt_pos W 31 hW (by norm_num) bW
  have hmW : 0 < mW := mantissa_pos mW eW (lt_of_lt_of_le one_pos hloW)
  have hva : (0 : ℚ) < (ma : ℚ) * (2 : ℚ) ^ ea := lt_of_lt_of_le (by positivity) hloa
  have hlo : ((1 : Nat) : ℚ) * (2 : ℚ) ^ (-31 : Int) ≤
      ((mW : ℚ) * (2 : ℚ) ^ eW) / ((ma : ℚ) * (2 : ℚ) ^ ea) := by
    rw [le_div_iff₀ hva]
    calc ((1 : Nat) : ℚ) * (2 : ℚ) ^ (-31 : Int) * ((ma : ℚ) * (2 : ℚ) ^ ea)
        ≤ ((1 : Nat) : ℚ) * (2 : ℚ) ^ (-31 : Int) * (2 : ℚ) ^ (31 : Int) :=
          mul_le_mul_of_nonneg_left hhia (by positivity)
      _ = 1 := by norm_num
      _ ≤ (mW : ℚ) * (2 : ℚ) ^ eW := hloW
  have hhi : ((mW : ℚ) * (2 : ℚ) ^ eW) / ((ma : ℚ) * (2 : ℚ) ^ ea) ≤
      ((1 : Nat) : ℚ) * (2 : ℚ) ^ (62 : Int) := by
    rw [div_le_iff₀ hva]
    calc (mW : ℚ) * (2 : ℚ) ^ eW ≤ (2 : ℚ) ^ (31 : Nat) := hhiW
      _ = ((1 : Nat) : ℚ) * (2 : ℚ) ^ (62 : Int) * (2 : ℚ) ^ (-31 : Int) := by norm_num
      _ ≤ ((1 : Nat) : ℚ) * (2 : ℚ) ^ (62 : Int) * ((ma : ℚ) * (2 : ℚ) ^ ea) :=
          mul_le_mul_of_nonneg_left hloa (by positivity)
  obtain ⟨m, e, hdiv, hge, hle⟩ := F32.div_between mW ma 1 1 eW ea (-31) 62 hmW hma
    (by norm_num) (by norm_num) (by norm_num) (by norm_num) (by norm_num) hlo hhi
  rw [hfa, hfW, hdiv]
  have h0 : ((0 : Int) : ℚ) ≤ (m : ℚ) * (2 : ℚ) ^ e := by
    have : (0 : ℚ) ≤ ((1 : Nat) : ℚ) * (2 : ℚ) ^ (-31 : Int) := by positivity
    exact_mod_cast le_trans this hge
  have h62 : (m : ℚ) * (2 : ℚ) ^ e ≤ ((2 ^ 62 : Int) : ℚ) := by
    have : ((1 : Nat) : ℚ) * (2 : ℚ) ^ (62 : Int) = ((2 ^ 62 : Int) : ℚ) := by norm_num
    rw [← this]
    exact hle
  obtain ⟨r1, r2⟩ := F32.toInt_between impl m e 0 (2 ^ 62) (by norm_num) (by norm_num) h0 h62
  refine ⟨r1, r2, ?_⟩
  intro s1 s2 s3 hexact
  have hle1 : (ma : ℚ) * (2 : ℚ) ^ ea ≤ (W : ℚ) := hxa s2 s3 W hW s1 hexact
  have hlo1 : ((1 : Nat) : ℚ) * (2 : ℚ) ^ (0 : Int) ≤
      ((mW : ℚ) * (2 : ℚ) ^ eW) / ((ma : ℚ) * (2 : ℚ) ^ ea) := by
    rw [le_div_iff₀ hva, hxW s1]
    simpa using hle1
  obtain ⟨m', e', hdiv', hge', _⟩ := F32.div_between mW ma 1 1 eW ea 0 62 hmW hma
    (by norm_num) (by norm_num) (by norm_num) (by norm_num) (by norm_num) hlo1 hhi
  rw [hdiv] at hdiv'
  obtain ⟨_, hm, he⟩ := F32.fin.inj hdiv'
  rw [← hm, ← he] at hge'
  have h1 : ((1 : Int) : ℚ) ≤ (m : ℚ) * (2 : ℚ) ^ e := by
    simpa using hge'
  exact (F32.toInt_between impl m e 1 (2 ^ 62) (by norm_num) (by norm_num) h1 h62).1

/-- The width that `CalculateTargetSize` derives from a height: for a height
and source sides that are positive and at most `2^31` it lies between 0 and
`2^62`. -/
theorem derived_width_bounds (impl : F32 → Int) (H sw sh : Int)
    (hH : 0 < H) (hsw : 0 < sw) (hsh : 0 < sh)
    (bH : H ≤ 2 ^ 31) (bsw : sw ≤ 2 ^ 31) (bsh : sh ≤ 2 ^ 31) :
    0 ≤ F32.toInt impl (F32.mul (F32.ofInt H) (F32.div (F32.ofInt sw) (F32.ofInt sh))) ∧
    F32.toInt impl (F32.mul (F32.ofInt H) (F32.div (F32.ofInt sw) (F32.ofInt sh))) ≤ 2 ^ 62 := by
  obtain ⟨ma, ea, hfa, hma, hloa, hhia, _, _⟩ := aspect_between sw sh hsw hsh bsw bsh
  obtain ⟨mH, eH, hfH, hloH, hhiH, _⟩ := F32.ofInt_pos H 31 hH (by norm_num) bH
  have hmH : 0 < mH := mantissa_pos mH eH (lt_of_lt_of_le one_pos hloH)
  have hva : (0 : ℚ) < (ma : ℚ) * (2 : ℚ) ^ ea := lt_of_lt_of_le (by positivity) hloa
  have hvH : (0 : ℚ) < (mH : ℚ) * (2 : ℚ) ^ eH := lt_of_lt_of_le one_pos hloH
  have hlo : ((0 : Nat) : ℚ) * (2 : ℚ) ^ (0 : Int) ≤
      ((mH : ℚ) * (2 : ℚ) ^ eH) * ((ma : ℚ) * (2 : ℚ) ^ ea) := by
    have := mul_pos hvH hva
    simpa using le_of_lt this
  have hhi : ((mH : ℚ) * (2 : ℚ) ^ eH) * ((ma : ℚ) * (2 : ℚ) ^ ea) ≤
      ((1 : Nat) : ℚ) * (2 : ℚ) ^ (62 : Int) := by
    calc ((mH : ℚ) * (2 : ℚ) ^ eH) * ((ma : ℚ) * (2 : ℚ) ^ ea)
        ≤ (2 : ℚ) ^ (31 : Nat) * (2 : ℚ) ^ (31 : Int) :=
          mul_le_mul hhiH hhia (le_of_lt hva) (by positivity)
      _ = ((1 : Nat) : ℚ) * (2 : ℚ) ^ (62 : Int) := by norm_num
  obtain ⟨m, e, hmul, hge, hle⟩ := F32.mul_between mH ma 0 1 eH ea 0 62 hmH hma
    (by norm_num) (by norm_num) (by norm_num) (by norm_num) (by norm_num) hlo hhi
  rw [hfa, hfH, hmul]
  have h0 : ((0 : Int) : ℚ) ≤ (m : ℚ) * (2 : ℚ) ^ e := by
    simpa using hge
  have h62 : (m : ℚ) * (2 : ℚ) ^ e ≤ ((2 ^ 62 : Int) : ℚ) := by
    have : ((1 : Nat) : ℚ) * (2 : ℚ) ^ (62 : Int) = ((2 ^ 62 : Int) : ℚ) := by norm_num
    rw [← this]
    exact hle
  exact F32.toInt_between impl m e 0 (2 ^ 62) (by norm_num) (by norm_num) h0 h62

/-- C9, as stated, fails: for the width-only size "1" on a 300x200 source the
target is left with width 1 and height 0. -/
theorem CalculateTargetSize_positive_counterexample :
    0 < demoSource.Width ∧ 0 < demoSource.Height ∧
    (CalculateTargetSize (fun _ => 0) demoSource Info.zero "1").1.Width = 1 ∧
    (CalculateTargetSize (fun _ => 0) demoSource Info.zero "1").1.Height = 0 := by
  refine ⟨by decide, by decide, by decide, by decide⟩

/-- C9, amended: for a source with positive width and height and a size that
names a positive width `W` (the digits of `W`, optionally followed by "x" and
digits), the target is left with width > 0 and with a height that is at least
0, unless the single-precision quotient does not fit an `int` and the platform
decides; the height is at least 0 outright when the source sides and `W` are
at most `2^31`, and it is > 0 when they are below `2^24` and
`sourceWidth ≤ W * sourceHeight`.  For a height-only size with a positive
height `H`, on a target whose width is still 0, the height is > 0 and the
width is at least 0, with the same proviso and the same bound. -/
theorem CalculateTargetSize_named_positive (impl : F32 → Int) (source target : Info)
    (ds ds2 : List Char) (hsw : 0 < source.Width) (hsh : 0 < source.Height)
    (hne : ds ≠ []) (hall : ∀ c ∈ ds, c.isDigit = true) (hpos : 0 < digitsValue ds)
    (hall2 : ∀ c ∈ ds2, c.isDigit = true) :
    (∀ s : String, s = String.mk ds ∨ s = String.mk (ds ++ 'x' :: ds2) →
      0 < (CalculateTargetSize impl source target s).1.Width ∧
      (0 ≤ (CalculateTargetSize impl source target s).1.Height ∨
        (CalculateTargetSize impl source target s).1.Height =
          impl (F32.div (F32.ofInt (Atoi (String.mk ds)).1) (sourceAspect source))) ∧
      (source.Width ≤ 2 ^ 31 → source.Height ≤ 2 ^ 31 → (digitsValue ds : Int) ≤ 2 ^ 31 →
        0 ≤ (CalculateTargetSize impl source target s).1.Height) ∧
      (source.Width < 2 ^ 24 → source.Height < 2 ^ 24 → (digitsValue ds : Int) < 2 ^ 24 →
        source.Width ≤ (digitsValue ds : Int) * source.Height →
        0 < (CalculateTargetSize impl source target s).1.Height)) ∧
    (target.Width = 0 →
      0 < (CalculateTargetSize impl source target (String.mk ('x' :: ds))).1.Height ∧
      (0 ≤ (CalculateTargetSize impl source target (String.mk ('x' :: ds))).1.Width ∨
        (CalculateTargetSize impl source target (String.mk ('x' :: ds))).1.Width =
          impl (F32.mul (F32.ofInt (Atoi (String.mk ds)).1) (sourceAspect source))) ∧
      (source.Width ≤ 2 ^ 31 → source.Height ≤ 2 ^ 31 → (digitsValue ds : Int) ≤ 2 ^ 31 →
        0 ≤ (CalculateTargetSize impl source target (String.mk ('x' :: ds))).1.Width)) := by
  have hlen : 0 < (String.mk ds).length := by
    cases ds with
    | nil => exact absurd rfl hne
    | cons c t => simp [String.length]
  have hdpos : (0 : Int) < (digitsValue ds : Int) := by exact_mod_cast hpos
  have hatoi := Atoi_digits ds hne hall
  have hvpos : 0 < (Atoi (String.mk ds)).1 := by
    rw [hatoi]
    have h2 : (0 : Int) < MaxInt64 := by decide
    exact lt_min hdpos h2
  have hval : (digitsValue ds : Int) ≤ 2 ^ 31 → (Atoi (String.mk ds)).1 = (digitsValue ds : Int) := by
    intro hb
    rw [hatoi]
    apply min_eq_left
    have : (2 : Int) ^ 31 ≤ MaxInt64 := by decide
    exact le_trans hb this
  have haspect : F32.NonNeg (sourceAspect source) :=
    F32.div_nonNeg _ _ (F32.ofInt_nonNeg _ (le_of_lt hsw)) (F32.ofInt_nonNeg _ (le_of_lt hsh))
  have hq : F32.NonNeg (F32.div (F32.ofInt (Atoi (String.mk ds)).1) (sourceAspect source)) :=
    F32.div_nonNeg _ _ (F32.ofInt_nonNeg _ (le_of_lt hvpos)) haspect
  have hm : F32.NonNeg (F32.mul (F32.ofInt (Atoi (String.mk ds)).1) (sourceAspect source)) :=
    F32.mul_nonNeg _ _ (F32.ofInt_nonNeg _ (le_of_lt hvpos)) haspect
  have hwidth : ∀ s : String, s = String.mk ds ∨ s = String.mk (ds ++ 'x' :: ds2) →
      CalculateTargetSize impl source target s =
        ({ target with
            Width := (Atoi (String.mk ds)).1,
            Height := F32.toInt impl
              (F32.div (F32.ofInt (Atoi (String.mk ds)).1) (sourceAspect source)) }, none) := by
    intro s hs
    rcases hs with hs | hs
    · rw [hs]
      exact CalculateTargetSize_of_width impl source target (String.mk ds) (String.mk ds)
        (String.mk ds) "" (sizeRegexp_digits ds hall) hlen hvpos
    · rw [hs]
      exact CalculateTargetSize_of_width impl source target (String.mk (ds ++ 'x' :: ds2))
        (String.mk (ds ++ 'x' :: ds2)) (String.mk ds) (String.mk ds2)
        (sizeRegexp_digits_x_digits ds ds2 hall hall2) hlen hvpos
  constructor
  · intro s hs
    rw [hwidth s hs]
    refine ⟨hvpos, F32.toInt_nonNeg impl _ hq, ?_, ?_⟩
    · intro b1 b2 b3
      show 0 ≤ F32.toInt impl
        (F32.div (F32.ofInt (Atoi (String.mk ds)).1) (sourceAspect source))
      rw [hval b3]
      exact (derived_height_bounds impl _ _ _ hdpos hsw hsh b3 b1 b2).1
    · intro b1 b2 b3 hexact
      show 0 < F32.toInt impl
        (F32.div (F32.ofInt (Atoi (String.mk ds)).1) (sourceAspect source))
      rw [hval (le_of_lt (lt_trans b3 (by norm_num)))]
      have h1 := (derived_height_bounds impl _ _ _ hdpos hsw hsh
        (le_of_lt (lt_trans b3 (by norm_num))) (le_of_lt (lt_trans b1 (by norm_num)))
        (le_of_lt (lt_trans b2 (by norm_num)))).2.2 b3 b1 b2 hexact
      exact lt_of_lt_of_le one_pos h1
  · intro htarget
    have hparse := sizeRegexp_digits_x_digits [] ds (fun c hc => by cases hc) hall
    simp only [List.nil_append] at hparse
    rw [CalculateTargetSize_of_height impl source target (String.mk ('x' :: ds))
      (String.mk ('x' :: ds)) (String.mk ds) hparse htarget hlen hvpos]
    refine ⟨hvpos, F32.toInt_nonNeg impl _ hm, ?_⟩
    intro b1 b2 b3
    show 0 ≤ F32.toInt impl
      (F32.mul (F32.ofInt (Atoi (String.mk ds)).1) (sourceAspect source))
    rw [hval b3]
    exact (derived_width_bounds impl _ _ _ hdpos hsw hsh b3 b1 b2).1

/-- C9, amended, instantiated: the size "300" (and "300x7") on a 300x200
source leaves a positive width and a positive height. -/
theorem CalculateTargetSize_named_positive_witness :
    0 < (CalculateTargetSize (fun _ => 0) demoSource Info.zero "300").1.Width ∧
    0 < (CalculateTargetSize (fun _ => 0) demoSource Info.zero "300").1.Height :=
  have h := (CalculateTargetSize_named_positive (fun _ => 0) demoSource Info.zero
    ['3', '0', '0'] ['7'] (by decide) (by decide) (by decide) (by decide) (by decide)
    (by decide)).1 "300" (Or.inl rfl)
  ⟨h.1, h.2.2.2 (by decide) (by decide) (by decide) (by decide)⟩

/-- C10: width takes priority.  For the digits of a positive width `W` and any
digits of a height `H`, `CalculateTargetSize` on "WxH" returns exactly what it
returns on "W": the given height is discarded and the height is
`int(float32(width) / aspectRatio)`. -/
theorem CalculateTargetSize_width_priority (impl : F32 → Int) (source target : Info)
    (ds ds2 : List Char) (hne : ds ≠ []) (hall : ∀ c ∈ ds, c.isDigit = true)
    (hpos : 0 < digitsValue ds) (hall2 : ∀ c ∈ ds2, c.isDigit = true) :
    CalculateTargetSize impl source target (String.mk (ds ++ 'x' :: ds2)) =
      CalculateTargetSize impl source target (String.mk ds) ∧
    (CalculateTargetSize impl source target (String.mk (ds ++ 'x' :: ds2))).1.Height =
      F32.toInt impl
        (F32.div
          (F32.ofInt (CalculateTargetSize impl source target (String.mk (ds ++ 'x' :: ds2))).1.Width)
          (F32.div (F32.ofInt source.Width) (F32.ofInt source.Height))) := by
  have hlen : 0 < (String.mk ds).length := by
    cases ds with
    | nil => exact absurd rfl hne
    | cons c t => simp [String.length]
  have hvpos : 0 < (Atoi (String.mk ds)).1 := by
    rw [Atoi_digits ds hne hall]
    have h1 : (0 : Int) < (digitsValue ds : Int) := by exact_mod_cast hpos
    have h2 : (0 : Int) < MaxInt64 := by decide
    exact lt_min h1 h2
  rw [CalculateTargetSize_of_width impl source target (String.mk (ds ++ 'x' :: ds2))
      (String.mk (ds ++ 'x' :: ds2)) (String.mk ds) (String.mk ds2)
      (sizeRegexp_digits_x_digits ds ds2 hall hall2) hlen hvpos,
    CalculateTargetSize_of_width impl source target (String.mk ds) (String.mk ds)
      (String.mk ds) "" (sizeRegexp_digits ds hall) hlen hvpos]
  exact ⟨rfl, rfl⟩

/-- C10, instantiated: "300x7" and "300" give the same 300x200 target on a
300x200 source. -/
theorem CalculateTargetSize_width_priority_witness :
    CalculateTargetSize (fun _ => 0) demoSource Info.zero "300x7" =
      CalculateTargetSize (fun _ => 0) demoSource Info.zero "300" :=
  (CalculateTargetSize_width_priority (fun _ => 0) demoSource Info.zero ['3', '0', '0'] ['7']
    (by decide) (by decide) (by decide) (by decide)).1

/-- Single precision matters as well as truncation: the size "1" on a 1x7
source gives height 6 although the exact quotient is 7, and the size "x41" on a
1x41 source gives width 0 although the exact product is 1. -/
theorem CalculateTargetSize_single_precision_examples :
    (CalculateTargetSize (fun _ => 0) { Info.zero with Width := 1, Height := 7 } Info.zero
      "1").1.Height = 6 ∧
    (CalculateTargetSize (fun _ => 0) { Info.zero with Width := 1, Height := 41 } Info.zero
      "x41").1.Width = 0 := by
  constructor
  · decide
  · decide

/-! ## `LoadImageInfo` and the convert calls of the operations -/

/-- What `LoadImageInfo` returns when it succeeds: the fields that identify
printed, and either a format other than PNG with the illustration flag clear
and no further call, or the format PNG with quality 100 and the flag that
`isIllustration` returned. -/
theorem LoadImageInfo_ok (env : Env) (p : ImageMagick) (src : Image) (log log1 : List Call)
    (info : Info) (h : LoadImageInfo env p src log = (.ok info, log1)) :
    ∃ out format quality isOpaque width height,
      env.run p.identifyCmd identifyArgs src.Data = .ok out ∧
      env.sscanf out = .ok (format, quality, isOpaque, width, height) ∧
      ((format ≠ "PNG" ∧
          info = { Format := format, Quality := quality, Opaque := isOpaque, Width := width,
                   Height := height, Size := src.Data.length, Illustration := false } ∧
          log1 = log ++ [Call.exec p.identifyCmd identifyArgs]) ∨
        (format = "PNG" ∧ ∃ b,
          isIllustration env src
            { Format := format, Quality := 100, Opaque := isOpaque, Width := width,
              Height := height, Size := src.Data.length, Illustration := false }
            (log ++ [Call.exec p.identifyCmd identifyArgs]) = (.ok b, log1) ∧
          info = { Format := format, Quality := 100, Opaque := isOpaque, Width := width,
                   Height := height, Size := src.Data.length, Illustration := b })) := by
  unfold LoadImageInfo at h
  simp only at h
  split at h
  · simp at h
  · rename_i out hrun
    split at h
    · simp at h
    · rename_i format quality isOpaque width height hscan
      refine ⟨out, format, quality, isOpaque, width, height, hrun, hscan, ?_⟩
      split_ifs at h with hpng
      · right
        refine ⟨hpng, ?_⟩
        split at h
        · simp at h
        · rename_i b lg hill
          simp only [Prod.mk.injEq, Except.ok.injEq] at h
          refine ⟨b, ?_, h.1.symm⟩
          rw [← h.2]
          exact hill
      · left
        simp only [Prod.mk.injEq, Except.ok.injEq] at h
        exact ⟨hpng, h.1.symm, h.2.symm⟩

/-- The three argument lists in one piece. -/
theorem args_eq (p : ImageMagick) (config : TransformationConfig) (source target : Info)
    (targetSize mimeType outputFormatArg : String) :
    ResizeArgs p config source target targetSize mimeType outputFormatArg =
      ["-", "-resize", targetSize] ++ getQualityOptions source config mimeType ++
        extensionArgs p "resize" config.Src.Data source target ++ convertOpts ++
        getConvertFormatOptions source ++ [outputFormatArg] ∧
    FitToSizeArgs p config source target targetSize mimeType outputFormatArg =
      ["-", "-resize", targetSize ++ "^"] ++ getQualityOptions source config mimeType ++
        extensionArgs p "fit" config.Src.Data source target ++ convertOpts ++
        cutToFitOpts ++ ["-extent", targetSize] ++
        getConvertFormatOptions source ++ [outputFormatArg] ∧
    OptimiseArgs p config source target mimeType outputFormatArg =
      ["-"] ++ getQualityOptions source config mimeType ++
        extensionArgs p "optimise" config.Src.Data source target ++ convertOpts ++
        getConvertFormatOptions source ++ [outputFormatArg] := by
  refine ⟨?_, ?_, ?_⟩
  · unfold ResizeArgs extensionArgs
    cases p.GetAdditionalArgs <;> simp
  · unfold FitToSizeArgs extensionArgs
    cases p.GetAdditionalArgs <;> simp
  · unfold OptimiseArgs extensionArgs
    cases p.GetAdditionalArgs <;> simp

/-- The convert call of `Resize`, once identify has succeeded and the request
carries a resize configuration. -/
theorem Resize_run (env : Env) (p : ImageMagick)
    (calcResize : Info → Info → String → Info × Option String)
    (config : TransformationConfig) (log log1 : List Call) (source : Info)
    (resizeConfig : ResizeConfig)
    (hload : LoadImageInfo env p config.Src log = (.ok source, log1))
    (hcfg : config.Config = some resizeConfig) :
    (Resize env p calcResize config log).2 = log1 ++ [Call.exec p.convertCmd
      (ResizeArgs p config source
        (calcResize source { Info.zero with Opaque := source.Opaque } resizeConfig.Size).1
        resizeConfig.Size
        (getOutputFormat source
          (calcResize source { Info.zero with Opaque := source.Opaque } resizeConfig.Size).1
          config.SupportedFormats).2
        (getOutputFormat source
          (calcResize source { Info.zero with Opaque := source.Opaque } resizeConfig.Size).1
          config.SupportedFormats).1)] ∧
    (Resize env p calcResize config log).1 =
      (env.run p.convertCmd
        (ResizeArgs p config source
          (calcResize source { Info.zero with Opaque := source.Opaque } resizeConfig.Size).1
          resizeConfig.Size
          (getOutputFormat source
            (calcResize source { Info.zero with Opaque := source.Opaque } resizeConfig.Size).1
            config.SupportedFormats).2
          (getOutputFormat source
            (calcResize source { Info.zero with Opaque := source.Opaque } resizeConfig.Size).1
            config.SupportedFormats).1)
        config.Src.Data).map
        (fun d => Image.mk "" d
          (getOutputFormat source
            (calcResize source { Info.zero with Opaque := source.Opaque } resizeConfig.Size).1
            config.SupportedFormats).2) := by
  constructor
  · simp only [Resize, hload, hcfg, execImagemagick]
    split <;> rename_i heq <;> simp only [Prod.mk.injEq] at heq <;> rw [← heq.2]
  · simp only [Resize, hload, hcfg, execImagemagick]
    split <;> rename_i heq <;> simp only [Prod.mk.injEq] at heq <;> rw [heq.1] <;> rfl

/-- The convert call of `FitToSize`, once identify has succeeded and the
request carries a resize configuration. -/
theorem FitToSize_run (env : Env) (p : ImageMagick)
    (calcFit : Info → String → Info × Option String)
    (config : TransformationConfig) (log log1 : List Call) (source : Info)
    (resizeConfig : ResizeConfig)
    (hload : LoadImageInfo env p config.Src log = (.ok source, log1))
    (hcfg : config.Config = some resizeConfig) :
    (FitToSize env p calcFit config log).2 = log1 ++ [Call.exec p.convertCmd
      (FitToSizeArgs p config source
        (calcFit { Info.zero with Opaque := source.Opaque } resizeConfig.Size).1
        resizeConfig.Size
        (getOutputFormat source
          (calcFit { Info.zero with Opaque := source.Opaque } resizeConfig.Size).1
          config.SupportedFormats).2
        (getOutputFormat source
          (calcFit { Info.zero with Opaque := source.Opaque } resizeConfig.Size).1
          config.SupportedFormats).1)] := by
  simp only [FitToSize, hload, hcfg, execImagemagick]
  split <;> rename_i heq <;> simp only [Prod.mk.injEq] at heq <;> rw [← heq.2]

/-- The convert call of `Optimise`, once identify has succeeded. -/
theorem Optimise_run (env : Env) (p : ImageMagick) (config : TransformationConfig)
    (log log1 : List Call) (source : Info)
    (hload : LoadImageInfo env p config.Src log = (.ok source, log1)) :
    (Optimise env p config log).2 = log1 ++ [Call.exec p.convertCmd
      (OptimiseArgs p config source (OptimiseTarget source)
        (getOutputFormat source (OptimiseTarget source) config.SupportedFormats).2
        (getOutputFormat source (OptimiseTarget source) config.SupportedFormats).1)] := by
  simp only [Optimise, hload, execImagemagick]
  split
  · rename_i heq
    simp only [Prod.mk.injEq] at heq
    rw [← heq.2]
  · rename_i heq
    simp only [Prod.mk.injEq] at heq
    split <;> rw [← heq.2]

/-! ## C11: a size that names no dimension -/

/-- C11: `CalculateTargetSize` never reports an error.  On "BADSIZE" and on the
empty size, which name no dimension, it returns a nil error and leaves a fresh
target at 0x0. -/
theorem CalculateTargetSize_no_dimension :
    (∀ (impl : F32 → Int) (source target : Info) (targetSize : String),
      (CalculateTargetSize impl source target targetSize).2 = none) ∧
    sizeRegexp_FindStringSubmatch "BADSIZE" = ["", "", ""] ∧
    sizeRegexp_FindStringSubmatch "" = ["", "", ""] ∧
    CalculateTargetSize (fun _ => 0) demoSource Info.zero "BADSIZE" = (Info.zero, none) ∧
    CalculateTargetSize (fun _ => 0) demoSource Info.zero "" = (Info.zero, none) := by
  refine ⟨?_, by decide, by decide, by decide, by decide⟩
  intro impl source target targetSize
  rfl

/-! ## C12: resizing a PNG illustration for a WebP client -/

/-- The target of the specification's example: on a 50x50 source the size
"20x20" gives the target 20x20. -/
theorem CalculateTargetSizeForResize_example (impl : F32 → Int) (source target : Info)
    (hw : source.Width = 50) (hh : source.Height = 50) :
    CalculateTargetSizeForResize impl source target "20x20" =
      ({ target with Width := 20, Height := 20 }, none) := by
  have hreg : sizeRegexp_FindStringSubmatch "20x20" = ["20x20", "20", "20"] := by decide
  have hatoi : Atoi "20" = (20, none) := by decide
  have hfl : F32.div (F32.ofInt 20) (F32.div (F32.ofInt 50) (F32.ofInt 50)) =
      F32.fin false 10485760 (-19) := by decide
  have hint : F32.toInt impl (F32.fin false 10485760 (-19)) = 20 := by
    simp [F32.toInt, F32.trunc]
  have hpos : (0 < "20".length) = True := by decide
  have h20 : ((0 : Int) < 20) = True := by decide
  unfold CalculateTargetSizeForResize
  simp only [hreg, hw, hh, List.getD_cons_succ, List.getD_cons_zero, hatoi, hpos, h20, if_true,
    hfl, hint]

/-- C12: for a PNG source that is classified as an illustration and whose
width and height are below 16383, and a client that supports only
"image/webp", `Resize` computes the target `target` with the resize geometry
and makes one convert call with the argument list `args`: the input, the
resize and quality directives, the extension arguments (which are handed
`target`), `convertOpts`, the lossless directive and "webp:-"; it returns what
convert returns with the MIME type "image/webp".  For the 50x50 source and the
size "20x20" the target is 20x20.  The list ends in "webp:-" and contains
"-define webp:lossless=true" and "-quality" with 82 under DEFAULT, 72 under
LOW and 62 under LOWER. -/
theorem Resize_png_illustration_webp (env : Env) (p : ImageMagick)
    (config : TransformationConfig) (log log1 : List Call) (source : Info)
    (resizeConfig : ResizeConfig) (target : Info) (args : List String)
    (hload : LoadImageInfo env p config.Src log = (.ok source, log1))
    (hpng : source.Format = "PNG") (hill : source.Illustration = true)
    (hw : source.Width < 16383) (hh : source.Height < 16383)
    (hformats : config.SupportedFormats = ["image/webp"])
    (hcfg : config.Config = some resizeConfig)
    (htarget : target = (CalculateTargetSizeForResize env.intOfF32 source
      { Info.zero with Opaque := source.Opaque } resizeConfig.Size).1)
    (hargs : args =
      ["-", "-resize", resizeConfig.Size, "-quality", Itoa (82 - tierPenalty config.Quality)] ++
        extensionArgs p "resize" config.Src.Data source target ++ convertOpts ++
        ["-define", "webp:lossless=true", "-define", "webp:method=6", "webp:-"]) :
    Resize env p (CalculateTargetSizeForResize env.intOfF32) config log =
      ((env.run p.convertCmd args config.Src.Data).map (fun d => Image.mk "" d "image/webp"),
        log1 ++ [Call.exec p.convertCmd args]) ∧
    (source.Width = 50 → source.Height = 50 → resizeConfig.Size = "20x20" →
      target = { Info.zero with Opaque := source.Opaque, Width := 20, Height := 20 }) ∧
    args.getLast? = some "webp:-" ∧
    ["-define", "webp:lossless=true"] <:+: args ∧
    (config.Quality = Quality.DEFAULT → ["-quality", "82"] <:+: args) ∧
    (config.Quality = Quality.LOW → ["-quality", "72"] <:+: args) ∧
    (config.Quality = Quality.LOWER → ["-quality", "62"] <:+: args) := by
  have hq : source.Quality = 100 := by
    obtain ⟨out, format, quality, isOpaque, width, height, _, _, hcase⟩ :=
      LoadImageInfo_ok env p config.Src log log1 source hload
    rcases hcase with ⟨hfmt, hinfo, _⟩ | ⟨_, b, _, hinfo⟩
    · rw [hinfo] at hpng
      exact absurd hpng hfmt
    · rw [hinfo]
  have hfmt : ∀ t : Info,
      getOutputFormat source t ["image/webp"] = ("webp:-", "image/webp") := by
    intro t
    simp [getOutputFormat, getOutputFormatStep, MaxWebpWidth, MaxWebpHeight, hw, hh]
  have hquality : getQualityOptions source config "image/webp" =
      ["-quality", Itoa (82 - tierPenalty config.Quality)] := by
    have hb : baseQuality source config "image/webp" = 82 := by
      simp [baseQuality, hq]
    rw [getQualityOptions_eq source config "image/webp" (by rw [hb]; norm_num)
      (by rw [hb]; norm_num), hb]
    simp
  have hopts : getConvertFormatOptions source =
      ["-define", "webp:lossless=true", "-define", "webp:method=6"] := by
    simp [getConvertFormatOptions, hill, hpng]
  obtain ⟨hlog, hres⟩ := Resize_run env p (CalculateTargetSizeForResize env.intOfF32) config
    log log1 source resizeConfig hload hcfg
  rw [hformats, hfmt] at hlog hres
  rw [(args_eq p config source _ _ _ _).1, hquality, hopts, ← htarget] at hlog hres
  have hshape : ["-", "-resize", resizeConfig.Size] ++
        ["-quality", Itoa (82 - tierPenalty config.Quality)] ++
        extensionArgs p "resize" config.Src.Data source target ++ convertOpts ++
        ["-define", "webp:lossless=true", "-define", "webp:method=6"] ++ ["webp:-"] = args := by
    rw [hargs]
    simp
  rw [hshape] at hlog hres
  have hinfix : ["-quality", Itoa (82 - tierPenalty config.Quality)] <:+: args :=
    ⟨["-", "-resize", resizeConfig.Size],
      extensionArgs p "resize" config.Src.Data source target ++ convertOpts ++
        ["-define", "webp:lossless=true", "-define", "webp:method=6", "webp:-"], by
        rw [hargs]
        simp⟩
  refine ⟨Prod.ext hres hlog, ?_, ?_, ?_, ?_, ?_, ?_⟩
  · intro h50w h50h hsize
    rw [htarget, hsize, CalculateTargetSizeForResize_example env.intOfF32 source _ h50w h50h]
  · rw [hargs, List.getLast?_append]
    rfl
  · exact ⟨["-", "-resize", resizeConfig.Size, "-quality",
        Itoa (82 - tierPenalty config.Quality)] ++
        extensionArgs p "resize" config.Src.Data source target ++ convertOpts,
      ["-define", "webp:method=6", "webp:-"], by
        rw [hargs]
        simp⟩
  · intro ht
    have h82 : Itoa (82 - tierPenalty config.Quality) = "82" := by
      rw [ht]
      decide
    rw [h82] at hinfix
    exact hinfix
  · intro ht
    have h72 : Itoa (82 - tierPenalty config.Quality) = "72" := by
      rw [ht]
      decide
    rw [h72] at hinfix
    exact hinfix
  · intro ht
    have h62 : Itoa (82 - tierPenalty config.Quality) = "62" := by
      rw [ht]
      decide
    rw [h62] at hinfix
    exact hinfix

/-- C12, instantiated: the 50x50 PNG of `pngEnv`, the size "20x20", a client
that supports only WebP and a processor whose callback writes the target it is
handed into the arguments: the target is 20x20 and the convert call carries
"-quality 82", the lossless directive and "webp:-". -/
theorem Resize_png_illustration_webp_witness :
    Resize (pngEnv [7]) commentProcessor (CalculateTargetSizeForResize (fun _ => 0))
        (demoConfig "20x20") [] =
      (.ok (Image.mk "" [7] "image/webp"),
        [Call.exec "identify" identifyArgs,
         Call.exec "convert"
          (["-", "-resize", "20x20", "-quality", "82", "-set", "comment", "resize 20x20"] ++
            convertOpts ++
            ["-define", "webp:lossless=true", "-define", "webp:method=6", "webp:-"])]) ∧
    (CalculateTargetSizeForResize (fun _ => 0) pngSource { Info.zero with Opaque := true }
        "20x20").1 = { Info.zero with Opaque := true, Width := 20, Height := 20 } :=
  have h := Resize_png_illustration_webp (pngEnv [7]) commentProcessor (demoConfig "20x20") []
    [Call.exec "identify" identifyArgs] pngSource (ResizeConfig.mk "20x20")
    { Info.zero with Opaque := true, Width := 20, Height := 20 }
    (["-", "-resize", "20x20", "-quality", "82", "-set", "comment", "resize 20x20"] ++
      convertOpts ++ ["-define", "webp:lossless=true", "-define", "webp:method=6", "webp:-"])
    (by rfl) rfl rfl (by decide) (by decide) rfl rfl (by decide) (by decide)
  ⟨h.1.trans (by rfl), by decide⟩

/-! ## C13: the order of the convert arguments -/

/-- C13, as stated, fails: with the additional argument "-strip", `Optimise`
hands convert the list that starts with the input "-" and "-strip"; the
static `convertOpts` follow the caller-supplied argument, and the
format-specific directive comes after them. -/
theorem Optimise_args_order_counterexample :
    (Optimise (demoEnv [7]) stripProcessor (demoConfig "") []).2 =
      [Call.exec "identify" identifyArgs,
       Call.exec "convert"
        (["-", "-strip"] ++ convertOpts ++ ["-define", "webp:method=6", "webp:-"])] ∧
    (["-", "-strip"] ++ convertOpts ++ ["-define", "webp:method=6", "webp:-"]) ≠
      convertOpts ++ ["-define", "webp:method=6"] ++ ["-strip"] ++ ["webp:-"] ∧
    List.indexOf "-strip"
        (["-", "-strip"] ++ convertOpts ++ ["-define", "webp:method=6", "webp:-"]) = 1 ∧
    List.indexOf "-dither"
        (["-", "-strip"] ++ convertOpts ++ ["-define", "webp:method=6", "webp:-"]) = 2 := by
  refine ⟨by rfl, by decide, by decide, by decide⟩

/-- C13, amended: once identify has succeeded (and, for `Resize` and
`FitToSize` only, the request carries a resize configuration), each operation hands
convert one argument list, in this order: the input "-", the resize directive
(`Resize`, `FitToSize`), the quality directive, the caller-supplied extension
arguments (`AdditionalArgs`, then the result of `GetAdditionalArgs`), the
static `convertOpts`, the crop directives (`FitToSize`), the format-specific
directives, and the negotiated output directive as the last element. -/
theorem operations_args_order (env : Env) (p : ImageMagick)
    (calcResize : Info → Info → String → Info × Option String)
    (calcFit : Info → String → Info × Option String)
    (config : TransformationConfig) (log log1 : List Call) (source : Info)
    (hload : LoadImageInfo env p config.Src log = (.ok source, log1)) :
    (∀ resizeConfig : ResizeConfig, config.Config = some resizeConfig →
    (Resize env p calcResize config log).2 = log1 ++ [Call.exec p.convertCmd
      (["-", "-resize", resizeConfig.Size] ++
        getQualityOptions source config
          (getOutputFormat source
            (calcResize source { Info.zero with Opaque := source.Opaque } resizeConfig.Size).1
            config.SupportedFormats).2 ++
        extensionArgs p "resize" config.Src.Data source
          (calcResize source { Info.zero with Opaque := source.Opaque } resizeConfig.Size).1 ++
        convertOpts ++ getConvertFormatOptions source ++
        [(getOutputFormat source
            (calcResize source { Info.zero with Opaque := source.Opaque } resizeConfig.Size).1
            config.SupportedFormats).1])] ∧
    (FitToSize env p calcFit config log).2 = log1 ++ [Call.exec p.convertCmd
      (["-", "-resize", resizeConfig.Size ++ "^"] ++
        getQualityOptions source config
          (getOutputFormat source
            (calcFit { Info.zero with Opaque := source.Opaque } resizeConfig.Size).1
            config.SupportedFormats).2 ++
        extensionArgs p "fit" config.Src.Data source
          (calcFit { Info.zero with Opaque := source.Opaque } resizeConfig.Size).1 ++
        convertOpts ++ cutToFitOpts ++ ["-extent", resizeConfig.Size] ++
        getConvertFormatOptions source ++
        [(getOutputFormat source
            (calcFit { Info.zero with Opaque := source.Opaque } resizeConfig.Size).1
            config.SupportedFormats).1])]) ∧
    (Optimise env p config log).2 = log1 ++ [Call.exec p.convertCmd
      (["-"] ++
        getQualityOptions source config
          (getOutputFormat source (OptimiseTarget source) config.SupportedFormats).2 ++
        extensionArgs p "optimise" config.Src.Data source (OptimiseTarget source) ++
        convertOpts ++ getConvertFormatOptions source ++
        [(getOutputFormat source (OptimiseTarget source) config.SupportedFormats).1])] := by
  refine ⟨?_, ?_⟩
  · intro resizeConfig hcfg
    constructor
    · rw [(Resize_run env p calcResize config log log1 source resizeConfig hload hcfg).1,
        (args_eq p config source _ _ _ _).1]
    · rw [FitToSize_run env p calcFit config log log1 source resizeConfig hload hcfg,
        (args_eq p config source _ _ _ _).2.1]
  · rw [Optimise_run env p config log log1 source hload,
      (args_eq p config source _ "" _ _).2.2]

/-- C13, amended, instantiated: with the additional argument "-strip",
`Optimise` on a request without a resize configuration and `Resize` and
`FitToSize` on the size "300x200". -/
theorem operations_args_order_witness :
    (Optimise (demoEnv [7]) stripProcessor optimiseConfig []).2 =
      [Call.exec "identify" identifyArgs,
       Call.exec "convert"
        (["-", "-strip"] ++ convertOpts ++ ["-define", "webp:method=6", "webp:-"])] ∧
    (Resize (demoEnv [7]) stripProcessor (CalculateTargetSizeForResize (fun _ => 0))
        (demoConfig "300x200") []).2 =
      [Call.exec "identify" identifyArgs,
       Call.exec "convert"
        (["-", "-resize", "300x200", "-strip"] ++ convertOpts ++
          ["-define", "webp:method=6", "webp:-"])] ∧
    (FitToSize (demoEnv [7]) stripProcessor CalculateTargetSizeForFit
        (demoConfig "300x200") []).2 =
      [Call.exec "identify" identifyArgs,
       Call.exec "convert"
        (["-", "-resize", "300x200^", "-strip"] ++ convertOpts ++
          ["-gravity", "center", "-extent", "300x200", "-define", "webp:method=6", "webp:-"])] :=
  ⟨(operations_args_order (demoEnv [7]) stripProcessor
      (CalculateTargetSizeForResize (fun _ => 0)) CalculateTargetSizeForFit optimiseConfig []
      [Call.exec "identify" identifyArgs] demoSource (by rfl)).2.trans (by decide),
   ((operations_args_order (demoEnv [7]) stripProcessor
      (CalculateTargetSizeForResize (fun _ => 0)) CalculateTargetSizeForFit
      (demoConfig "300x200") [] [Call.exec "identify" identifyArgs] demoSource (by rfl)).1
      (ResizeConfig.mk "300x200") rfl).1.trans (by decide),
   ((operations_args_order (demoEnv [7]) stripProcessor
      (CalculateTargetSizeForResize (fun _ => 0)) CalculateTargetSizeForFit
      (demoConfig "300x200") [] [Call.exec "identify" identifyArgs] demoSource (by rfl)).1
      (ResizeConfig.mk "300x200") rfl).2.trans (by decide)⟩

/-! ## The ratio test and the histogram stage of `isIllustration` -/

/-- Past the fast paths, on an image of at most 500*500 pixels that the wand
reads, `isIllustration` takes the histogram of the image as read and returns
`histogramVerdict`. -/
theorem isIllustration_unscaled (env : Env) (src : Image) (info : Info) (log : List Call)
    (mw : MagickWand)
    (h1 : 20 * 1024 ≤ src.Data.length) (h2 : src.Data.length ≤ 1024 * 1024)
    (h3 : F32.lt F32.one (F32.div (F32.ofInt src.Data.length)
      (F32.ofInt (wrap64 (info.Width * info.Height)))) = false)
    (hsmall : wrap64 (info.Width * info.Height) ≤ 500 * 500)
    (hread : env.readImageBlob src.Data = .ok mw) :
    isIllustration env src info log =
      (.ok (histogramVerdict env.intOfF32 mw),
        log ++ [Call.readImageBlob] ++ [Call.getImageHistogram]) := by
  have n1 : ¬ src.Data.length < 20 * 1024 := by omega
  have n2 : ¬ 1024 * 1024 < src.Data.length := by omega
  have n3 : ¬ 500 * 500 < wrap64 (info.Width * info.Height) := by omega
  unfold isIllustration
  simp only [n1, n2, h3, n3, hread, if_false, Bool.false_eq_true]
  unfold histogramVerdict
  by_cases h30 : 30000 < mw.histogram.length
  · simp only [h30, if_true]
  · simp only [h30, if_false]
    rfl

/-- Past the fast paths, on an image of more than 500*500 pixels that the wand
reads and scales to 500 columns, `isIllustration` takes the histogram of the
scaled image and returns `histogramVerdict`. -/
theorem isIllustration_scaled (env : Env) (src : Image) (info : Info) (log : List Call)
    (mw0 mw : MagickWand)
    (h1 : 20 * 1024 ≤ src.Data.length) (h2 : src.Data.length ≤ 1024 * 1024)
    (h3 : F32.lt F32.one (F32.div (F32.ofInt src.Data.length)
      (F32.ofInt (wrap64 (info.Width * info.Height)))) = false)
    (hbig : 500 * 500 < wrap64 (info.Width * info.Height))
    (hread : env.readImageBlob src.Data = .ok mw0)
    (hscale : env.scaleImage mw0 500 (scaleRows env info) = .ok mw) :
    isIllustration env src info log =
      (.ok (histogramVerdict env.intOfF32 mw),
        log ++ [Call.readImageBlob] ++ [Call.scaleImage 500 (scaleRows env info)] ++
          [Call.getImageHistogram]) := by
  have n1 : ¬ src.Data.length < 20 * 1024 := by omega
  have n2 : ¬ 1024 * 1024 < src.Data.length := by omega
  unfold scaleRows at hscale
  unfold isIllustration
  simp only [n1, n2, h3, hbig, hread, hscale, if_false, if_true, Bool.false_eq_true]
  unfold histogramVerdict
  by_cases h30 : 30000 < mw.histogram.length
  · simp only [h30, if_true]
    rfl
  · simp only [h30, if_false]
    rfl

/-- The comparison `a < b` of two non-negative finite values is the comparison
of the values. -/
theorem F32.lt_fin (m1 m2 : Nat) (e1 e2 : Int) :
    F32.lt (F32.fin false m1 e1) (F32.fin false m2 e2) =
      decide ((m1 : ℚ) * (2 : ℚ) ^ e1 < (m2 : ℚ) * (2 : ℚ) ^ e2) := by
  have h2 : (0 : ℚ) < (2 : ℚ) ^ (min e1 e2) := by positivity
  simp only [F32.lt, Bool.false_eq_true, if_false, one_mul]
  rw [decide_eq_decide, grid_multiple m1 e1 (min e1 e2) (min_le_left _ _),
    grid_multiple m2 e2 (min e1 e2) (min_le_right _ _), mul_lt_mul_right h2]
  constructor
  · intro h
    exact_mod_cast h
  · intro h
    exact_mod_cast h

/-- The value of `float32(1.0)`. -/
theorem F32.one_eq : F32.one = F32.fin false 8388608 (-23) := by decide

/-- The conversion of an `int` that is at least a positive integer below
`2^24` and at most `2^63` is a finite value in the same range. -/
theorem F32.ofInt_ge (i a : Int) (ha : 0 < a) (ha24 : a < 2 ^ 24) (hai : a ≤ i)
    (hi : i ≤ 2 ^ 63) :
    ∃ m e, F32.ofInt i = F32.fin false m e ∧
      (a : ℚ) ≤ (m : ℚ) * (2 : ℚ) ^ e ∧ (m : ℚ) * (2 : ℚ) ^ e ≤ (2 : ℚ) ^ 63 := by
  have hipos : 0 < i := lt_of_lt_of_le ha hai
  obtain ⟨m, e, hf, _, hhi, _⟩ := F32.ofInt_pos i 63 hipos (by norm_num) hi
  refine ⟨m, e, hf, ?_, hhi⟩
  have hnat : (i.natAbs : Int) = i := Int.natAbs_of_nonneg (le_of_lt hipos)
  have hanat : (a.natAbs : Int) = a := Int.natAbs_of_nonneg (le_of_lt ha)
  have hq : ((i.natAbs : Nat) : ℚ) = (i : ℚ) := by
    have h : (((i.natAbs : Nat) : Int) : ℚ) = (i : ℚ) := congrArg (fun z : Int => (z : ℚ)) hnat
    rw [← h]
    exact (Int.cast_natCast _).symm
  have hqa : ((a.natAbs : Nat) : ℚ) = (a : ℚ) := by
    have h : (((a.natAbs : Nat) : Int) : ℚ) = (a : ℚ) := congrArg (fun z : Int => (z : ℚ)) hanat
    rw [← h]
    exact (Int.cast_natCast _).symm
  have hle : ((a.natAbs : Nat) : ℚ) * (2 : ℚ) ^ (0 : Int) ≤
      ((i.natAbs : Nat) : ℚ) / ((1 : Nat) : ℚ) := by
    rw [hq, hqa]
    have : (a : ℚ) ≤ (i : ℚ) := by exact_mod_cast hai
    simpa using this
  have hd : decide (i < 0) = false := by
    simp only [decide_eq_false_iff_not, not_lt]
    exact le_of_lt hipos
  rcases F32.round_ge false i.natAbs 1 a.natAbs 0 (by omega) (by norm_num) (by omega)
    (by norm_num) hle with hinf | ⟨m2, e2, hr2, hge⟩
  · unfold F32.ofInt at hf
    rw [hd, hinf] at hf
    exact F32.noConfusion hf
  · unfold F32.ofInt at hf
    rw [hd, hr2] at hf
    obtain ⟨_, hm, he⟩ := F32.fin.inj hf
    subst hm
    subst he
    rw [hqa] at hge
    simpa using hge

/-- The ratio test of `isIllustration` fails when the byte size is at most the
pixel count: for `0 < len < 2^24` and `len ≤ pixels ≤ 2^63` the float32 quotient
`float32(len) / float32(pixels)` is not above `1.0`. -/
theorem ratio_test_false (len pixels : Int) (hlen : 0 < len) (hlen24 : len < 2 ^ 24)
    (hle : len ≤ pixels) (hpix : pixels ≤ 2 ^ 63) :
    F32.lt F32.one (F32.div (F32.ofInt len) (F32.ofInt pixels)) = false := by
  obtain ⟨m1, e1, hf1, hlo1, _, hx1⟩ := F32.ofInt_pos len 24 hlen (by norm_num) (le_of_lt hlen24)
  obtain ⟨m2, e2, hf2, hlo2, hhi2⟩ := F32.ofInt_ge pixels len hlen hlen24 hle hpix
  have hv1 := hx1 hlen24
  have hlenq : (1 : ℚ) ≤ (len : ℚ) := by exact_mod_cast hlen
  have hm1 : 0 < m1 := mantissa_pos m1 e1 (lt_of_lt_of_le one_pos hlo1)
  have hv2pos : (0 : ℚ) < (m2 : ℚ) * (2 : ℚ) ^ e2 := lt_of_lt_of_le (by linarith) hlo2
  have hm2 : 0 < m2 := mantissa_pos m2 e2 hv2pos
  have hlo : ((1 : Nat) : ℚ) * (2 : ℚ) ^ (-63 : Int) ≤
      ((m1 : ℚ) * (2 : ℚ) ^ e1) / ((m2 : ℚ) * (2 : ℚ) ^ e2) := by
    rw [le_div_iff₀ hv2pos, hv1]
    have h63 : (2 : ℚ) ^ (-63 : Int) * (2 : ℚ) ^ 63 = 1 := by norm_num
    calc ((1 : Nat) : ℚ) * (2 : ℚ) ^ (-63 : Int) * ((m2 : ℚ) * (2 : ℚ) ^ e2)
        ≤ ((1 : Nat) : ℚ) * (2 : ℚ) ^ (-63 : Int) * (2 : ℚ) ^ 63 := by
          apply mul_le_mul_of_nonneg_left hhi2
          positivity
      _ = 1 := by
          rw [mul_assoc, h63]
          norm_num
      _ ≤ (len : ℚ) := hlenq
  have hhi : ((m1 : ℚ) * (2 : ℚ) ^ e1) / ((m2 : ℚ) * (2 : ℚ) ^ e2) ≤
      ((1 : Nat) : ℚ) * (2 : ℚ) ^ (0 : Int) := by
    rw [div_le_iff₀ hv2pos, hv1]
    simpa using hlo2
  obtain ⟨m, e, hdiv, _, hle1⟩ := F32.div_between m1 m2 1 1 e1 e2 (-63) 0 hm1 hm2
    (by norm_num) (by norm_num) (by norm_num) (by norm_num) (by norm_num) hlo hhi
  rw [hf1, hf2, hdiv, F32.one_eq, F32.lt_fin]
  simp only [decide_eq_false_iff_not, not_lt]
  refine le_trans hle1 ?_
  norm_num

/-- The ratio test of `isIllustration` succeeds when the byte size exceeds the
pixel count: for `0 < pixels < len ≤ 2^20` the float32 quotient
`float32(len) / float32(pixels)` is above `1.0`. -/
theorem ratio_test_true (len pixels : Int) (hpix : 0 < pixels) (hlt : pixels < len)
    (hlen : len ≤ 2 ^ 20) :
    F32.lt F32.one (F32.div (F32.ofInt len) (F32.ofInt pixels)) = true := by
  have hlenpos : 0 < len := lt_trans hpix hlt
  obtain ⟨m1, e1, hf1, hlo1, _, hx1⟩ :=
    F32.ofInt_pos len 24 hlenpos (by norm_num) (by omega)
  obtain ⟨m2, e2, hf2, hlo2, _, hx2⟩ :=
    F32.ofInt_pos pixels 24 hpix (by norm_num) (by omega)
  have hv1 := hx1 (by omega)
  have hv2 := hx2 (by omega)
  have hm1 : 0 < m1 := mantissa_pos m1 e1 (lt_of_lt_of_le one_pos hlo1)
  have hm2 : 0 < m2 := mantissa_pos m2 e2 (lt_of_lt_of_le one_pos hlo2)
  have hpixq : (0 : ℚ) < (pixels : ℚ) := by exact_mod_cast hpix
  have hpix20 : (pixels : ℚ) ≤ 2 ^ 20 := by
    have : pixels ≤ 2 ^ 20 := by omega
    exact_mod_cast this
  have hstep : (pixels : ℚ) + 1 ≤ (len : ℚ) := by
    have : pixels + 1 ≤ len := by omega
    exact_mod_cast this
  have hlenq : (len : ℚ) ≤ 2 ^ 20 := by exact_mod_cast hlen
  have hlo : ((8388609 : Nat) : ℚ) * (2 : ℚ) ^ (-23 : Int) ≤
      ((m1 : ℚ) * (2 : ℚ) ^ e1) / ((m2 : ℚ) * (2 : ℚ) ^ e2) := by
    rw [hv1, hv2, le_div_iff₀ hpixq]
    have h23 : ((8388609 : Nat) : ℚ) * (2 : ℚ) ^ (-23 : Int) = 1 + 1 / 2 ^ 23 := by norm_num
    rw [h23]
    have : (1 / 2 ^ 23 : ℚ) * (pixels : ℚ) ≤ 1 := by
      calc (1 / 2 ^ 23 : ℚ) * (pixels : ℚ) ≤ (1 / 2 ^ 23 : ℚ) * 2 ^ 20 := by
            apply mul_le_mul_of_nonneg_left hpix20
            positivity
        _ ≤ 1 := by norm_num
    linarith
  have hhi : ((m1 : ℚ) * (2 : ℚ) ^ e1) / ((m2 : ℚ) * (2 : ℚ) ^ e2) ≤
      ((1 : Nat) : ℚ) * (2 : ℚ) ^ (20 : Int) := by
    rw [hv1, hv2, div_le_iff₀ hpixq]
    have h1 : (1 : ℚ) ≤ (pixels : ℚ) := by exact_mod_cast hpix
    have h20 : ((1 : Nat) : ℚ) * (2 : ℚ) ^ (20 : Int) = 2 ^ 20 := by norm_num
    rw [h20]
    nlinarith
  obtain ⟨m, e, hdiv, hge, _⟩ := F32.div_between m1 m2 8388609 1 e1 e2 (-23) 20 hm1 hm2
    (by norm_num) (by norm_num) (by norm_num) (by norm_num) (by norm_num) hlo hhi
  rw [hf1, hf2, hdiv, F32.one_eq, F32.lt_fin]
  simp only [decide_eq_true_eq]
  refine lt_of_lt_of_le ?_ hge
  norm_num

/-- The index at which the histogram loop stops is the one it started with,
or one of the indices of the colours it was given. -/
theorem histogramLoop_colorIdx (impl : F32 → Int) (total : F32) (ten : Int) :
    ∀ (l : List Int) (i : Int) (st : LoopState),
      (histogramLoop impl total ten l i st).colorIdx = st.colorIdx ∨
      (i ≤ (histogramLoop impl total ten l i st).colorIdx ∧
        (histogramLoop impl total ten l i st).colorIdx < i + l.length) := by
  intro l
  induction l with
  | nil =>
    intro i st
    left
    rfl
  | cons count rest ih =>
    intro i st
    right
    unfold histogramLoop
    simp only [List.length_cons, Nat.cast_add, Nat.cast_one]
    split_ifs with hbg hbreak
    · rcases ih (i + 1) _ with h | ⟨h1, h2⟩
      · rw [h]
        simp only
        constructor
        · exact le_refl i
        · omega
      · constructor
        · omega
        · omega
    · simp only
      constructor
      · exact le_refl i
      · omega
    · rcases ih (i + 1) _ with h | ⟨h1, h2⟩
      · rw [h]
        simp only
        constructor
        · exact le_refl i
        · omega
      · constructor
        · omega
        · omega

/-- A histogram of at most nine colours is classified as an illustration. -/
theorem histogramVerdict_few (impl : F32 → Int) (mw : MagickWand)
    (h : mw.histogram.length ≤ 9) : histogramVerdict impl mw = true := by
  have h30 : ¬ 30000 < mw.histogram.length := by omega
  have hcount : histogramCount impl mw < 10 := by
    unfold histogramCount
    simp only
    generalize hl : List.insertionSort (fun a b => b ≤ a)
      (List.map (fun c => wrap64 (c : Int)) mw.histogram) = l
    have hlen : l.length ≤ 9 := by
      rw [← hl, List.length_insertionSort, List.length_map]
      have hc : ∀ (xs : List Nat), (do let a ← xs; pure (a : Int) : List Int).length = xs.length := by
        intro xs
        induction xs with
        | nil => rfl
        | cons x xs ih => simpa using ih
      rw [hc]
      exact h
    generalize hst : histogramLoop impl (F32.ofNat (wrapU64 (mw.height * mw.width)))
      (F32.toInt impl (F32.mul (F32.ofNat (wrapU64 (mw.height * mw.width))) F32.tenth)) l 0
      { colorIdx := 0, pixelsCount := 0,
        fiftyPercent :=
          F32.toInt impl (F32.mul (F32.ofNat (wrapU64 (mw.height * mw.width))) F32.half),
        hasBackground := false } = st
    have hidx : 0 ≤ st.colorIdx ∧ st.colorIdx ≤ 8 := by
      rcases histogramLoop_colorIdx impl (F32.ofNat (wrapU64 (mw.height * mw.width)))
        (F32.toInt impl (F32.mul (F32.ofNat (wrapU64 (mw.height * mw.width))) F32.tenth)) l 0
        { colorIdx := 0, pixelsCount := 0,
          fiftyPercent :=
            F32.toInt impl (F32.mul (F32.ofNat (wrapU64 (mw.height * mw.width))) F32.half),
          hasBackground := false } with h0 | ⟨h1, h2⟩
      · rw [hst] at h0
        simp only at h0
        omega
      · rw [hst] at h1 h2
        omega
    have hw1 : wrap64 (st.colorIdx + 1) = st.colorIdx + 1 :=
      wrap64_of_inRange _ (by omega) (by omega)
    rw [hw1]
    split_ifs
    · rw [wrap64_of_inRange _ (by omega) (by omega)]
      omega
    · omega
  unfold histogramVerdict
  simp only [h30, if_false, hcount, decide_True, Bool.true_or]

/-! ## C14: the fast paths of `isIllustration` -/

/-- C14: the fast paths of `isIllustration`.  A source below 20 KiB is
classified as an illustration whatever its dimensions, a source above 1 MiB is
not, and a source of at least 20 KiB whose byte size divided by its pixel
count `width*height` exceeds 1.0 is not; in each case the call log is returned
unchanged, so the image is neither read into a wand nor is a histogram
taken. -/
theorem isIllustration_fast_paths (env : Env) (src : Image) (info : Info) (log : List Call) :
    (src.Data.length < 20 * 1024 → isIllustration env src info log = (.ok true, log)) ∧
    (1024 * 1024 < src.Data.length → isIllustration env src info log = (.ok false, log)) ∧
    (20 * 1024 ≤ src.Data.length →
      (1 : ℚ) < (src.Data.length : ℚ) / ((info.Width * info.Height : Int) : ℚ) →
      isIllustration env src info log = (.ok false, log)) := by
  refine ⟨?_, ?_, ?_⟩
  · intro h
    unfold isIllustration
    simp only [h, if_true]
  · intro h
    have n1 : ¬ src.Data.length < 20 * 1024 := by omega
    unfold isIllustration
    simp only [n1, h, if_true, if_false]
  · intro h hratio
    have n1 : ¬ src.Data.length < 20 * 1024 := by omega
    by_cases hbig : 1024 * 1024 < src.Data.length
    · unfold isIllustration
      simp only [n1, hbig, if_true, if_false]
    · have hpos : (0 : ℚ) < ((info.Width * info.Height : Int) : ℚ) := by
        by_contra hneg
        have hle : ((info.Width * info.Height : Int) : ℚ) ≤ 0 := not_lt.mp hneg
        have hlen : (0 : ℚ) ≤ (src.Data.length : ℚ) := Nat.cast_nonneg _
        have : (src.Data.length : ℚ) / ((info.Width * info.Height : Int) : ℚ) ≤ 0 :=
          div_nonpos_of_nonneg_of_nonpos hlen hle
        linarith
      have hpix : 0 < info.Width * info.Height := by exact_mod_cast hpos
      have hlt : info.Width * info.Height < (src.Data.length : Int) := by
        rw [one_lt_div hpos] at hratio
        have h2 : ((info.Width * info.Height : Int) : ℚ) < (((src.Data.length : Nat) : Int) : ℚ) := by
          rw [Int.cast_natCast]
          exact hratio
        exact_mod_cast h2
      have hlen : (src.Data.length : Int) ≤ 2 ^ 20 := by
        have : src.Data.length ≤ 1024 * 1024 := by omega
        omega
      have hwrap : wrap64 (info.Width * info.Height) = info.Width * info.Height :=
        wrap64_of_inRange _ (by omega) (by omega)
      have htest := ratio_test_true (src.Data.length : Int) (info.Width * info.Height) hpix hlt hlen
      unfold isIllustration
      simp only [n1, hbig, hwrap, htest, if_true, if_false]

/-- C14, instantiated: a 3-byte source, a source of 1 MiB + 1 bytes and a 20 KiB
source of 100x100 pixels take the three fast paths. -/
theorem isIllustration_fast_paths_witness :
    isIllustration (demoEnv []) (Image.mk "" [1, 2, 3] "image/png") (pngInfo 5000 5000) [] =
      (.ok true, []) ∧
    isIllustration (demoEnv []) bigPng (pngInfo 5000 5000) [] = (.ok false, []) ∧
    isIllustration (demoEnv []) midPng (pngInfo 100 100) [] = (.ok false, []) :=
  ⟨(isIllustration_fast_paths (demoEnv []) (Image.mk "" [1, 2, 3] "image/png")
      (pngInfo 5000 5000) []).1 (by decide),
   (isIllustration_fast_paths (demoEnv []) bigPng (pngInfo 5000 5000) []).2.1
      (by
        show 1024 * 1024 < (List.replicate (1024 * 1024 + 1) 0).length
        rw [List.length_replicate]
        omega),
   (isIllustration_fast_paths (demoEnv []) midPng (pngInfo 100 100) []).2.2
      (by
        show 20 * 1024 ≤ (List.replicate (20 * 1024) 0).length
        rw [List.length_replicate])
      (by
        show (1 : ℚ) < ((List.replicate (20 * 1024) 0).length : ℚ) / (((100 * 100 : Int)) : ℚ)
        rw [List.length_replicate]
        norm_num)⟩

/-! ## C15: a two-colour histogram -/

/-- C15: a PNG past the fast paths with a two-colour histogram is an
illustration.  The source has between 20 KiB and 1 MiB of data and at most one
byte per pixel (the pixel count `width*height` fits a Go `int`), the wand reads
it and, above 500*500 pixels, scales it; the histogram `mw` that is taken has
exactly two colours.  The verdict is true whatever share of the pixels the
most frequent colour covers, 95% included. -/
theorem isIllustration_two_colours (env : Env) (src : Image) (info : Info) (log : List Call)
    (mw0 mw : MagickWand)
    (h1 : 20 * 1024 ≤ src.Data.length) (h2 : src.Data.length ≤ 1024 * 1024)
    (hratio : (src.Data.length : Int) ≤ info.Width * info.Height)
    (hpix : info.Width * info.Height < 2 ^ 63)
    (hread : env.readImageBlob src.Data = .ok mw0)
    (hscale : if 500 * 500 < info.Width * info.Height
      then env.scaleImage mw0 500 (scaleRows env info) = .ok mw else mw = mw0)
    (hcolours : mw.histogram.length = 2) :
    (isIllustration env src info log).1 = .ok true := by
  have hlenpos : (0 : Int) < (src.Data.length : Int) := by omega
  have hwrap : wrap64 (info.Width * info.Height) = info.Width * info.Height :=
    wrap64_of_inRange _ (by omega) (by omega)
  have h3 : F32.lt F32.one (F32.div (F32.ofInt src.Data.length)
      (F32.ofInt (wrap64 (info.Width * info.Height)))) = false := by
    rw [hwrap]
    exact ratio_test_false (src.Data.length : Int) (info.Width * info.Height) hlenpos
      (by omega) hratio (by omega)
  have hverdict : histogramVerdict env.intOfF32 mw = true :=
    histogramVerdict_few env.intOfF32 mw (by omega)
  by_cases hbig : 500 * 500 < info.Width * info.Height
  · rw [if_pos hbig] at hscale
    rw [isIllustration_scaled env src info log mw0 mw h1 h2 h3 (by rw [hwrap]; exact hbig)
      hread hscale, hverdict]
  · rw [if_neg hbig] at hscale
    subst hscale
    rw [isIllustration_unscaled env src info log mw h1 h2 h3 (by rw [hwrap]; omega) hread,
      hverdict]

/-- C15, instantiated: a 20 KiB PNG of 200x200 pixels whose two colours cover
38000 and 2000 pixels. -/
theorem isIllustration_two_colours_witness :
    twoColourWand.histogram = [38000, 2000] ∧
    (isIllustration (wandEnv twoColourWand) midPng (pngInfo 200 200) []).1 = .ok true :=
  ⟨rfl, isIllustration_two_colours (wandEnv twoColourWand) midPng (pngInfo 200 200) []
    twoColourWand twoColourWand
    (by
      show 20 * 1024 ≤ (List.replicate (20 * 1024) 0).length
      rw [List.length_replicate])
    (by
      show (List.replicate (20 * 1024) 0).length ≤ 1024 * 1024
      rw [List.length_replicate]
      omega)
    (by
      show ((List.replicate (20 * 1024) 0).length : Int) ≤ 200 * 200
      rw [List.length_replicate]
      omega)
    (by
      show (200 : Int) * 200 < 2 ^ 63
      norm_num)
    rfl
    (by
      show (if (500 : Int) * 500 < 200 * 200 then _ else twoColourWand = twoColourWand)
      norm_num)
    rfl⟩

/-! ## C16: sources that are not PNG -/

/-- C16: an `Info` that `LoadImageInfo` returns with a format other than "PNG"
has the illustration flag clear, and the only external call made is the
identify call; whenever identify prints such a format, `LoadImageInfo` returns
the printed fields with the flag clear, without consulting `isIllustration`. -/
theorem LoadImageInfo_non_png (env : Env) (p : ImageMagick) (src : Image) (log : List Call) :
    (∀ (info : Info) (log1 : List Call),
      LoadImageInfo env p src log = (.ok info, log1) → info.Format ≠ "PNG" →
      info.Illustration = false ∧ log1 = log ++ [Call.exec p.identifyCmd identifyArgs]) ∧
    (∀ (out : Bytes) (format : String) (quality : Int) (isOpaque : Bool) (width height : Int),
      env.run p.identifyCmd identifyArgs src.Data = .ok out →
      env.sscanf out = .ok (format, quality, isOpaque, width, height) →
      format ≠ "PNG" →
      LoadImageInfo env p src log =
        (.ok { Format := format, Quality := quality, Opaque := isOpaque, Width := width,
               Height := height, Size := src.Data.length, Illustration := false },
          log ++ [Call.exec p.identifyCmd identifyArgs])) := by
  constructor
  · intro info log1 h hfmt
    obtain ⟨out, format, quality, isOpaque, width, height, _, _, hcase⟩ :=
      LoadImageInfo_ok env p src log log1 info h
    rcases hcase with ⟨_, hinfo, hlog⟩ | ⟨hpng, b, _, hinfo⟩
    · rw [hinfo]
      exact ⟨rfl, hlog⟩
    · rw [hinfo] at hfmt
      exact absurd hpng hfmt
  · intro out format quality isOpaque width height hrun hscan hfmt
    have hrun2 : env.run p.identifyCmd ["-format", "%m %Q %[opaque] %w %h", "-"] src.Data =
        .ok out := hrun
    simp [LoadImageInfo, hrun2, hscan, hfmt, identifyArgs]

/-- C16, instantiated: the JPEG that `demoEnv` reports is not classified. -/
theorem LoadImageInfo_non_png_witness :
    LoadImageInfo (demoEnv []) demoProcessor (demoConfig "").Src [] =
      (.ok demoSource, [Call.exec "identify" identifyArgs]) :=
  (LoadImageInfo_non_png (demoEnv []) demoProcessor (demoConfig "").Src []).2
    [] "JPEG" 90 true 300 200 rfl rfl (by decide)

/-! ## C17: the number of colours needed for 50% coverage -/

/-- C17 (divergence): on a 200x200 image of 17 colours, sixteen of 2400 pixels
and one of 1600, no colour covers 10% of the 40000 pixels and nine colours
(21600 pixels) are the least that exceed the 50% threshold of 20000, so
`k = 9 < 10` and the specified verdict is true; `isIllustration` computes
`colorsCntIn50Pct = 10`, one more than `k`, and returns false. -/
theorem isIllustration_counts_one_more :
    coloursNeeded seventeenColourWand = 9 ∧
    specifiedVerdict seventeenColourWand = true ∧
    histogramCount (fun _ => 0) seventeenColourWand = 10 ∧
    isIllustration (wandEnv seventeenColourWand) midPng (pngInfo 200 200) [] =
      (.ok false, [Call.readImageBlob, Call.getImageHistogram]) := by
  refine ⟨by decide, by decide, by decide, ?_⟩
  have h1 : 20 * 1024 ≤ midPng.Data.length := by
    show 20 * 1024 ≤ (List.replicate (20 * 1024) 0).length
    rw [List.length_replicate]
  have h2 : midPng.Data.length ≤ 1024 * 1024 := by
    show (List.replicate (20 * 1024) 0).length ≤ 1024 * 1024
    rw [List.length_replicate]
    omega
  have hlen : (midPng.Data.length : Int) = 20480 := by
    show ((List.replicate (20 * 1024) 0).length : Int) = 20480
    rw [List.length_replicate]
    rfl
  have h3 : F32.lt F32.one (F32.div (F32.ofInt midPng.Data.length)
      (F32.ofInt (wrap64 ((pngInfo 200 200).Width * (pngInfo 200 200).Height)))) = false := by
    rw [hlen]
    decide
  rw [isIllustration_unscaled (wandEnv seventeenColourWand) midPng (pngInfo 200 200) []
    seventeenColourWand h1 h2 h3 (by decide) rfl]
  have hv : histogramVerdict (wandEnv seventeenColourWand).intOfF32 seventeenColourWand = false := by
    decide
  rw [hv]
  rfl

/-! ## C18: the order of the supported formats -/

/-- C18: `getOutputFormat` depends only on which formats occur in the client
list: two lists with the same elements (in any order, with any repetition)
yield the same format argument and the same MIME type. -/
theorem getOutputFormat_same_elements (src target : Info) (l1 l2 : List String)
    (hsame : ∀ f : String, f ∈ l1 ↔ f ∈ l2) :
    getOutputFormat src target l1 = getOutputFormat src target l2 := by
  have hw1 := getOutputFormat_webP_flag src target l1 (false, false)
  have hw2 := getOutputFormat_webP_flag src target l2 (false, false)
  have ha1 := getOutputFormat_avif_flag src target l1 (false, false)
  have ha2 := getOutputFormat_avif_flag src target l2 (false, false)
  have hw : (l1.foldl (getOutputFormatStep src target) (false, false)).1 =
      (l2.foldl (getOutputFormatStep src target) (false, false)).1 := by
    rw [Bool.eq_iff_iff, hw1, hw2, hsame "image/webp"]
  have ha : (l1.foldl (getOutputFormatStep src target) (false, false)).2 =
      (l2.foldl (getOutputFormatStep src target) (false, false)).2 := by
    rw [Bool.eq_iff_iff, ha1, ha2, hsame "image/avif"]
  unfold getOutputFormat
  simp only [hw, ha]

/-- C18, instantiated: reordering and repeating the entries changes nothing. -/
theorem getOutputFormat_same_elements_witness :
    getOutputFormat demoSource demoSource ["image/avif", "image/webp"] =
      getOutputFormat demoSource demoSource ["image/webp", "image/avif", "image/webp"] :=
  getOutputFormat_same_elements demoSource demoSource ["image/avif", "image/webp"]
    ["image/webp", "image/avif", "image/webp"] (by
      intro f
      simp only [List.mem_cons, List.mem_singleton, List.not_mem_nil, or_false]
      tauto)

/-! ## C19: the quality of a PNG source -/

/-- C19: a source that `LoadImageInfo` returns with the format "PNG" has
quality 100, whatever identify printed; for such a source
`getQualityOptions` always emits a quality directive: 82 minus the penalty of
the tier for an output other than AVIF, and 70 minus the penalty for AVIF. -/
theorem LoadImageInfo_png_quality (env : Env) (p : ImageMagick) (src : Image)
    (log log1 : List Call) (info : Info) (config : TransformationConfig)
    (hload : LoadImageInfo env p src log = (.ok info, log1)) (hpng : info.Format = "PNG") :
    info.Quality = 100 ∧
    (∀ mime : String, mime ≠ "image/avif" →
      getQualityOptions info config mime =
        ["-quality", Itoa (82 - tierPenalty config.Quality)]) ∧
    getQualityOptions info config "image/avif" =
      ["-quality", Itoa (70 - tierPenalty config.Quality)] := by
  obtain ⟨out, format, quality, isOpaque, width, height, _, _, hcase⟩ :=
    LoadImageInfo_ok env p src log log1 info hload
  have hq : info.Quality = 100 := by
    rcases hcase with ⟨hfmt, hinfo, _⟩ | ⟨_, b, _, hinfo⟩
    · rw [hinfo] at hpng
      exact absurd hpng hfmt
    · rw [hinfo]
  refine ⟨hq, ?_, ?_⟩
  · intro mime hmime
    have hb : baseQuality info config mime = 82 := by
      simp [baseQuality, hmime, hq]
    rw [getQualityOptions_eq info config mime (by rw [hb]; norm_num) (by rw [hb]; norm_num),
      hb]
    simp
  · have hb : baseQuality info config "image/avif" = 70 := by
      simp [baseQuality, hq]
    rw [getQualityOptions_eq info config "image/avif" (by rw [hb]; norm_num)
      (by rw [hb]; norm_num), hb]
    simp

/-- C19, instantiated: identify prints quality 92 for the PNG of `pngEnv`, the
reported quality is 100, and tier LOWER with WebP output gives "-quality 62". -/
theorem LoadImageInfo_png_quality_witness :
    LoadImageInfo (pngEnv []) demoProcessor (demoConfig "").Src [] =
      (.ok pngSource, [Call.exec "identify" identifyArgs]) ∧
    pngSource.Quality = 100 ∧
    getQualityOptions pngSource (demoConfigAt Quality.LOWER) "image/webp" = ["-quality", "62"] :=
  have h := LoadImageInfo_png_quality (pngEnv []) demoProcessor (demoConfig "").Src []
    [Call.exec "identify" identifyArgs] pngSource (demoConfigAt Quality.LOWER) (by rfl) rfl
  ⟨by rfl, h.1, h.2.1 "image/webp" (by decide)⟩

end Transformimgs
